import Mathlib

/-!
Space shooter: the simulation loop of `src/main.c`

A shallow embedding of the game state and of `InitGame`, `SpawnParticles`,
`ShootBullet`, `SpawnEnemy` and `UpdateGame`, followed by the properties
proved about them.

Conventions of the embedding.

* C `float` values are exact rationals (`ℚ`): rounding is not modelled.
  C `int` values are `Int`; no run considered here comes near `INT_MAX`.
* The static globals of `main.c` are the fields of `Game`.  The four pools
  are lists; `WellFormed` records their fixed lengths, which every function
  below preserves.  A `for` loop over a pool whose body touches only slot
  `i` of that pool is a traversal of the list, the other globals being
  threaded through it.
* What `main.c` takes from raylib and libm and is not in the repository is
  a parameter: `Lib` holds `sinf`, `cosf`, `PI` and the two collision
  predicates; `Input` holds what `GetFrameTime`, `IsKeyDown` and
  `IsMouseButtonDown` answer during one frame; the generator behind
  `GetRandomValue` is an arbitrary stream of raw draws kept in the state.
-/

namespace SpaceShooter

/-! ## Data model (main.c, lines 38-118) -/

def SCREEN_WIDTH : ℚ := 800
def SCREEN_HEIGHT : ℚ := 600
def MAX_BULLETS : Nat := 50
def MAX_ENEMIES : Nat := 20
def MAX_STARS : Nat := 100
def MAX_PARTICLES : Nat := 200

structure Vector2 where
  x : ℚ
  y : ℚ
deriving DecidableEq

structure Color where
  r : Nat
  g : Nat
  b : Nat
  a : Nat
deriving DecidableEq

structure Rectangle where
  x : ℚ
  y : ℚ
  width : ℚ
  height : ℚ
deriving DecidableEq

inductive GameState where
  | STATE_MENU
  | STATE_GAME
  | STATE_GAMEOVER
deriving DecidableEq

structure Player where
  position : Vector2
  size : Vector2
  speed : ℚ
  health : Int
  score : Int
  shoot_timer : ℚ
  active : Bool
  damage_timer : ℚ
deriving DecidableEq

structure Bullet where
  position : Vector2
  velocity : Vector2
  radius : ℚ
  active : Bool
  color : Color
deriving DecidableEq

structure Enemy where
  position : Vector2
  size : Vector2
  speed : ℚ
  health : Int
  active : Bool
  type : Int
  move_angle : ℚ
deriving DecidableEq

structure Star where
  position : Vector2
  speed : ℚ
  brightness : ℚ
  size : ℚ
deriving DecidableEq

structure Particle where
  position : Vector2
  velocity : Vector2
  radius : ℚ
  lifetime : ℚ
  max_lifetime : ℚ
  color : Color
  active : Bool
deriving DecidableEq

/-- State of the library's pseudo-random generator: the raw draws still to come. -/
abbrev Rand := Nat → Nat

/-- The process state: the static globals of main.c together with the generator state. -/
structure Game where
  player : Player
  bullets : List Bullet
  enemies : List Enemy
  stars : List Star
  particles : List Particle
  gameState : GameState
  gameTime : ℚ
  enemyTimer : ℚ
  wave : Int
  difficultyMultiplier : ℚ
  random : Rand

/-- The pools have the sizes of the arrays declared in main.c. -/
def WellFormed (g : Game) : Prop :=
  g.bullets.length = MAX_BULLETS ∧ g.enemies.length = MAX_ENEMIES ∧
  g.stars.length = MAX_STARS ∧ g.particles.length = MAX_PARTICLES

/-- What the program takes from raylib and libm. -/
structure Lib where
  PI : ℚ
  sinf : ℚ → ℚ
  cosf : ℚ → ℚ
  CheckCollisionCircleRec : Vector2 → ℚ → Rectangle → Bool
  CheckCollisionRecs : Rectangle → Rectangle → Bool

/-- Answers of the frame clock and of the input queries during one frame. -/
structure Input where
  dt : ℚ
  KEY_LEFT : Bool
  KEY_A : Bool
  KEY_RIGHT : Bool
  KEY_D : Bool
  KEY_UP : Bool
  KEY_W : Bool
  KEY_DOWN : Bool
  KEY_S : Bool
  KEY_SPACE : Bool
  MOUSE_BUTTON_LEFT : Bool

/-! ## Utility functions (main.c, lines 124-127) -/

/-- One call of raylib's `GetRandomValue(min, max)`: the next raw draw, reduced
into the inclusive range, and the generator advanced by one. -/
def GetRandomValue (min max : Int) (r : Rand) : Int × Rand :=
  (min + (r 0 : Int) % (max - min + 1), fun n => r (n + 1))

def RandomFloat (min max : ℚ) (r : Rand) : ℚ × Rand :=
  let d := GetRandomValue 0 10000 r
  (min + (d.1 : ℚ) / 10000 * (max - min), d.2)

/-! ## InitGame (main.c, lines 134-176) -/

def initStars : List Star → Rand → List Star × Rand
  | [], r => ([], r)
  | _ :: ss, r =>
    let px := GetRandomValue 0 800 r
    let py := GetRandomValue 0 600 px.2
    let sp := RandomFloat 20 150 py.2
    let br := RandomFloat (3 / 10) 1 sp.2
    let sz := RandomFloat 1 3 br.2
    let rest := initStars ss sz.2
    ({ position := ⟨px.1, py.1⟩, speed := sp.1, brightness := br.1, size := sz.1 } :: rest.1,
      rest.2)

def InitGame (g : Game) : Game :=
  let st := initStars g.stars g.random
  { g with
    player :=
      { position := ⟨SCREEN_WIDTH / 2, SCREEN_HEIGHT - 80⟩
        size := ⟨40, 40⟩
        speed := 300
        health := 5
        score := 0
        shoot_timer := 0
        active := true
        damage_timer := 0 }
    bullets := g.bullets.map fun b => { b with active := false }
    enemies := g.enemies.map fun e => { e with active := false }
    particles := g.particles.map fun p => { p with active := false }
    stars := st.1
    gameTime := 0
    enemyTimer := 0
    wave := 1
    difficultyMultiplier := 1
    random := st.2 }

/-! ## SpawnParticles (main.c, lines 184-203) -/

/-- The particle written into a free slot: four draws, in source order. -/
def newParticle (L : Lib) (position : Vector2) (color : Color) (r : Rand) : Particle × Rand :=
  let angle := RandomFloat 0 (2 * L.PI) r
  let spd := RandomFloat 50 250 angle.2
  let rad := RandomFloat 2 6 spd.2
  let life := RandomFloat (3 / 10) (8 / 10) rad.2
  ({ position := position
     velocity := ⟨L.cosf angle.1 * spd.1, L.sinf angle.1 * spd.1⟩
     radius := rad.1
     lifetime := life.1
     max_lifetime := life.1
     color := color
     active := true }, life.2)

/-- The loop of SpawnParticles over the slots from index `i` on. -/
def spawnParticlesLoop (L : Lib) (position : Vector2) (color : Color) :
    Int → List Particle → Rand → List Particle × Rand
  | _, [], r => ([], r)
  | count, p :: ps, r =>
    if count > 0 then
      if !p.active then
        let np := newParticle L position color r
        let rest := spawnParticlesLoop L position color (count - 1) ps np.2
        (np.1 :: rest.1, rest.2)
      else
        let rest := spawnParticlesLoop L position color count ps r
        (p :: rest.1, rest.2)
    else (p :: ps, r)

def SpawnParticles (L : Lib) (position : Vector2) (color : Color) (count : Int) (g : Game) : Game :=
  let res := spawnParticlesLoop L position color count g.particles g.random
  { g with particles := res.1, random := res.2 }

/-! ## ShootBullet (main.c, lines 210-221) -/

def shootInto (position velocity : Vector2) (color : Color) : List Bullet → List Bullet
  | [] => []
  | b :: bs =>
    if !b.active then
      { active := true, position := position, velocity := velocity, radius := 4, color := color }
        :: bs
    else b :: shootInto position velocity color bs

def ShootBullet (position velocity : Vector2) (color : Color) (g : Game) : Game :=
  { g with bullets := shootInto position velocity color g.bullets }

/-! ## SpawnEnemy (main.c, lines 228-263) -/

/-- The enemy written into a free slot: three draws, in source order. -/
def newEnemy (L : Lib) (wave : Int) (r : Rand) : Enemy × Rand :=
  let px := GetRandomValue 40 (800 - 40) r
  let typeChance := GetRandomValue 0 100 px.2
  let ang := RandomFloat 0 (2 * L.PI) typeChance.2
  if typeChance.1 < 60 then
    ({ active := true, position := ⟨px.1, -40⟩, type := 0, size := ⟨30, 30⟩,
       speed := 80 + wave * 10, health := 1, move_angle := ang.1 }, ang.2)
  else if typeChance.1 < 85 then
    ({ active := true, position := ⟨px.1, -40⟩, type := 1, size := ⟨20, 20⟩,
       speed := 150 + wave * 15, health := 1, move_angle := ang.1 }, ang.2)
  else
    ({ active := true, position := ⟨px.1, -40⟩, type := 2, size := ⟨40, 40⟩,
       speed := 50 + wave * 5, health := 3, move_angle := ang.1 }, ang.2)

def spawnInto (L : Lib) (wave : Int) : List Enemy → Rand → List Enemy × Rand
  | [], r => ([], r)
  | e :: es, r =>
    if !e.active then
      let ne := newEnemy L wave r
      (ne.1 :: es, ne.2)
    else
      let rest := spawnInto L wave es r
      (e :: rest.1, rest.2)

def SpawnEnemy (L : Lib) (g : Game) : Game :=
  let res := spawnInto L g.wave g.enemies g.random
  { g with enemies := res.1, random := res.2 }

/-! ## UpdateGame (main.c, lines 270-459) -/

/-- The (int) cast of a float: truncation toward zero. -/
def truncToInt (q : ℚ) : Int := if 0 ≤ q then ⌊q⌋ else ⌈q⌉

/-- The table `points[]` of line 378, indexed by the enemy type (0, 1 or 2);
an index outside the table, which no spawned enemy has, reads as 0. -/
def points (type : Int) : Int :=
  if type = 0 then 100 else if type = 1 then 150 else if type = 2 then 300 else 0

def playerRect (p : Player) : Rectangle :=
  ⟨p.position.x - p.size.x / 2, p.position.y - p.size.y / 2, p.size.x, p.size.y⟩

def enemyRect (e : Enemy) : Rectangle :=
  ⟨e.position.x - e.size.x / 2, e.position.y - e.size.y / 2, e.size.x, e.size.y⟩

/-- Player movement and screen boundary clamping (lines 277-294). -/
def movePlayer (inp : Input) (p : Player) : Player :=
  let x1 := if inp.KEY_LEFT || inp.KEY_A then p.position.x - p.speed * inp.dt else p.position.x
  let x2 := if inp.KEY_RIGHT || inp.KEY_D then x1 + p.speed * inp.dt else x1
  let y1 := if inp.KEY_UP || inp.KEY_W then p.position.y - p.speed * inp.dt else p.position.y
  let y2 := if inp.KEY_DOWN || inp.KEY_S then y1 + p.speed * inp.dt else y1
  let x3 := if x2 < p.size.x / 2 then p.size.x / 2 else x2
  let x4 := if x3 > SCREEN_WIDTH - p.size.x / 2 then SCREEN_WIDTH - p.size.x / 2 else x3
  let y3 := if y2 < p.size.y / 2 then p.size.y / 2 else y2
  let y4 := if y3 > SCREEN_HEIGHT - p.size.y / 2 then SCREEN_HEIGHT - p.size.y / 2 else y3
  { p with position := ⟨x4, y4⟩ }

/-- The block guarded by `player.active` (lines 276-314): movement, then shooting. -/
def playerPhase (inp : Input) (g : Game) : Game :=
  if g.player.active then
    let p1 := movePlayer inp g.player
    let p2 := { p1 with shoot_timer := p1.shoot_timer - inp.dt }
    let g1 := { g with player := p2 }
    if (inp.KEY_SPACE || inp.MOUSE_BUTTON_LEFT) ∧ p2.shoot_timer ≤ 0 then
      let g2 := ShootBullet ⟨p2.position.x - 12, p2.position.y - 20⟩ ⟨0, -500⟩ ⟨0, 200, 255, 255⟩ g1
      let g3 := ShootBullet ⟨p2.position.x + 12, p2.position.y - 20⟩ ⟨0, -500⟩ ⟨0, 200, 255, 255⟩ g2
      { g3 with player := { g3.player with shoot_timer := 3 / 20 } }
    else g1
  else g

/-- Lines 317-318. -/
def tickDamageTimer (dt : ℚ) (p : Player) : Player :=
  if p.damage_timer > 0 then { p with damage_timer := p.damage_timer - dt } else p

/-- Body of the bullet loop (lines 322-329). -/
def updateBullet (dt : ℚ) (b : Bullet) : Bullet :=
  if b.active then
    let b1 := { b with position := ⟨b.position.x + b.velocity.x * dt, b.position.y + b.velocity.y * dt⟩ }
    if b1.position.y < -10 ∨ b1.position.y > SCREEN_HEIGHT + 10 then { b1 with active := false }
    else b1
  else b

/-- Movement and off-screen retirement of one enemy (lines 336-343). -/
def moveEnemy (L : Lib) (dt : ℚ) (e : Enemy) : Enemy :=
  let a := e.move_angle + dt * 3
  let y := e.position.y + e.speed * dt
  let x := e.position.x + L.sinf a * 50 * dt
  let e1 := { e with move_angle := a, position := ⟨x, y⟩ }
  if e1.position.y > SCREEN_HEIGHT + 50 then { e1 with active := false } else e1

/-- The condition under which bullet `b` hits enemy `e` (lines 348-356). -/
def bulletHits (L : Lib) (e : Enemy) (b : Bullet) : Bool :=
  b.active && decide (b.velocity.y < 0) &&
    L.CheckCollisionCircleRec b.position b.radius (enemyRect e)

/-- The explosion of a killed enemy, coloured by type (lines 363-375). -/
def explode (L : Lib) (e : Enemy) (g : Game) : Game :=
  if e.type = 0 then
    SpawnParticles L e.position ⟨255, 160, 50, 255⟩ 6
      (SpawnParticles L e.position ⟨255, 60, 30, 255⟩ 10 g)
  else if e.type = 1 then
    SpawnParticles L e.position ⟨255, 255, 255, 255⟩ 5
      (SpawnParticles L e.position ⟨0, 230, 255, 255⟩ 10 g)
  else
    SpawnParticles L e.position ⟨255, 80, 200, 255⟩ 8
      (SpawnParticles L e.position ⟨200, 0, 255, 255⟩ 15 g)

/-- What a hit does to the enemy and to the other globals (lines 358-383);
the retirement of the bullet itself is done by `collideBullets`. -/
def onBulletHit (L : Lib) (b : Bullet) (e : Enemy) (g : Game) : Enemy × Game :=
  let e1 := { e with health := e.health - 1 }
  if e1.health ≤ 0 then
    let e2 := { e1 with active := false }
    let g1 := explode L e2 g
    (e2, { g1 with player := { g1.player with score := g1.player.score + points e2.type } })
  else
    (e1, SpawnParticles L b.position ⟨200, 200, 200, 255⟩ 4 g)

/-- The bullet loop run for one enemy (lines 347-386).  The pool is traversed
in index order; the enemy and the other globals are threaded through. -/
def collideBullets (L : Lib) : List Bullet → Enemy → Game → List Bullet × Enemy × Game
  | [], e, g => ([], e, g)
  | b :: bs, e, g =>
    if bulletHits L e b then
      let h := onBulletHit L b e g
      let rest := collideBullets L bs h.1 h.2
      ({ b with active := false } :: rest.1, rest.2)
    else
      let rest := collideBullets L bs e g
      (b :: rest.1, rest.2)

/-- Collision of one enemy with the player (lines 389-420). -/
def playerContact (L : Lib) (e : Enemy) (g : Game) : Enemy × Game :=
  if g.player.active ∧ g.player.damage_timer ≤ 0 then
    if L.CheckCollisionRecs (playerRect g.player) (enemyRect e) then
      let e1 := { e with active := false }
      let g1 := { g with player := { g.player with health := g.player.health - 1, damage_timer := 1 } }
      let g2 := SpawnParticles L g1.player.position ⟨0, 180, 255, 255⟩ 12 g1
      let g3 := SpawnParticles L g2.player.position ⟨255, 255, 255, 255⟩ 6 g2
      if g3.player.health ≤ 0 then
        let g4 := { g3 with player := { g3.player with active := false } }
        let g5 := SpawnParticles L g4.player.position ⟨0, 180, 255, 255⟩ 30 g4
        let g6 := SpawnParticles L g5.player.position ⟨255, 255, 255, 255⟩ 20 g5
        let g7 := SpawnParticles L g6.player.position ⟨100, 220, 255, 255⟩ 15 g6
        (e1, { g7 with gameState := GameState.STATE_GAMEOVER })
      else (e1, g3)
    else (e, g)
  else (e, g)

/-- Body of the enemy loop for one slot (lines 334-421).  The slot is passed
explicitly; the field `enemies` of the state is not read. -/
def updateEnemy (L : Lib) (dt : ℚ) (e : Enemy) (g : Game) : Enemy × Game :=
  if e.active then
    let e1 := moveEnemy L dt e
    let c := collideBullets L g.bullets e1 g
    playerContact L c.2.1 { c.2.2 with bullets := c.1 }
  else (e, g)

/-- The enemy loop (lines 333-422). -/
def updateEnemies (L : Lib) (dt : ℚ) : List Enemy → Game → List Enemy × Game
  | [], g => ([], g)
  | e :: es, g =>
    let r := updateEnemy L dt e g
    let rest := updateEnemies L dt es r.2
    (r.1 :: rest.1, rest.2)

/-- Body of the particle loop (lines 426-436). -/
def updateParticle (dt : ℚ) (p : Particle) : Particle :=
  if p.active then
    let p1 :=
      { p with
        position := ⟨p.position.x + p.velocity.x * dt, p.position.y + p.velocity.y * dt⟩
        lifetime := p.lifetime - dt
        velocity := ⟨p.velocity.x * (49 / 50), p.velocity.y * (49 / 50)⟩ }
    if p1.lifetime ≤ 0 then { p1 with active := false } else p1
  else p

/-- The star loop (lines 440-446). -/
def updateStars (dt : ℚ) : List Star → Rand → List Star × Rand
  | [], r => ([], r)
  | s :: ss, r =>
    let y := s.position.y + s.speed * dt
    if y > SCREEN_HEIGHT then
      let d := GetRandomValue 0 800 r
      let rest := updateStars dt ss d.2
      ({ s with position := ⟨d.1, 0⟩ } :: rest.1, rest.2)
    else
      let rest := updateStars dt ss r
      ({ s with position := ⟨s.position.x, y⟩ } :: rest.1, rest.2)

/-- The state when the enemy loop starts: lines 271-330 have run. -/
def beforeCollision (inp : Input) (g : Game) : Game :=
  let g1 := { g with gameTime := g.gameTime + inp.dt }
  let g2 := playerPhase inp g1
  let g3 := { g2 with player := tickDamageTimer inp.dt g2.player }
  { g3 with bullets := g3.bullets.map (updateBullet inp.dt) }

/-- The state when the enemy loop has ended: lines 271-422 have run. -/
def afterCollision (L : Lib) (inp : Input) (g : Game) : Game :=
  let g4 := beforeCollision inp g
  let r := updateEnemies L inp.dt g4.enemies g4
  { r.2 with enemies := r.1 }

/-- The state when the wave system starts: lines 271-446 have run. -/
def beforeSpawner (L : Lib) (inp : Input) (g : Game) : Game :=
  let g5 := afterCollision L inp g
  let g6 := { g5 with particles := g5.particles.map (updateParticle inp.dt) }
  let st := updateStars inp.dt g6.stars g6.random
  { g6 with stars := st.1, random := st.2 }

/-- The enemy wave system (lines 449-454). -/
def spawnerStep (L : Lib) (dt : ℚ) (g : Game) : Game :=
  let g1 := { g with enemyTimer := g.enemyTimer + dt }
  let spawnInterval := 2 / g1.difficultyMultiplier
  if g1.enemyTimer ≥ spawnInterval then SpawnEnemy L { g1 with enemyTimer := 0 } else g1

/-- Lines 457-458. -/
def difficultyStep (g : Game) : Game :=
  { g with
    difficultyMultiplier := 1 + g.gameTime / 30
    wave := 1 + truncToInt (g.gameTime / 20) }

/-- One tick of the simulation. -/
def UpdateGame (L : Lib) (inp : Input) (g : Game) : Game :=
  difficultyStep (spawnerStep L inp.dt (beforeSpawner L inp g))

/-- A run of ticks, one input per frame. -/
def runTicks (L : Lib) : List Input → Game → Game
  | [], g => g
  | inp :: rest, g => runTicks L rest (UpdateGame L inp g)

/-- States reachable from InitGame by ticks of non-negative duration. -/
inductive Reachable (L : Lib) : Game → Prop
  | init (g : Game) : WellFormed g → Reachable L (InitGame g)
  | tick (inp : Input) (g : Game) : Reachable L g → 0 ≤ inp.dt → Reachable L (UpdateGame L inp g)

/-! ## Vocabulary of the properties -/

/-- What the enemy loop never writes. -/
structure PassFrame (g g' : Game) : Prop where
  sameGameTime : g'.gameTime = g.gameTime
  sameEnemyTimer : g'.enemyTimer = g.enemyTimer
  sameWave : g'.wave = g.wave
  sameDifficulty : g'.difficultyMultiplier = g.difficultyMultiplier
  sameStars : g'.stars = g.stars
  playerPosition : g'.player.position = g.player.position
  playerSize : g'.player.size = g.player.size
  playerSpeed : g'.player.speed = g.player.speed
  playerShootTimer : g'.player.shoot_timer = g.player.shoot_timer
  particlesLength : g'.particles.length = g.particles.length

/-- A bullet with its `active` flag cleared (line 357). -/
def retire (b : Bullet) : Bullet := { b with active := false }

/-- Number of bullets of a pool that the test of line 356 accepts for enemy `e`. -/
def hitCount (L : Lib) (e : Enemy) (bs : List Bullet) : Nat := bs.countP (bulletHits L e)

/-- Number of active slots of the bullet pool. -/
def activeBullets (bs : List Bullet) : Nat := bs.countP fun b => b.active

/-- Sum of the health fields of the enemy pool. -/
def totalHealth (es : List Enemy) : Int := (es.map fun e => e.health).sum

/-- The condition under which enemy `e` damages player `p` (lines 389 and 403). -/
def contact (L : Lib) (p : Player) (e : Enemy) : Bool :=
  p.active && decide (p.damage_timer ≤ 0) && L.CheckCollisionRecs (playerRect p) (enemyRect e)

/-- The player after a damaging contact (lines 405-406 and 411-412). -/
def damaged (p : Player) : Player :=
  { p with
    health := p.health - 1
    damage_timer := 1
    active := if p.health - 1 ≤ 0 then false else p.active }

/-- What line 379 adds to the score while the bullet loop runs for enemy `e`
against the pool `bs`: the type value, once for every hit that leaves the
health at or below 0. -/
def scoreGain (L : Lib) (e : Enemy) (bs : List Bullet) : Int :=
  points e.type * max 0 ((hitCount L e bs : Int) - max (e.health - 1) 0)

/-- The bullet pool after the bullet loop has run for enemy `e`. -/
def retireHits (L : Lib) (e : Enemy) (bs : List Bullet) : List Bullet :=
  bs.map fun b => if bulletHits L e b then retire b else b

/-- Two player records that differ at most in the score. -/
structure SameButScore (p p' : Player) : Prop where
  samePosition : p'.position = p.position
  sameSize : p'.size = p.size
  sameSpeed : p'.speed = p.speed
  sameHealth : p'.health = p.health
  sameShootTimer : p'.shoot_timer = p.shoot_timer
  sameActive : p'.active = p.active
  sameDamageTimer : p'.damage_timer = p.damage_timer

/-- The bounding boxes of player `p` and enemy `e` overlap (the test of line 403). -/
def overlaps (L : Lib) (p : Player) (e : Enemy) : Bool :=
  L.CheckCollisionRecs (playerRect p) (enemyRect e)

/-- Health stays within 0..5 and the player is active exactly while health is positive. -/
def PlayerInv (p : Player) : Prop :=
  0 ≤ p.health ∧ p.health ≤ 5 ∧ (p.active = true ↔ 0 < p.health)

/-- The clock is non-negative and the difficulty values are the ones computed from it. -/
def TimeInv (g : Game) : Prop :=
  0 ≤ g.gameTime ∧ g.wave = 1 + truncToInt (g.gameTime / 20) ∧
    g.difficultyMultiplier = 1 + g.gameTime / 30

/-- Every active enemy of the pool has positive health. -/
def EnemyInv (es : List Enemy) : Prop := ∀ e ∈ es, e.active = true → 0 < e.health

/-- Bullet `b` passes the test of line 356 against some enemy of `es` that is
active when the tick starts, at the position the enemy has after its move. -/
def hitsSome (L : Lib) (dt : ℚ) (es : List Enemy) (b : Bullet) : Bool :=
  es.any fun e => e.active && bulletHits L (moveEnemy L dt e) b

/-- Number of bullets of `bs` that pass the test against enemy `e` and against
none of the enemies `pre` that come before it in the pool. -/
def firstHits (L : Lib) (dt : ℚ) (pre : List Enemy) (e : Enemy) (bs : List Bullet) : Nat :=
  bs.countP fun b => bulletHits L (moveEnemy L dt e) b && !hitsSome L dt pre b

/-- What the enemy loop adds to the score, computed from the enemy pool and the
bullet pool as they are when the loop starts. -/
def passScore (L : Lib) (dt : ℚ) : List Enemy → List Bullet → Int
  | [], _ => 0
  | e :: es, bs =>
    if e.active then
      scoreGain L (moveEnemy L dt e) bs + passScore L dt es (retireHits L (moveEnemy L dt e) bs)
    else passScore L dt es bs

/-- The types of the enemies whose health reaches 0 by bullet hits in the tick:
the slots that are active with positive health when the tick starts and have
health at or below 0 when the enemy loop has ended, in pool order. -/
def bulletKills (L : Lib) (inp : Input) (g : Game) : List Int :=
  ((g.enemies.zip (afterCollision L inp g).enemies).filter fun p =>
    p.1.active && decide (0 < p.1.health) && decide (p.2.health ≤ 0)).map fun p => p.1.type

/-- At most one bullet overlaps each enemy in the tick. -/
def singleHits (L : Lib) (inp : Input) (g : Game) : Prop :=
  ∀ e ∈ g.enemies, e.active = true →
    hitCount L (moveEnemy L inp.dt e) (beforeCollision inp g).bullets ≤ 1

/-- The bullet kills of a run of ticks, in order. -/
def runKills (L : Lib) : List Input → Game → List Int
  | [], _ => []
  | inp :: rest, g => bulletKills L inp g ++ runKills L rest (UpdateGame L inp g)

/-- At most one bullet overlaps each enemy in each tick of the run. -/
def runSingleHits (L : Lib) : List Input → Game → Prop
  | [], _ => True
  | inp :: rest, g => singleHits L inp g ∧ runSingleHits L rest (UpdateGame L inp g)

/-- The bullet kills of the enemy loop, computed from the enemy pool and the
bullet pool as they are when the loop starts. -/
def passKills (L : Lib) (dt : ℚ) : List Enemy → List Bullet → List Int
  | [], _ => []
  | e :: es, bs =>
    if e.active then
      (if 0 < e.health ∧ e.health - hitCount L (moveEnemy L dt e) bs ≤ 0 then [e.type] else []) ++
        passKills L dt es (retireHits L (moveEnemy L dt e) bs)
    else passKills L dt es bs

instance (es : List Enemy) : Decidable (EnemyInv es) :=
  inferInstanceAs (Decidable (∀ e ∈ es, e.active = true → 0 < e.health))

instance (L : Lib) (inp : Input) (g : Game) : Decidable (singleHits L inp g) :=
  inferInstanceAs (Decidable (∀ e ∈ g.enemies, e.active = true →
    hitCount L (moveEnemy L inp.dt e) (beforeCollision inp g).bullets ≤ 1))

/-- raylib's `CheckCollisionRecs` (rshapes.c): the open interiors of the boxes meet. -/
def rlCheckCollisionRecs (rec1 rec2 : Rectangle) : Bool :=
  decide ((rec1.x < rec2.x + rec2.width ∧ rec1.x + rec1.width > rec2.x) ∧
    (rec1.y < rec2.y + rec2.height ∧ rec1.y + rec1.height > rec2.y))

/-- raylib's `CheckCollisionCircleRec` (rshapes.c). -/
def rlCheckCollisionCircleRec (center : Vector2) (radius : ℚ) (rec : Rectangle) : Bool :=
  let recCenterX := rec.x + rec.width / 2
  let recCenterY := rec.y + rec.height / 2
  let dx := |center.x - recCenterX|
  let dy := |center.y - recCenterY|
  if dx > rec.width / 2 + radius then false
  else if dy > rec.height / 2 + radius then false
  else if dx ≤ rec.width / 2 then true
  else if dy ≤ rec.height / 2 then true
  else
    decide ((dx - rec.width / 2) * (dx - rec.width / 2) +
      (dy - rec.height / 2) * (dy - rec.height / 2) ≤ radius * radius)

/-- The Maclaurin polynomial of sine of degree 21: within 0.0000001 of the sine
for arguments between -4 and 4. -/
def sinPoly (x : ℚ) : ℚ :=
  x - x ^ 3 / 6 + x ^ 5 / 120 - x ^ 7 / 5040 + x ^ 9 / 362880 - x ^ 11 / 39916800
    + x ^ 13 / 6227020800 - x ^ 15 / 1307674368000 + x ^ 17 / 355687428096000
    - x ^ 19 / 121645100408832000 + x ^ 21 / 51090942171709440000

/-- The Maclaurin polynomial of cosine of degree 20: within 0.0000001 of the
cosine for arguments between -4 and 4. -/
def cosPoly (x : ℚ) : ℚ :=
  1 - x ^ 2 / 2 + x ^ 4 / 24 - x ^ 6 / 720 + x ^ 8 / 40320 - x ^ 10 / 3628800
    + x ^ 12 / 479001600 - x ^ 14 / 87178291200 + x ^ 16 / 20922789888000
    - x ^ 18 / 6402373705728000 + x ^ 20 / 2432902008176640000

/-- The library instance of the closed examples: the collision predicates as
raylib computes them, `PI` as written in raylib.h, and `sinPoly` and `cosPoly`
for `sinf` and `cosf`; the examples keep the arguments of both between 0 and 4. -/
def raylib : Lib where
  PI := 314159265358979323846 / 100000000000000000000
  sinf := sinPoly
  cosf := cosPoly
  CheckCollisionCircleRec := rlCheckCollisionCircleRec
  CheckCollisionRecs := rlCheckCollisionRecs

/-- The zero-initialised statics of the process before `main` runs, with generator state `r`. -/
def zeroGame (r : Rand) : Game where
  player := ⟨⟨0, 0⟩, ⟨0, 0⟩, 0, 0, 0, 0, false, 0⟩
  bullets := List.replicate MAX_BULLETS ⟨⟨0, 0⟩, ⟨0, 0⟩, 0, false, ⟨0, 0, 0, 0⟩⟩
  enemies := List.replicate MAX_ENEMIES ⟨⟨0, 0⟩, ⟨0, 0⟩, 0, 0, false, 0, 0⟩
  stars := List.replicate MAX_STARS ⟨⟨0, 0⟩, 0, 0, 0⟩
  particles := List.replicate MAX_PARTICLES ⟨⟨0, 0⟩, ⟨0, 0⟩, 0, 0, 0, ⟨0, 0, 0, 0⟩, false⟩
  gameState := GameState.STATE_MENU
  gameTime := 0
  enemyTimer := 0
  wave := 0
  difficultyMultiplier := 0
  random := r

/-- A frame of duration `dt` in which no key or button is down. -/
def idle (dt : ℚ) : Input :=
  ⟨dt, false, false, false, false, false, false, false, false, false, false⟩

/-- The state after `InitGame` when every raw draw is 0. -/
def freshGame : Game := InitGame (zeroGame fun _ => 0)

/-- The fresh game with every bullet slot made active (a saturated pool). -/
def fullGame : Game :=
  { freshGame with
    bullets := List.replicate MAX_BULLETS ⟨⟨400, 300⟩, ⟨0, -500⟩, 4, true, ⟨0, 200, 255, 255⟩⟩ }

/-- The fresh game with two enemies placed by hand: a Normal one about to touch
the player and a Strong one that reaches the player a second later. -/
def contactGame : Game :=
  { freshGame with
    enemies :=
      ⟨⟨400, 500⟩, ⟨30, 30⟩, 90, 1, true, 0, 0⟩ ::
      ⟨⟨400, 450⟩, ⟨40, 40⟩, 55, 3, true, 2, 0⟩ ::
      List.replicate 18 ⟨⟨0, 0⟩, ⟨0, 0⟩, 0, 0, false, 0, 0⟩ }

/-- A Strong enemy whose box overlaps the box of a player standing at (400, 520)
from the right. -/
def intruder : Enemy := ⟨⟨433, 515⟩, ⟨40, 40⟩, 55, 3, true, 2, 0⟩

/-- The rest of the enemy pool of `contactKillGame`: a Normal enemy far above
the player and 18 free slots. -/
def bystanders : List Enemy :=
  ⟨⟨200, 290⟩, ⟨30, 30⟩, 90, 1, true, 0, 0⟩ ::
    List.replicate 18 ⟨⟨0, 0⟩, ⟨0, 0⟩, 0, 0, false, 0, 0⟩

/-- The fresh game with, placed by hand, the `intruder` in slot 0, a Normal enemy
in slot 1 and a bullet just below the latter. -/
def contactKillGame : Game :=
  { freshGame with
    enemies := intruder :: bystanders
    bullets :=
      ⟨⟨200, 300⟩, ⟨0, -500⟩, 4, true, ⟨0, 200, 255, 255⟩⟩ ::
      List.replicate 49 ⟨⟨0, 0⟩, ⟨0, 0⟩, 0, false, ⟨0, 0, 0, 0⟩⟩ }

/-- The fresh game with, placed by hand, a Normal, a Fast and a Strong enemy side
by side and five bullets below them: one under the Normal enemy, one under the
Fast enemy and three, 10 pixels apart, under the Strong enemy. -/
def scoreTableGame : Game :=
  { freshGame with
    enemies :=
      ⟨⟨200, 200⟩, ⟨30, 30⟩, 90, 1, true, 0, 0⟩ ::
      ⟨⟨400, 200⟩, ⟨20, 20⟩, 165, 1, true, 1, 0⟩ ::
      ⟨⟨600, 200⟩, ⟨40, 40⟩, 55, 3, true, 2, 0⟩ ::
      List.replicate 17 ⟨⟨0, 0⟩, ⟨0, 0⟩, 0, 0, false, 0, 0⟩
    bullets :=
      ⟨⟨200, 230⟩, ⟨0, -500⟩, 4, true, ⟨0, 200, 255, 255⟩⟩ ::
      ⟨⟨400, 225⟩, ⟨0, -500⟩, 4, true, ⟨0, 200, 255, 255⟩⟩ ::
      ⟨⟨600, 230⟩, ⟨0, -500⟩, 4, true, ⟨0, 200, 255, 255⟩⟩ ::
      ⟨⟨600, 240⟩, ⟨0, -500⟩, 4, true, ⟨0, 200, 255, 255⟩⟩ ::
      ⟨⟨600, 250⟩, ⟨0, -500⟩, 4, true, ⟨0, 200, 255, 255⟩⟩ ::
      List.replicate 45 ⟨⟨0, 0⟩, ⟨0, 0⟩, 0, false, ⟨0, 0, 0, 0⟩⟩ }

/-- Three frames at 60 frames per second with no input. -/
def threeFrames : List Input := [idle (1 / 60), idle (1 / 60), idle (1 / 60)]

/-- A run from InitGame: the player flies to the top of the screen (5/3 s, up key
held), the wave system spawns a Normal enemy at x = 392 in the next frame (1/3 s),
and the enemy descends for 1/4 s, to just above the player. -/
def doubleHitGame : Game :=
  runTicks raylib [{ idle (5 / 3) with KEY_UP := true }, idle (1 / 3), idle (1 / 4)]
    (InitGame (zeroGame fun n => if n = 500 then 352 else 0))

/-- A frame at 60 frames per second with the fire key held. -/
def fireFrame : Input := { idle (1 / 60) with KEY_SPACE := true }

/-! ## The menu, the game-over screen and the main loop (main.c, lines 649-844) -/

/-- Answers of `IsKeyPressed` during one frame. -/
structure Pressed where
  KEY_ENTER : Bool
  KEY_ESCAPE : Bool

/-- What DrawMenu does to the globals: the star loop (lines 653-659, the same
body as in UpdateGame) and the start of a game on Enter (lines 709-712).  The
drawing calls only read. -/
def DrawMenu (inp : Input) (pr : Pressed) (g : Game) : Game :=
  let st := updateStars inp.dt g.stars g.random
  let g1 := { g with stars := st.1, random := st.2 }
  if pr.KEY_ENTER then { InitGame g1 with gameState := GameState.STATE_GAME } else g1

/-- Body of the star loop of DrawGameOver (lines 724-728). -/
def gameOverStar (dt : ℚ) (s : Star) : Star :=
  let y := s.position.y + s.speed * dt * (3 / 10)
  if y > SCREEN_HEIGHT then { s with position := ⟨s.position.x, 0⟩ }
  else { s with position := ⟨s.position.x, y⟩ }

/-- What DrawGameOver does to the globals: the star loop, the particle loop
(lines 735-744, the same body as in UpdateGame) and the two key tests
(lines 786-792). -/
def DrawGameOver (inp : Input) (pr : Pressed) (g : Game) : Game :=
  let g1 := { g with stars := g.stars.map (gameOverStar inp.dt) }
  let g2 := { g1 with particles := g1.particles.map (updateParticle inp.dt) }
  let g3 := if pr.KEY_ENTER then { InitGame g2 with gameState := GameState.STATE_GAME } else g2
  if pr.KEY_ESCAPE then { g3 with gameState := GameState.STATE_MENU } else g3

/-- DrawGame (lines 570-643) writes no global. -/
def DrawGame (g : Game) : Game := g

/-- The update phase of one iteration of the main loop (lines 818-829). -/
def updatePhase (L : Lib) (inp : Input) (pr : Pressed) (g : Game) : Game :=
  match g.gameState with
  | GameState.STATE_MENU => g
  | GameState.STATE_GAME =>
    let g1 := UpdateGame L inp g
    if pr.KEY_ESCAPE then { g1 with gameState := GameState.STATE_MENU } else g1
  | GameState.STATE_GAMEOVER => g

/-- The draw phase of one iteration of the main loop (lines 832-838). -/
def drawPhase (inp : Input) (pr : Pressed) (g : Game) : Game :=
  match g.gameState with
  | GameState.STATE_MENU => DrawMenu inp pr g
  | GameState.STATE_GAME => DrawGame g
  | GameState.STATE_GAMEOVER => DrawGameOver inp pr g

/-- One iteration of the main loop. -/
def mainFrame (L : Lib) (inp : Input) (pr : Pressed) (g : Game) : Game :=
  drawPhase inp pr (updatePhase L inp pr g)

/-- Number of active slots of the particle pool. -/
def activeParticles (ps : List Particle) : Nat := ps.countP fun p => p.active

/-- Number of free slots of the particle pool. -/
def freeSlots (ps : List Particle) : Nat := ps.countP fun p => !p.active

/-- The type given to a spawned enemy when the type draw of line 238 is `c`
(the raw draw behind it being `c` as well). -/
def typeOfDraw (c : Nat) : Int := (newEnemy raylib 1 fun n => if n = 1 then c else 0).1.type

/-- The state `contactGame` in the Playing state with the player down to its last
health point. -/
def lastLifeGame : Game :=
  { contactGame with
    player := { contactGame.player with health := 1 }
    gameState := GameState.STATE_GAME }

/-- The point of the box `rec` nearest to `c`: each coordinate of `c` clamped to
the extent of the box. -/
def nearestPoint (rec : Rectangle) (c : Vector2) : Vector2 :=
  ⟨max rec.x (min c.x (rec.x + rec.width)), max rec.y (min c.y (rec.y + rec.height))⟩

/-- Squared distance between two points. -/
def distSq (a b : Vector2) : ℚ := (a.x - b.x) ^ 2 + (a.y - b.y) ^ 2

/-- The points of the box `rec`, border included. -/
def inBox (rec : Rectangle) (q : Vector2) : Prop :=
  (rec.x ≤ q.x ∧ q.x ≤ rec.x + rec.width) ∧ (rec.y ≤ q.y ∧ q.y ≤ rec.y + rec.height)

/-- Modelled from the spec: the body of `CheckCollisionCircleRec`, which main.c
calls at line 356 and which is raylib's, not under src/.  The spec has the test
report a hit iff the distance from the circle centre to the nearest box point is
at most the radius; a distance being non-negative, that is the comparison of the
squares for a radius that is not negative. -/
def CheckCollisionCircleRec (center : Vector2) (radius : ℚ) (rec : Rectangle) : Bool :=
  decide (0 ≤ radius ∧ distSq center (nearestPoint rec center) ≤ radius * radius)

/-- The library with the circle-against-box test as the spec describes it. -/
def specLib : Lib := { raylib with CheckCollisionCircleRec := CheckCollisionCircleRec }

/-- A Strong enemy, 40 by 40, centred at (600, 200). -/
def strongEnemy : Enemy := ⟨⟨600, 200⟩, ⟨40, 40⟩, 55, 3, true, 2, 0⟩

/-- A bullet of radius 4 whose centre is at distance exactly 4 from the corner
(620, 220) of the box of `strongEnemy`. -/
def cornerBullet : Bullet := ⟨⟨620 + 12 / 5, 220 + 16 / 5⟩, ⟨0, -500⟩, 4, true, ⟨0, 200, 255, 255⟩⟩

/-! ## A Strong enemy hit twice in a tick -/

/-- The Strong enemy of `strongEnemy` after a first hit: health 2. -/
def woundedEnemy : Enemy := { strongEnemy with health := 2 }

/-- The fresh game with, placed by hand, `woundedEnemy` in slot 0 with two bullets
side by side below it, and a Normal enemy in slot 1 that no bullet reaches. -/
def strongPairGame : Game :=
  { freshGame with
    enemies :=
      woundedEnemy ::
      ⟨⟨200, 200⟩, ⟨30, 30⟩, 90, 1, true, 0, 0⟩ ::
      List.replicate 18 ⟨⟨0, 0⟩, ⟨0, 0⟩, 0, 0, false, 0, 0⟩
    bullets :=
      ⟨⟨595, 228⟩, ⟨0, -500⟩, 4, true, ⟨0, 200, 255, 255⟩⟩ ::
      ⟨⟨605, 228⟩, ⟨0, -500⟩, 4, true, ⟨0, 200, 255, 255⟩⟩ ::
      List.replicate 48 ⟨⟨0, 0⟩, ⟨0, 0⟩, 0, false, ⟨0, 0, 0, 0⟩⟩ }

/-- The state `strongPairGame` with a third bullet, below the Normal enemy. -/
def strongTrioGame : Game :=
  { strongPairGame with
    bullets :=
      ⟨⟨595, 228⟩, ⟨0, -500⟩, 4, true, ⟨0, 200, 255, 255⟩⟩ ::
      ⟨⟨605, 228⟩, ⟨0, -500⟩, 4, true, ⟨0, 200, 255, 255⟩⟩ ::
      ⟨⟨200, 225⟩, ⟨0, -500⟩, 4, true, ⟨0, 200, 255, 255⟩⟩ ::
      List.replicate 47 ⟨⟨0, 0⟩, ⟨0, 0⟩, 0, false, ⟨0, 0, 0, 0⟩⟩ }

/-! ## Invariants of the pools and of the player -/

/-- The size and the health range that SpawnEnemy gives each enemy type. -/
def EnemyShape (e : Enemy) : Prop :=
  (e.type = 0 ∧ e.size = ⟨30, 30⟩ ∧ e.health = 1) ∨
  (e.type = 1 ∧ e.size = ⟨20, 20⟩ ∧ e.health = 1) ∨
  (e.type = 2 ∧ e.size = ⟨40, 40⟩ ∧ 1 ≤ e.health ∧ e.health ≤ 3)

/-- Every active enemy of the pool has the shape of its type. -/
def EnemiesShaped (es : List Enemy) : Prop := ∀ e ∈ es, e.active = true → EnemyShape e

/-- States reachable from InitGame by ticks of non-negative duration and by
calls of SpawnEnemy between ticks. -/
inductive ReachableSpawn (L : Lib) : Game → Prop
  | init (g : Game) : WellFormed g → ReachableSpawn L (InitGame g)
  | tick (inp : Input) (g : Game) :
      ReachableSpawn L g → 0 ≤ inp.dt → ReachableSpawn L (UpdateGame L inp g)
  | spawn (g : Game) : ReachableSpawn L g → ReachableSpawn L (SpawnEnemy L g)

/-- Every active bullet of the pool is one that ShootBullet made for the player. -/
def BulletInv (bs : List Bullet) : Prop :=
  ∀ b ∈ bs, b.active = true → b.velocity = ⟨0, -500⟩ ∧ b.radius = 4

/-- The player is 40 by 40 and its box lies inside the screen. -/
def PlayerBox (p : Player) : Prop :=
  p.size = ⟨40, 40⟩ ∧ (20 ≤ p.position.x ∧ p.position.x ≤ 780) ∧
    (20 ≤ p.position.y ∧ p.position.y ≤ 580)

/-- Every active bullet is within the margin of 10 pixels around the screen. -/
def BulletsOnScreen (bs : List Bullet) : Prop :=
  ∀ b ∈ bs, b.active = true → -10 ≤ b.position.y ∧ b.position.y ≤ SCREEN_HEIGHT + 10

/-- The test of lines 298-299: the tick with input `inp` from state `g` fires a
volley. -/
def fires (inp : Input) (g : Game) : Bool :=
  g.player.active && ((inp.KEY_SPACE || inp.MOUSE_BUTTON_LEFT) &&
    decide ((movePlayer inp g.player).shoot_timer - inp.dt ≤ 0))

/-- What the off-screen argument takes from the two collision tests of raylib: a
reported collision implies that the vertical extents of the two shapes meet. -/
def VerticalLib (L : Lib) : Prop :=
  (∀ c r rec, L.CheckCollisionCircleRec c r rec = true → rec.y ≤ c.y + r) ∧
  (∀ a b, L.CheckCollisionRecs a b = true → b.y < a.y + a.height)

/-! ## A bullet kill and a contact in the same tick -/

/-- A Normal enemy whose box overlaps the box of a player standing at (400, 520)
and lies in the path of the left bullet of a volley fired from there. -/
def rammer : Enemy := ⟨⟨380, 495⟩, ⟨30, 30⟩, 90, 1, true, 0, 0⟩

/-- The fresh game with the `rammer` placed by hand in slot 0. -/
def ramGame : Game :=
  { freshGame with
    enemies := rammer :: List.replicate 19 ⟨⟨0, 0⟩, ⟨0, 0⟩, 0, 0, false, 0, 0⟩ }

/-- The state `ramGame` with a Fast enemy in slot 1, above the player and in the
path of the right bullet of the volley. -/
def ramPairGame : Game :=
  { freshGame with
    enemies :=
      rammer :: ⟨⟨412, 485⟩, ⟨20, 20⟩, 165, 1, true, 1, 0⟩ ::
        List.replicate 18 ⟨⟨0, 0⟩, ⟨0, 0⟩, 0, 0, false, 0, 0⟩ }

/-! ## An enemy that leaves the screen -/

/-- A state reached late in a game: a first tick of 2000 s (which ends with a
spawn at wave 1) and a tick of 1/30 s (which ends with a spawn at wave 101). -/
def lateGame : Game := runTicks raylib [idle 2000, idle (1 / 30)] freshGame

/-- The enemy in slot 1 of `lateGame`: a Normal enemy of wave 101, just spawned. -/
def sprinter : Enemy := ⟨⟨40, -40⟩, ⟨30, 30⟩, 1090, 1, true, 0, 0⟩

/-! ## The course planner (src/project/course.c, src/project/ui.c)

The strings of a course are the copies made by `safe_strdup`; every caller in
the repository passes strings, so the fields are strings here.  The `int` fields
are integers: the arithmetic of `course_create` stays within the range of `int`
for the first 57 million ids.  A pointer to a course is the course, and the array
of prerequisite pointers is the list of the ids of the courses pointed to. -/

structure Course where
  name : String
  code : String
  credits : Int
  prerequisites : List Int
  prereq_count : Int
  id : Int
  x : Int
  y : Int
deriving DecidableEq

/-- The list manager: the chain of nodes from `head` on, each node given by its
course; `id_map` is never allocated. -/
structure CourseList where
  head : List Course
  count : Int
  id_map : Option (List Int)

/-- One call of `course_create` (course.c, lines 27-47); `next_id` is the static
counter, returned advanced.  The operators / and % of C truncate toward zero. -/
def course_create (name code : String) (credits : Int) (next_id : Int) : Course × Int :=
  let id := next_id
  ({ name := name, code := code, credits := credits, prerequisites := [], prereq_count := 0,
     id := id, x := 100 + (Int.tmod id 4) * 200, y := 100 + (Int.tdiv id 4) * 150 },
    next_id + 1)

/-- A run of calls of `course_create`, in call order, threading the static counter. -/
def createCourses : List (String × String × Int) → Int → List Course × Int
  | [], next_id => ([], next_id)
  | a :: rest, next_id =>
    let r := course_create a.1 a.2.1 a.2.2 next_id
    let rs := createCourses rest r.2
    (r.1 :: rs.1, rs.2)

def courselist_create : CourseList := { head := [], count := 0, id_map := none }

/-- The function `courselist_add` (course.c, lines 137-147) on a list from
`courselist_create`; a NULL course is `none`. -/
def courselist_add (list : CourseList) (course : Option Course) : CourseList :=
  match course with
  | none => list
  | some c => { list with head := c :: list.head, count := list.count + 1 }

/-- The traversal of `courselist_find_by_code` (lines 154-161); `strcmp` returns
0 exactly on equal strings. -/
def findByCode : List Course → String → Option Course
  | [], _ => none
  | c :: rest, code => if c.code = code then some c else findByCode rest code

/-- The function `courselist_find_by_code` (course.c, lines 150-164); a NULL query
is `none`, and so is the result NULL. -/
def courselist_find_by_code (list : CourseList) (code : Option String) : Option Course :=
  match code with
  | none => none
  | some s => findByCode list.head s

/-- A run of calls of `courselist_add`, in call order. -/
def addCourses (courses : List (Option Course)) (list : CourseList) : CourseList :=
  courses.foldl courselist_add list

def BOX_WIDTH : Int := 180
def BOX_HEIGHT : Int := 90

/-- The test of lines 205-209 of ui.c for one course: the corner of the box is the
course position plus the offset, converted to `int`. -/
def courseHit (course : Course) (mouse_pos offset : Vector2) : Bool :=
  let x : Int := truncToInt ((course.x : ℚ) + offset.x)
  let y : Int := truncToInt ((course.y : ℚ) + offset.y)
  decide ((mouse_pos.x ≥ x ∧ mouse_pos.x ≤ ((x + BOX_WIDTH : Int) : ℚ)) ∧
    (mouse_pos.y ≥ y ∧ mouse_pos.y ≤ ((y + BOX_HEIGHT : Int) : ℚ)))

/-- The traversal of `get_course_at_mouse` (ui.c, lines 199-217). -/
def courseAt : List Course → Vector2 → Vector2 → Option Course
  | [], _, _ => none
  | c :: rest, mouse_pos, offset =>
    if courseHit c mouse_pos offset then some c else courseAt rest mouse_pos offset

def get_course_at_mouse (courses : CourseList) (mouse_pos offset : Vector2) : Option Course :=
  courseAt courses.head mouse_pos offset

/-- The first five calls of `setup_sample_courses` (test.c, lines 112-124). -/
def sampleArgs : List (String × String × Int) :=
  [("Introduction to Programming", "CS101", 4), ("Calculus I", "MATH101", 4),
    ("Physics I", "PHYS101", 3), ("English I", "ENG101", 3), ("Data Structures", "CS102", 4)]

/-- The courses of `sampleArgs`, created in order from the initial counter 1. -/
def sampleCourses : List Course := (createCourses sampleArgs 1).1

/-! ## Frame lemmas: what each function leaves untouched -/

@[simp] theorem SpawnParticles_player (L : Lib) (p : Vector2) (c : Color) (n : Int) (g : Game) :
    (SpawnParticles L p c n g).player = g.player := rfl

@[simp] theorem SpawnParticles_bullets (L : Lib) (p : Vector2) (c : Color) (n : Int) (g : Game) :
    (SpawnParticles L p c n g).bullets = g.bullets := rfl

@[simp] theorem SpawnParticles_enemies (L : Lib) (p : Vector2) (c : Color) (n : Int) (g : Game) :
    (SpawnParticles L p c n g).enemies = g.enemies := rfl

@[simp] theorem SpawnParticles_stars (L : Lib) (p : Vector2) (c : Color) (n : Int) (g : Game) :
    (SpawnParticles L p c n g).stars = g.stars := rfl

@[simp] theorem SpawnParticles_gameState (L : Lib) (p : Vector2) (c : Color) (n : Int) (g : Game) :
    (SpawnParticles L p c n g).gameState = g.gameState := rfl

@[simp] theorem SpawnParticles_gameTime (L : Lib) (p : Vector2) (c : Color) (n : Int) (g : Game) :
    (SpawnParticles L p c n g).gameTime = g.gameTime := rfl

@[simp] theorem SpawnParticles_enemyTimer (L : Lib) (p : Vector2) (c : Color) (n : Int) (g : Game) :
    (SpawnParticles L p c n g).enemyTimer = g.enemyTimer := rfl

@[simp] theorem SpawnParticles_wave (L : Lib) (p : Vector2) (c : Color) (n : Int) (g : Game) :
    (SpawnParticles L p c n g).wave = g.wave := rfl

@[simp] theorem SpawnParticles_difficultyMultiplier (L : Lib) (p : Vector2) (c : Color) (n : Int)
    (g : Game) : (SpawnParticles L p c n g).difficultyMultiplier = g.difficultyMultiplier := rfl

theorem spawnParticlesLoop_length (L : Lib) (p : Vector2) (c : Color) (n : Int)
    (ps : List Particle) (r : Rand) : (spawnParticlesLoop L p c n ps r).1.length = ps.length := by
  induction ps generalizing n r with
  | nil => rfl
  | cons q qs ih =>
    unfold spawnParticlesLoop
    split
    · split <;> simp [ih]
    · rfl

@[simp] theorem SpawnParticles_particles_length (L : Lib) (p : Vector2) (c : Color) (n : Int)
    (g : Game) : (SpawnParticles L p c n g).particles.length = g.particles.length :=
  spawnParticlesLoop_length L p c n g.particles g.random

@[simp] theorem explode_player (L : Lib) (e : Enemy) (g : Game) :
    (explode L e g).player = g.player := by
  unfold explode; split_ifs <;> rfl

@[simp] theorem explode_bullets (L : Lib) (e : Enemy) (g : Game) :
    (explode L e g).bullets = g.bullets := by
  unfold explode; split_ifs <;> rfl

@[simp] theorem explode_stars (L : Lib) (e : Enemy) (g : Game) :
    (explode L e g).stars = g.stars := by
  unfold explode; split_ifs <;> rfl

@[simp] theorem explode_gameState (L : Lib) (e : Enemy) (g : Game) :
    (explode L e g).gameState = g.gameState := by
  unfold explode; split_ifs <;> rfl

@[simp] theorem explode_gameTime (L : Lib) (e : Enemy) (g : Game) :
    (explode L e g).gameTime = g.gameTime := by
  unfold explode; split_ifs <;> rfl

@[simp] theorem explode_enemyTimer (L : Lib) (e : Enemy) (g : Game) :
    (explode L e g).enemyTimer = g.enemyTimer := by
  unfold explode; split_ifs <;> rfl

@[simp] theorem explode_wave (L : Lib) (e : Enemy) (g : Game) :
    (explode L e g).wave = g.wave := by
  unfold explode; split_ifs <;> rfl

@[simp] theorem explode_difficultyMultiplier (L : Lib) (e : Enemy) (g : Game) :
    (explode L e g).difficultyMultiplier = g.difficultyMultiplier := by
  unfold explode; split_ifs <;> rfl

@[simp] theorem explode_particles_length (L : Lib) (e : Enemy) (g : Game) :
    (explode L e g).particles.length = g.particles.length := by
  unfold explode; split_ifs <;> simp

theorem passFrame_refl (g : Game) : PassFrame g g :=
  ⟨rfl, rfl, rfl, rfl, rfl, rfl, rfl, rfl, rfl, rfl⟩

theorem passFrame_trans {a b c : Game} (h1 : PassFrame a b) (h2 : PassFrame b c) :
    PassFrame a c :=
  ⟨h2.sameGameTime.trans h1.sameGameTime, h2.sameEnemyTimer.trans h1.sameEnemyTimer,
    h2.sameWave.trans h1.sameWave, h2.sameDifficulty.trans h1.sameDifficulty,
    h2.sameStars.trans h1.sameStars, h2.playerPosition.trans h1.playerPosition,
    h2.playerSize.trans h1.playerSize, h2.playerSpeed.trans h1.playerSpeed,
    h2.playerShootTimer.trans h1.playerShootTimer,
    h2.particlesLength.trans h1.particlesLength⟩

theorem SpawnParticles_frame (L : Lib) (p : Vector2) (c : Color) (n : Int) (g : Game) :
    PassFrame g (SpawnParticles L p c n g) :=
  ⟨rfl, rfl, rfl, rfl, rfl, rfl, rfl, rfl, rfl, by simp⟩

theorem explode_frame (L : Lib) (e : Enemy) (g : Game) : PassFrame g (explode L e g) :=
  ⟨by simp, by simp, by simp, by simp, by simp, by simp, by simp, by simp, by simp, by simp⟩

/-! ## One bullet hit -/

theorem onBulletHit_enemy (L : Lib) (b : Bullet) (e : Enemy) (g : Game) :
    (onBulletHit L b e g).1 =
      { e with health := e.health - 1,
               active := if e.health - 1 ≤ 0 then false else e.active } := by
  unfold onBulletHit
  by_cases h : e.health - 1 ≤ 0 <;> simp [h]

theorem onBulletHit_player (L : Lib) (b : Bullet) (e : Enemy) (g : Game) :
    (onBulletHit L b e g).2.player =
      { g.player with
        score := g.player.score + if e.health - 1 ≤ 0 then points e.type else 0 } := by
  unfold onBulletHit
  by_cases h : e.health - 1 ≤ 0 <;> simp [h]

theorem onBulletHit_frame (L : Lib) (b : Bullet) (e : Enemy) (g : Game) :
    PassFrame g (onBulletHit L b e g).2 := by
  unfold onBulletHit
  by_cases h : e.health - 1 ≤ 0
  · simp only [h, if_true]
    exact ⟨by simp, by simp, by simp, by simp, by simp, by simp, by simp, by simp, by simp,
      by simp⟩
  · simp only [h, if_false]
    exact SpawnParticles_frame _ _ _ _ _

@[simp] theorem onBulletHit_gameState (L : Lib) (b : Bullet) (e : Enemy) (g : Game) :
    (onBulletHit L b e g).2.gameState = g.gameState := by
  unfold onBulletHit
  by_cases h : e.health - 1 ≤ 0 <;> simp [h]

@[simp] theorem onBulletHit_rect (L : Lib) (b : Bullet) (e : Enemy) (g : Game) :
    enemyRect (onBulletHit L b e g).1 = enemyRect e := by
  rw [onBulletHit_enemy]; rfl

theorem bulletHits_congr (L : Lib) {e e' : Enemy} (h : enemyRect e' = enemyRect e) (b : Bullet) :
    bulletHits L e' b = bulletHits L e b := by
  unfold bulletHits; rw [h]

@[simp] theorem bulletHits_retire (L : Lib) (e : Enemy) (b : Bullet) :
    bulletHits L e (retire b) = false := by
  simp [bulletHits, retire]

theorem bulletHits_active (L : Lib) (e : Enemy) (b : Bullet) (h : bulletHits L e b = true) :
    b.active = true := by
  simp [bulletHits] at h; exact h.1.1

/-! ## The bullet loop run for one enemy -/

theorem collideBullets_cons_hit (L : Lib) (b : Bullet) (bs : List Bullet) (e : Enemy) (g : Game)
    (h : bulletHits L e b = true) :
    collideBullets L (b :: bs) e g =
      (retire b :: (collideBullets L bs (onBulletHit L b e g).1 (onBulletHit L b e g).2).1,
        (collideBullets L bs (onBulletHit L b e g).1 (onBulletHit L b e g).2).2) := by
  rw [collideBullets]; simp only [h, if_true]; rfl

theorem collideBullets_cons_miss (L : Lib) (b : Bullet) (bs : List Bullet) (e : Enemy) (g : Game)
    (h : bulletHits L e b = false) :
    collideBullets L (b :: bs) e g =
      (b :: (collideBullets L bs e g).1, (collideBullets L bs e g).2) := by
  rw [collideBullets]; simp only [h, Bool.false_eq_true, if_false]

theorem collideBullets_bullets (L : Lib) (bs : List Bullet) (e : Enemy) (g : Game) :
    (collideBullets L bs e g).1 = bs.map fun b => if bulletHits L e b then retire b else b := by
  induction bs generalizing e g with
  | nil => rfl
  | cons b bs ih =>
    cases h : bulletHits L e b
    · rw [collideBullets_cons_miss L b bs e g h]
      simp only [List.map_cons, h, Bool.false_eq_true, if_false]
      rw [ih]
    · rw [collideBullets_cons_hit L b bs e g h]
      simp only [List.map_cons, h, if_true]
      rw [ih]
      congr 1
      apply List.map_congr_left
      intro b' _
      rw [bulletHits_congr L (onBulletHit_rect L b e g)]

theorem hitCount_nil (L : Lib) (e : Enemy) : hitCount L e [] = 0 := rfl

theorem hitCount_cons (L : Lib) (e : Enemy) (b : Bullet) (bs : List Bullet) :
    hitCount L e (b :: bs) = hitCount L e bs + if bulletHits L e b then 1 else 0 := by
  unfold hitCount; rw [List.countP_cons]

theorem hitCount_congr (L : Lib) {e e' : Enemy} (h : enemyRect e' = enemyRect e)
    (bs : List Bullet) : hitCount L e' bs = hitCount L e bs := by
  unfold hitCount
  congr 1
  funext b
  exact bulletHits_congr L h b

theorem collideBullets_enemy (L : Lib) (bs : List Bullet) (e : Enemy) (g : Game) :
    (collideBullets L bs e g).2.1 =
      { e with
        health := e.health - hitCount L e bs
        active := if 0 < hitCount L e bs ∧ e.health - hitCount L e bs ≤ 0 then false
                  else e.active } := by
  induction bs generalizing e g with
  | nil => simp [collideBullets, hitCount_nil]
  | cons b bs ih =>
    rw [hitCount_cons]
    cases h : bulletHits L e b
    · rw [collideBullets_cons_miss L b bs e g h]
      simp only [Bool.false_eq_true, if_false, Nat.add_zero]
      rw [ih]
    · rw [collideBullets_cons_hit L b bs e g h]
      simp only [if_true]
      rw [ih, hitCount_congr L (onBulletHit_rect L b e g), onBulletHit_enemy]
      by_cases hk' : 0 < hitCount L e bs
      · by_cases hh : e.health - 1 - (hitCount L e bs : Int) ≤ 0
        · have hh' : e.health - ((hitCount L e bs + 1 : Nat) : Int) ≤ 0 := by push_cast; omega
          simp [hk', hh, hh']
          omega
        · have hh' : ¬ e.health - ((hitCount L e bs + 1 : Nat) : Int) ≤ 0 := by push_cast; omega
          have h1 : ¬ e.health - 1 ≤ 0 := by omega
          simp [hk', hh, hh', h1]
          omega
      · have hz : hitCount L e bs = 0 := by omega
        by_cases h1 : e.health - 1 ≤ 0 <;> simp [hz, h1]

theorem collideBullets_player (L : Lib) (bs : List Bullet) (e : Enemy) (g : Game) :
    (collideBullets L bs e g).2.2.player =
      { g.player with
        score := g.player.score +
          points e.type * max 0 ((hitCount L e bs : Int) - max (e.health - 1) 0) } := by
  induction bs generalizing e g with
  | nil => simp [collideBullets, hitCount_nil]
  | cons b bs ih =>
    rw [hitCount_cons]
    cases h : bulletHits L e b
    · rw [collideBullets_cons_miss L b bs e g h]
      simp only [Bool.false_eq_true, if_false, Nat.add_zero]
      rw [ih]
    · rw [collideBullets_cons_hit L b bs e g h]
      simp only [if_true]
      rw [ih, hitCount_congr L (onBulletHit_rect L b e g), onBulletHit_player, onBulletHit_enemy]
      simp only
      congr 1
      by_cases h1 : e.health - 1 ≤ 0
      · have e1 : max (e.health - 1 - 1) 0 = 0 := by omega
        have e2 : max (e.health - 1) 0 = 0 := by omega
        have e3 : max 0 ((hitCount L e bs : Int) - 0) = hitCount L e bs := by omega
        have e4 : max 0 (((hitCount L e bs + 1 : Nat) : Int) - 0) = (hitCount L e bs : Int) + 1 := by
          push_cast; omega
        simp only [h1, if_true, e1, e2, e3, e4]
        ring
      · have e1 : max (e.health - 1 - 1) 0 = e.health - 2 := by omega
        have e2 : max (e.health - 1) 0 = e.health - 1 := by omega
        have e3 : ((hitCount L e bs + 1 : Nat) : Int) - (e.health - 1)
            = (hitCount L e bs : Int) - (e.health - 2) := by push_cast; ring
        simp only [h1, if_false, e1, e2, e3]
        ring_nf

theorem collideBullets_frame (L : Lib) (bs : List Bullet) (e : Enemy) (g : Game) :
    PassFrame g (collideBullets L bs e g).2.2 := by
  induction bs generalizing e g with
  | nil => exact passFrame_refl g
  | cons b bs ih =>
    cases h : bulletHits L e b
    · rw [collideBullets_cons_miss L b bs e g h]
      exact ih _ _
    · rw [collideBullets_cons_hit L b bs e g h]
      exact passFrame_trans (onBulletHit_frame L b e g) (ih _ _)

@[simp] theorem collideBullets_gameState (L : Lib) (bs : List Bullet) (e : Enemy) (g : Game) :
    (collideBullets L bs e g).2.2.gameState = g.gameState := by
  induction bs generalizing e g with
  | nil => rfl
  | cons b bs ih =>
    cases h : bulletHits L e b
    · rw [collideBullets_cons_miss L b bs e g h]
      exact ih _ _
    · rw [collideBullets_cons_hit L b bs e g h]
      simp only
      rw [ih]; simp

theorem collideBullets_none (L : Lib) (bs : List Bullet) (e : Enemy) (g : Game)
    (h : hitCount L e bs = 0) : collideBullets L bs e g = (bs, e, g) := by
  induction bs generalizing e g with
  | nil => rfl
  | cons b bs ih =>
    rw [hitCount_cons] at h
    have hb : bulletHits L e b = false := by
      cases hb : bulletHits L e b
      · rfl
      · simp [hb] at h
    have hr : hitCount L e bs = 0 := by omega
    rw [collideBullets_cons_miss L b bs e g hb, ih e g hr]

/-! ## Contact with the player, and the body of the enemy loop -/

theorem playerContact_miss (L : Lib) (e : Enemy) (g : Game) (h : contact L g.player e = false) :
    playerContact L e g = (e, g) := by
  unfold playerContact
  by_cases h1 : g.player.active = true ∧ g.player.damage_timer ≤ 0
  · have h2 : L.CheckCollisionRecs (playerRect g.player) (enemyRect e) = false := by
      simpa [contact, h1.1, h1.2] using h
    simp [h1, h2]
  · simp only [h1, if_false]

theorem contact_iff (L : Lib) (p : Player) (e : Enemy) :
    contact L p e = true ↔
      (p.active = true ∧ p.damage_timer ≤ 0) ∧
        L.CheckCollisionRecs (playerRect p) (enemyRect e) = true := by
  simp [contact]

theorem playerContact_hit (L : Lib) (e : Enemy) (g : Game) (h : contact L g.player e = true) :
    (playerContact L e g).1 = { e with active := false } ∧
    (playerContact L e g).2.player = damaged g.player ∧
    (playerContact L e g).2.gameState =
      (if g.player.health - 1 ≤ 0 then GameState.STATE_GAMEOVER else g.gameState) ∧
    (playerContact L e g).2.bullets = g.bullets ∧
    PassFrame g (playerContact L e g).2 := by
  have h' := (contact_iff L g.player e).1 h
  by_cases hh : g.player.health - 1 ≤ 0
  · have e1 : playerContact L e g = ({ e with active := false },
        { SpawnParticles L g.player.position ⟨100, 220, 255, 255⟩ 15
            (SpawnParticles L g.player.position ⟨255, 255, 255, 255⟩ 20
              (SpawnParticles L g.player.position ⟨0, 180, 255, 255⟩ 30
                { SpawnParticles L g.player.position ⟨255, 255, 255, 255⟩ 6
                    (SpawnParticles L g.player.position ⟨0, 180, 255, 255⟩ 12
                      { g with player :=
                          { g.player with health := g.player.health - 1, damage_timer := 1 } })
                  with player :=
                    { g.player with
                      health := g.player.health - 1, damage_timer := 1, active := false } }))
          with gameState := GameState.STATE_GAMEOVER }) := by
      unfold playerContact
      simp only [h'.1, h'.2, and_self, if_true, SpawnParticles_player, hh]
    rw [e1]
    refine ⟨rfl, ?_, ?_, rfl, ?_⟩
    · simp [damaged, hh]
    · simp [hh]
    · exact ⟨rfl, rfl, rfl, rfl, rfl, rfl, rfl, rfl, rfl, by simp⟩
  · have e1 : playerContact L e g = ({ e with active := false },
        SpawnParticles L g.player.position ⟨255, 255, 255, 255⟩ 6
          (SpawnParticles L g.player.position ⟨0, 180, 255, 255⟩ 12
            { g with player :=
                { g.player with health := g.player.health - 1, damage_timer := 1 } })) := by
      unfold playerContact
      simp only [h'.1, h'.2, and_self, if_true, SpawnParticles_player, hh, if_false]
    rw [e1]
    refine ⟨rfl, ?_, ?_, rfl, ?_⟩
    · simp [damaged, hh]
    · simp [hh]
    · exact ⟨rfl, rfl, rfl, rfl, rfl, rfl, rfl, rfl, rfl, by simp⟩

theorem playerContact_hit_enemy (L : Lib) (e : Enemy) (g : Game)
    (h : contact L g.player e = true) :
    (playerContact L e g).1 = { e with active := false } := (playerContact_hit L e g h).1

theorem playerContact_hit_player (L : Lib) (e : Enemy) (g : Game)
    (h : contact L g.player e = true) :
    (playerContact L e g).2.player = damaged g.player := (playerContact_hit L e g h).2.1

theorem playerContact_hit_gameState (L : Lib) (e : Enemy) (g : Game)
    (h : contact L g.player e = true) :
    (playerContact L e g).2.gameState =
      if g.player.health - 1 ≤ 0 then GameState.STATE_GAMEOVER else g.gameState :=
  (playerContact_hit L e g h).2.2.1

@[simp] theorem playerContact_bullets (L : Lib) (e : Enemy) (g : Game) :
    (playerContact L e g).2.bullets = g.bullets := by
  cases h : contact L g.player e
  · rw [playerContact_miss L e g h]
  · exact (playerContact_hit L e g h).2.2.2.1

theorem playerContact_frame (L : Lib) (e : Enemy) (g : Game) :
    PassFrame g (playerContact L e g).2 := by
  cases h : contact L g.player e
  · rw [playerContact_miss L e g h]; exact passFrame_refl g
  · exact (playerContact_hit L e g h).2.2.2.2

theorem playerContact_enemy (L : Lib) (e : Enemy) (g : Game) :
    (playerContact L e g).1 = { e with active := e.active && !contact L g.player e } := by
  cases h : contact L g.player e
  · rw [playerContact_miss L e g h]; simp
  · rw [playerContact_hit_enemy L e g h]; simp

theorem contact_congr (L : Lib) {p p' : Player} {e e' : Enemy}
    (ha : p'.active = p.active) (ht : p'.damage_timer = p.damage_timer)
    (hp : p'.position = p.position) (hs : p'.size = p.size)
    (he : enemyRect e' = enemyRect e) : contact L p' e' = contact L p e := by
  unfold contact playerRect
  rw [ha, ht, hp, hs, he]

theorem updateEnemy_inactive (L : Lib) (dt : ℚ) (e : Enemy) (g : Game) (h : e.active = false) :
    updateEnemy L dt e g = (e, g) := by
  unfold updateEnemy; simp [h]

theorem updateEnemy_active (L : Lib) (dt : ℚ) (e : Enemy) (g : Game) (h : e.active = true) :
    updateEnemy L dt e g =
      playerContact L (collideBullets L g.bullets (moveEnemy L dt e) g).2.1
        { (collideBullets L g.bullets (moveEnemy L dt e) g).2.2 with
          bullets := (collideBullets L g.bullets (moveEnemy L dt e) g).1 } := by
  unfold updateEnemy; simp [h]

@[simp] theorem moveEnemy_health (L : Lib) (dt : ℚ) (e : Enemy) :
    (moveEnemy L dt e).health = e.health := by
  unfold moveEnemy; simp only; split_ifs <;> rfl

@[simp] theorem moveEnemy_type (L : Lib) (dt : ℚ) (e : Enemy) :
    (moveEnemy L dt e).type = e.type := by
  unfold moveEnemy; simp only; split_ifs <;> rfl

@[simp] theorem moveEnemy_size (L : Lib) (dt : ℚ) (e : Enemy) :
    (moveEnemy L dt e).size = e.size := by
  unfold moveEnemy; simp only; split_ifs <;> rfl

@[simp] theorem moveEnemy_speed (L : Lib) (dt : ℚ) (e : Enemy) :
    (moveEnemy L dt e).speed = e.speed := by
  unfold moveEnemy; simp only; split_ifs <;> rfl

theorem moveEnemy_active (L : Lib) (dt : ℚ) (e : Enemy) (h : (moveEnemy L dt e).active = true) :
    e.active = true := by
  unfold moveEnemy at h; simp only at h
  split_ifs at h
  exact h

/-- The body of the enemy loop, for an active slot, in closed form. -/
theorem updateEnemy_spec (L : Lib) (dt : ℚ) (e : Enemy) (g : Game) (h : e.active = true) :
    (updateEnemy L dt e g).1 =
      { moveEnemy L dt e with
        health := e.health - hitCount L (moveEnemy L dt e) g.bullets
        active :=
          (if 0 < hitCount L (moveEnemy L dt e) g.bullets ∧
              e.health - hitCount L (moveEnemy L dt e) g.bullets ≤ 0 then false
            else (moveEnemy L dt e).active) && !contact L g.player (moveEnemy L dt e) } ∧
    (updateEnemy L dt e g).2.bullets = retireHits L (moveEnemy L dt e) g.bullets ∧
    (updateEnemy L dt e g).2.player =
      (if contact L g.player (moveEnemy L dt e) then
        damaged { g.player with
          score := g.player.score + scoreGain L (moveEnemy L dt e) g.bullets }
      else { g.player with
          score := g.player.score + scoreGain L (moveEnemy L dt e) g.bullets }) ∧
    (updateEnemy L dt e g).2.gameState =
      (if contact L g.player (moveEnemy L dt e) = true ∧ g.player.health - 1 ≤ 0 then
        GameState.STATE_GAMEOVER else g.gameState) ∧
    PassFrame g (updateEnemy L dt e g).2 := by
  rw [updateEnemy_active L dt e g h]
  have hp := collideBullets_player L g.bullets (moveEnemy L dt e) g
  have he := collideBullets_enemy L g.bullets (moveEnemy L dt e) g
  have hb := collideBullets_bullets L g.bullets (moveEnemy L dt e) g
  have hf := collideBullets_frame L g.bullets (moveEnemy L dt e) g
  have hs := collideBullets_gameState L g.bullets (moveEnemy L dt e) g
  have hrect : enemyRect (collideBullets L g.bullets (moveEnemy L dt e) g).2.1
      = enemyRect (moveEnemy L dt e) := by rw [he]; rfl
  have hc : contact L ({ (collideBullets L g.bullets (moveEnemy L dt e) g).2.2 with
        bullets := (collideBullets L g.bullets (moveEnemy L dt e) g).1 } : Game).player
        (collideBullets L g.bullets (moveEnemy L dt e) g).2.1
      = contact L g.player (moveEnemy L dt e) := by
    apply contact_congr L _ _ _ _ hrect
    · show (collideBullets L g.bullets (moveEnemy L dt e) g).2.2.player.active = _
      rw [hp]
    · show (collideBullets L g.bullets (moveEnemy L dt e) g).2.2.player.damage_timer = _
      rw [hp]
    · exact hf.playerPosition
    · exact hf.playerSize
  have hframe : PassFrame g ({ (collideBullets L g.bullets (moveEnemy L dt e) g).2.2 with
        bullets := (collideBullets L g.bullets (moveEnemy L dt e) g).1 } : Game) :=
    ⟨hf.sameGameTime, hf.sameEnemyTimer, hf.sameWave, hf.sameDifficulty, hf.sameStars,
      hf.playerPosition, hf.playerSize, hf.playerSpeed, hf.playerShootTimer,
      hf.particlesLength⟩
  refine ⟨?_, ?_, ?_, ?_, ?_⟩
  · rw [playerContact_enemy, hc, he]
    simp
  · rw [playerContact_bullets]
    exact hb
  · cases hcc : contact L g.player (moveEnemy L dt e)
    · rw [playerContact_miss L _ _ (hc.trans hcc)]
      simp only [Bool.false_eq_true, if_false]
      rw [hp]; simp [scoreGain]
    · rw [playerContact_hit_player L _ _ (hc.trans hcc)]
      simp only [if_true]
      show damaged (collideBullets L g.bullets (moveEnemy L dt e) g).2.2.player = _
      rw [hp]; simp [scoreGain]
  · cases hcc : contact L g.player (moveEnemy L dt e)
    · rw [playerContact_miss L _ _ (hc.trans hcc)]
      simp [hs]
    · rw [playerContact_hit_gameState L _ _ (hc.trans hcc)]
      show (if (collideBullets L g.bullets (moveEnemy L dt e) g).2.2.player.health - 1 ≤ 0
        then _ else (collideBullets L g.bullets (moveEnemy L dt e) g).2.2.gameState) = _
      rw [hp, hs]; simp
  · exact passFrame_trans hframe (playerContact_frame L _ _)

/-! ## The player through the enemy loop -/

theorem sameButScore_refl (p : Player) : SameButScore p p := ⟨rfl, rfl, rfl, rfl, rfl, rfl, rfl⟩

theorem sameButScore_trans {a b c : Player} (h1 : SameButScore a b) (h2 : SameButScore b c) :
    SameButScore a c :=
  ⟨h2.samePosition.trans h1.samePosition, h2.sameSize.trans h1.sameSize,
    h2.sameSpeed.trans h1.sameSpeed, h2.sameHealth.trans h1.sameHealth,
    h2.sameShootTimer.trans h1.sameShootTimer, h2.sameActive.trans h1.sameActive,
    h2.sameDamageTimer.trans h1.sameDamageTimer⟩

theorem sameButScore_set_score (p : Player) (s : Int) : SameButScore p { p with score := s } :=
  ⟨rfl, rfl, rfl, rfl, rfl, rfl, rfl⟩

theorem sameButScore_damaged {p p' : Player} (h : SameButScore p p') :
    SameButScore (damaged p) (damaged p') := by
  refine ⟨h.samePosition, h.sameSize, h.sameSpeed, ?_, h.sameShootTimer, ?_, rfl⟩
  · show p'.health - 1 = p.health - 1
    rw [h.sameHealth]
  · show (if p'.health - 1 ≤ 0 then false else p'.active)
      = (if p.health - 1 ≤ 0 then false else p.active)
    rw [h.sameHealth, h.sameActive]

theorem contact_eq (L : Lib) (p : Player) (e : Enemy) :
    contact L p e = (p.active && decide (p.damage_timer ≤ 0) && overlaps L p e) := rfl

theorem overlaps_congr (L : Lib) {p p' : Player} (hp : p'.position = p.position)
    (hs : p'.size = p.size) (e : Enemy) : overlaps L p' e = overlaps L p e := by
  unfold overlaps playerRect; rw [hp, hs]

theorem contact_false_of_shielded (L : Lib) (p : Player) (e : Enemy)
    (h : p.active = false ∨ 0 < p.damage_timer) : contact L p e = false := by
  rw [contact_eq]
  rcases h with h | h
  · simp [h]
  · have : ¬ p.damage_timer ≤ 0 := not_le.mpr h
    simp [this]

theorem updateEnemies_nil (L : Lib) (dt : ℚ) (g : Game) : updateEnemies L dt [] g = ([], g) := rfl

theorem updateEnemies_cons (L : Lib) (dt : ℚ) (e : Enemy) (es : List Enemy) (g : Game) :
    updateEnemies L dt (e :: es) g =
      ((updateEnemy L dt e g).1 :: (updateEnemies L dt es (updateEnemy L dt e g).2).1,
        (updateEnemies L dt es (updateEnemy L dt e g).2).2) := rfl

theorem updateEnemy_frame (L : Lib) (dt : ℚ) (e : Enemy) (g : Game) :
    PassFrame g (updateEnemy L dt e g).2 := by
  cases h : e.active
  · rw [updateEnemy_inactive L dt e g h]; exact passFrame_refl g
  · exact (updateEnemy_spec L dt e g h).2.2.2.2

theorem updateEnemies_frame (L : Lib) (dt : ℚ) (es : List Enemy) (g : Game) :
    PassFrame g (updateEnemies L dt es g).2 := by
  induction es generalizing g with
  | nil => exact passFrame_refl g
  | cons e es ih =>
    rw [updateEnemies_cons]
    exact passFrame_trans (updateEnemy_frame L dt e g) (ih _)

/-- An enemy that does not damage the player leaves the player as it was, score apart. -/
theorem updateEnemy_miss (L : Lib) (dt : ℚ) (e : Enemy) (g : Game)
    (h : e.active = false ∨ contact L g.player (moveEnemy L dt e) = false) :
    SameButScore g.player (updateEnemy L dt e g).2.player ∧
      (updateEnemy L dt e g).2.gameState = g.gameState := by
  cases ha : e.active
  · rw [updateEnemy_inactive L dt e g ha]; exact ⟨sameButScore_refl _, rfl⟩
  · have hc : contact L g.player (moveEnemy L dt e) = false := by
      rcases h with h | h
      · rw [ha] at h; cases h
      · exact h
    obtain ⟨-, -, hp, hs, -⟩ := updateEnemy_spec L dt e g ha
    rw [hp, hs]
    simp only [hc, Bool.false_eq_true, if_false, false_and]
    exact ⟨sameButScore_set_score _ _, trivial⟩

/-- An enemy that damages the player: one health point, timer set to 1. -/
theorem updateEnemy_hit (L : Lib) (dt : ℚ) (e : Enemy) (g : Game) (ha : e.active = true)
    (hc : contact L g.player (moveEnemy L dt e) = true) :
    SameButScore (damaged g.player) (updateEnemy L dt e g).2.player ∧
      (updateEnemy L dt e g).2.gameState =
        (if g.player.health - 1 ≤ 0 then GameState.STATE_GAMEOVER else g.gameState) ∧
      (updateEnemy L dt e g).1.active = false := by
  obtain ⟨he, -, hp, hs, -⟩ := updateEnemy_spec L dt e g ha
  refine ⟨?_, ?_, ?_⟩
  · rw [hp]; simp only [hc, if_true]
    exact sameButScore_damaged (sameButScore_set_score _ _)
  · rw [hs]; simp only [hc, true_and]
  · rw [he]; simp [hc]

/-- While the player is inactive or still invincible, the enemy loop does not touch
health, timers or the game state. -/
theorem updateEnemies_shielded (L : Lib) (dt : ℚ) (es : List Enemy) (g : Game)
    (h : g.player.active = false ∨ 0 < g.player.damage_timer) :
    SameButScore g.player (updateEnemies L dt es g).2.player ∧
      (updateEnemies L dt es g).2.gameState = g.gameState := by
  induction es generalizing g with
  | nil => exact ⟨sameButScore_refl _, rfl⟩
  | cons e es ih =>
    rw [updateEnemies_cons]
    obtain ⟨h1, h2⟩ := updateEnemy_miss L dt e g (Or.inr (contact_false_of_shielded L _ _ h))
    have h' : (updateEnemy L dt e g).2.player.active = false ∨
        0 < (updateEnemy L dt e g).2.player.damage_timer := by
      rw [h1.sameActive, h1.sameDamageTimer]; exact h
    obtain ⟨h3, h4⟩ := ih _ h'
    exact ⟨sameButScore_trans h1 h3, h4.trans h2⟩

/-- The enemy loop damages the player at most once. -/
theorem updateEnemies_once (L : Lib) (dt : ℚ) (es : List Enemy) (g : Game) :
    SameButScore g.player (updateEnemies L dt es g).2.player ∨
      ((g.player.active = true ∧ g.player.damage_timer ≤ 0) ∧
        SameButScore (damaged g.player) (updateEnemies L dt es g).2.player) := by
  induction es generalizing g with
  | nil => exact Or.inl (sameButScore_refl _)
  | cons e es ih =>
    rw [updateEnemies_cons]
    by_cases hc : e.active = true ∧ contact L g.player (moveEnemy L dt e) = true
    · obtain ⟨h1, -, -⟩ := updateEnemy_hit L dt e g hc.1 hc.2
      have hsh : (updateEnemy L dt e g).2.player.active = false ∨
          0 < (updateEnemy L dt e g).2.player.damage_timer := by
        right; rw [h1.sameDamageTimer]; show (0 : ℚ) < 1; norm_num
      obtain ⟨h3, -⟩ := updateEnemies_shielded L dt es _ hsh
      exact Or.inr ⟨((contact_iff L _ _).1 hc.2).1, sameButScore_trans h1 h3⟩
    · have hm : e.active = false ∨ contact L g.player (moveEnemy L dt e) = false := by
        cases ha : e.active
        · exact Or.inl rfl
        · right
          cases hcc : contact L g.player (moveEnemy L dt e)
          · rfl
          · exact absurd ⟨ha, hcc⟩ hc
      obtain ⟨h1, -⟩ := updateEnemy_miss L dt e g hm
      rcases ih (updateEnemy L dt e g).2 with h3 | ⟨⟨h3a, h3t⟩, h3⟩
      · exact Or.inl (sameButScore_trans h1 h3)
      · refine Or.inr ⟨⟨?_, ?_⟩, sameButScore_trans (sameButScore_damaged h1) h3⟩
        · rw [← h1.sameActive]; exact h3a
        · rw [← h1.sameDamageTimer]; exact h3t

/-- If the player can be damaged and some active enemy overlaps it, the loop damages it. -/
theorem updateEnemies_contact (L : Lib) (dt : ℚ) (es : List Enemy) (g : Game)
    (ha : g.player.active = true) (ht : g.player.damage_timer ≤ 0)
    (hex : ∃ e ∈ es, e.active = true ∧ overlaps L g.player (moveEnemy L dt e) = true) :
    SameButScore (damaged g.player) (updateEnemies L dt es g).2.player := by
  induction es generalizing g with
  | nil => obtain ⟨e, he, -⟩ := hex; cases he
  | cons e es ih =>
    rw [updateEnemies_cons]
    by_cases hc : e.active = true ∧ overlaps L g.player (moveEnemy L dt e) = true
    · have hcc : contact L g.player (moveEnemy L dt e) = true := by
        rw [contact_eq, ha, hc.2]; simp [ht]
      obtain ⟨h1, -, -⟩ := updateEnemy_hit L dt e g hc.1 hcc
      have hsh : (updateEnemy L dt e g).2.player.active = false ∨
          0 < (updateEnemy L dt e g).2.player.damage_timer := by
        right; rw [h1.sameDamageTimer]; show (0 : ℚ) < 1; norm_num
      exact sameButScore_trans h1 (updateEnemies_shielded L dt es _ hsh).1
    · have hm : e.active = false ∨ contact L g.player (moveEnemy L dt e) = false := by
        cases hact : e.active
        · exact Or.inl rfl
        · right
          cases ho : overlaps L g.player (moveEnemy L dt e)
          · rw [contact_eq, ho]; simp
          · exact absurd ⟨hact, ho⟩ hc
      obtain ⟨h1, -⟩ := updateEnemy_miss L dt e g hm
      have hex' : ∃ e' ∈ es, e'.active = true ∧
          overlaps L (updateEnemy L dt e g).2.player (moveEnemy L dt e') = true := by
        obtain ⟨e', he', hact', ho'⟩ := hex
        rcases List.mem_cons.1 he' with rfl | hmem
        · exact absurd ⟨hact', ho'⟩ hc
        · exact ⟨e', hmem, hact', by rw [overlaps_congr L h1.samePosition h1.sameSize]; exact ho'⟩
      have := ih (updateEnemy L dt e g).2 (by rw [h1.sameActive]; exact ha)
        (by rw [h1.sameDamageTimer]; exact ht) hex'
      exact sameButScore_trans (sameButScore_damaged h1) this

/-- If no active enemy overlaps the player, the loop leaves health and timers alone. -/
theorem updateEnemies_no_contact (L : Lib) (dt : ℚ) (es : List Enemy) (g : Game)
    (hno : ∀ e ∈ es, e.active = true → overlaps L g.player (moveEnemy L dt e) = false) :
    SameButScore g.player (updateEnemies L dt es g).2.player ∧
      (updateEnemies L dt es g).2.gameState = g.gameState := by
  induction es generalizing g with
  | nil => exact ⟨sameButScore_refl _, rfl⟩
  | cons e es ih =>
    rw [updateEnemies_cons]
    have hm : e.active = false ∨ contact L g.player (moveEnemy L dt e) = false := by
      cases hact : e.active
      · exact Or.inl rfl
      · right
        rw [contact_eq, hno e (List.mem_cons_self _ _) hact]; simp
    obtain ⟨h1, h2⟩ := updateEnemy_miss L dt e g hm
    have hno' : ∀ e' ∈ es, e'.active = true →
        overlaps L (updateEnemy L dt e g).2.player (moveEnemy L dt e') = false := by
      intro e' he' hact'
      rw [overlaps_congr L h1.samePosition h1.sameSize]
      exact hno e' (List.mem_cons_of_mem _ he') hact'
    obtain ⟨h3, h4⟩ := ih _ hno'
    exact ⟨sameButScore_trans h1 h3, h4.trans h2⟩

/-! ## The phases of a tick -/

@[simp] theorem playerPhase_enemies (inp : Input) (g : Game) :
    (playerPhase inp g).enemies = g.enemies := by
  unfold playerPhase; dsimp only; split_ifs <;> rfl

@[simp] theorem playerPhase_particles (inp : Input) (g : Game) :
    (playerPhase inp g).particles = g.particles := by
  unfold playerPhase; dsimp only; split_ifs <;> rfl

@[simp] theorem playerPhase_stars (inp : Input) (g : Game) :
    (playerPhase inp g).stars = g.stars := by
  unfold playerPhase; dsimp only; split_ifs <;> rfl

@[simp] theorem playerPhase_gameState (inp : Input) (g : Game) :
    (playerPhase inp g).gameState = g.gameState := by
  unfold playerPhase; dsimp only; split_ifs <;> rfl

@[simp] theorem playerPhase_gameTime (inp : Input) (g : Game) :
    (playerPhase inp g).gameTime = g.gameTime := by
  unfold playerPhase; dsimp only; split_ifs <;> rfl

@[simp] theorem playerPhase_enemyTimer (inp : Input) (g : Game) :
    (playerPhase inp g).enemyTimer = g.enemyTimer := by
  unfold playerPhase; dsimp only; split_ifs <;> rfl

@[simp] theorem playerPhase_wave (inp : Input) (g : Game) :
    (playerPhase inp g).wave = g.wave := by
  unfold playerPhase; dsimp only; split_ifs <;> rfl

@[simp] theorem playerPhase_difficultyMultiplier (inp : Input) (g : Game) :
    (playerPhase inp g).difficultyMultiplier = g.difficultyMultiplier := by
  unfold playerPhase; dsimp only; split_ifs <;> rfl

@[simp] theorem playerPhase_random (inp : Input) (g : Game) :
    (playerPhase inp g).random = g.random := by
  unfold playerPhase; dsimp only; split_ifs <;> rfl

@[simp] theorem playerPhase_player_health (inp : Input) (g : Game) :
    (playerPhase inp g).player.health = g.player.health := by
  unfold playerPhase; dsimp only; split_ifs <;> rfl

@[simp] theorem playerPhase_player_score (inp : Input) (g : Game) :
    (playerPhase inp g).player.score = g.player.score := by
  unfold playerPhase; dsimp only; split_ifs <;> rfl

@[simp] theorem playerPhase_player_active (inp : Input) (g : Game) :
    (playerPhase inp g).player.active = g.player.active := by
  unfold playerPhase; dsimp only; split_ifs <;> rfl

@[simp] theorem playerPhase_player_damage_timer (inp : Input) (g : Game) :
    (playerPhase inp g).player.damage_timer = g.player.damage_timer := by
  unfold playerPhase; dsimp only; split_ifs <;> rfl

@[simp] theorem playerPhase_player_size (inp : Input) (g : Game) :
    (playerPhase inp g).player.size = g.player.size := by
  unfold playerPhase; dsimp only; split_ifs <;> rfl

@[simp] theorem playerPhase_player_speed (inp : Input) (g : Game) :
    (playerPhase inp g).player.speed = g.player.speed := by
  unfold playerPhase; dsimp only; split_ifs <;> rfl

@[simp] theorem beforeCollision_enemies (inp : Input) (g : Game) :
    (beforeCollision inp g).enemies = g.enemies := by
  simp [beforeCollision]

@[simp] theorem beforeCollision_particles (inp : Input) (g : Game) :
    (beforeCollision inp g).particles = g.particles := by
  simp [beforeCollision]

@[simp] theorem beforeCollision_stars (inp : Input) (g : Game) :
    (beforeCollision inp g).stars = g.stars := by
  simp [beforeCollision]

@[simp] theorem beforeCollision_gameState (inp : Input) (g : Game) :
    (beforeCollision inp g).gameState = g.gameState := by
  simp [beforeCollision]

@[simp] theorem beforeCollision_enemyTimer (inp : Input) (g : Game) :
    (beforeCollision inp g).enemyTimer = g.enemyTimer := by
  simp [beforeCollision]

@[simp] theorem beforeCollision_wave (inp : Input) (g : Game) :
    (beforeCollision inp g).wave = g.wave := by
  simp [beforeCollision]

@[simp] theorem beforeCollision_difficultyMultiplier (inp : Input) (g : Game) :
    (beforeCollision inp g).difficultyMultiplier = g.difficultyMultiplier := by
  simp [beforeCollision]

@[simp] theorem beforeCollision_random (inp : Input) (g : Game) :
    (beforeCollision inp g).random = g.random := by
  simp [beforeCollision]

@[simp] theorem beforeCollision_gameTime (inp : Input) (g : Game) :
    (beforeCollision inp g).gameTime = g.gameTime + inp.dt := by
  simp [beforeCollision]

@[simp] theorem tickDamageTimer_health (dt : ℚ) (p : Player) :
    (tickDamageTimer dt p).health = p.health := by
  unfold tickDamageTimer; split_ifs <;> rfl

@[simp] theorem beforeCollision_player_health (inp : Input) (g : Game) :
    (beforeCollision inp g).player.health = g.player.health := by
  simp [beforeCollision]

@[simp] theorem tickDamageTimer_score (dt : ℚ) (p : Player) :
    (tickDamageTimer dt p).score = p.score := by
  unfold tickDamageTimer; split_ifs <;> rfl

@[simp] theorem beforeCollision_player_score (inp : Input) (g : Game) :
    (beforeCollision inp g).player.score = g.player.score := by
  simp [beforeCollision]

@[simp] theorem tickDamageTimer_active (dt : ℚ) (p : Player) :
    (tickDamageTimer dt p).active = p.active := by
  unfold tickDamageTimer; split_ifs <;> rfl

@[simp] theorem beforeCollision_player_active (inp : Input) (g : Game) :
    (beforeCollision inp g).player.active = g.player.active := by
  simp [beforeCollision]

@[simp] theorem tickDamageTimer_size (dt : ℚ) (p : Player) :
    (tickDamageTimer dt p).size = p.size := by
  unfold tickDamageTimer; split_ifs <;> rfl

@[simp] theorem beforeCollision_player_size (inp : Input) (g : Game) :
    (beforeCollision inp g).player.size = g.player.size := by
  simp [beforeCollision]

@[simp] theorem tickDamageTimer_speed (dt : ℚ) (p : Player) :
    (tickDamageTimer dt p).speed = p.speed := by
  unfold tickDamageTimer; split_ifs <;> rfl

@[simp] theorem beforeCollision_player_speed (inp : Input) (g : Game) :
    (beforeCollision inp g).player.speed = g.player.speed := by
  simp [beforeCollision]

@[simp] theorem tickDamageTimer_position (dt : ℚ) (p : Player) :
    (tickDamageTimer dt p).position = p.position := by
  unfold tickDamageTimer; split_ifs <;> rfl

theorem tickDamageTimer_damage_timer (dt : ℚ) (p : Player) :
    (tickDamageTimer dt p).damage_timer =
      if p.damage_timer > 0 then p.damage_timer - dt else p.damage_timer := by
  unfold tickDamageTimer; split_ifs <;> rfl

theorem beforeCollision_damage_timer (inp : Input) (g : Game) :
    (beforeCollision inp g).player.damage_timer =
      if g.player.damage_timer > 0 then g.player.damage_timer - inp.dt
      else g.player.damage_timer := by
  simp [beforeCollision, tickDamageTimer_damage_timer]

theorem afterCollision_eq (L : Lib) (inp : Input) (g : Game) :
    afterCollision L inp g =
      { (updateEnemies L inp.dt g.enemies (beforeCollision inp g)).2 with
        enemies := (updateEnemies L inp.dt g.enemies (beforeCollision inp g)).1 } := by
  simp [afterCollision]

@[simp] theorem afterCollision_player (L : Lib) (inp : Input) (g : Game) :
    (afterCollision L inp g).player =
      (updateEnemies L inp.dt g.enemies (beforeCollision inp g)).2.player := by
  rw [afterCollision_eq]

@[simp] theorem afterCollision_bullets (L : Lib) (inp : Input) (g : Game) :
    (afterCollision L inp g).bullets =
      (updateEnemies L inp.dt g.enemies (beforeCollision inp g)).2.bullets := by
  rw [afterCollision_eq]

@[simp] theorem afterCollision_enemies (L : Lib) (inp : Input) (g : Game) :
    (afterCollision L inp g).enemies =
      (updateEnemies L inp.dt g.enemies (beforeCollision inp g)).1 := by
  rw [afterCollision_eq]

@[simp] theorem afterCollision_gameState (L : Lib) (inp : Input) (g : Game) :
    (afterCollision L inp g).gameState =
      (updateEnemies L inp.dt g.enemies (beforeCollision inp g)).2.gameState := by
  rw [afterCollision_eq]

theorem afterCollision_frame (L : Lib) (inp : Input) (g : Game) :
    PassFrame (beforeCollision inp g) (afterCollision L inp g) := by
  have h := updateEnemies_frame L inp.dt g.enemies (beforeCollision inp g)
  rw [afterCollision_eq]
  exact ⟨h.sameGameTime, h.sameEnemyTimer, h.sameWave, h.sameDifficulty, h.sameStars,
    h.playerPosition, h.playerSize, h.playerSpeed, h.playerShootTimer, h.particlesLength⟩

@[simp] theorem beforeSpawner_player (L : Lib) (inp : Input) (g : Game) :
    (beforeSpawner L inp g).player = (afterCollision L inp g).player := rfl

@[simp] theorem beforeSpawner_bullets (L : Lib) (inp : Input) (g : Game) :
    (beforeSpawner L inp g).bullets = (afterCollision L inp g).bullets := rfl

@[simp] theorem beforeSpawner_enemies (L : Lib) (inp : Input) (g : Game) :
    (beforeSpawner L inp g).enemies = (afterCollision L inp g).enemies := rfl

@[simp] theorem beforeSpawner_gameState (L : Lib) (inp : Input) (g : Game) :
    (beforeSpawner L inp g).gameState = (afterCollision L inp g).gameState := rfl

@[simp] theorem beforeSpawner_gameTime (L : Lib) (inp : Input) (g : Game) :
    (beforeSpawner L inp g).gameTime = g.gameTime + inp.dt := by
  show (afterCollision L inp g).gameTime = _
  rw [(afterCollision_frame L inp g).sameGameTime, beforeCollision_gameTime]

@[simp] theorem beforeSpawner_enemyTimer (L : Lib) (inp : Input) (g : Game) :
    (beforeSpawner L inp g).enemyTimer = g.enemyTimer := by
  show (afterCollision L inp g).enemyTimer = _
  rw [(afterCollision_frame L inp g).sameEnemyTimer, beforeCollision_enemyTimer]

@[simp] theorem beforeSpawner_wave (L : Lib) (inp : Input) (g : Game) :
    (beforeSpawner L inp g).wave = g.wave := by
  show (afterCollision L inp g).wave = _
  rw [(afterCollision_frame L inp g).sameWave, beforeCollision_wave]

@[simp] theorem beforeSpawner_difficultyMultiplier (L : Lib) (inp : Input) (g : Game) :
    (beforeSpawner L inp g).difficultyMultiplier = g.difficultyMultiplier := by
  show (afterCollision L inp g).difficultyMultiplier = _
  rw [(afterCollision_frame L inp g).sameDifficulty, beforeCollision_difficultyMultiplier]

/-- The wave system fires in this tick (the comparison of line 451). -/
theorem spawnerStep_eq (L : Lib) (dt : ℚ) (g : Game) :
    spawnerStep L dt g =
      if g.enemyTimer + dt ≥ 2 / g.difficultyMultiplier then
        SpawnEnemy L { g with enemyTimer := 0 }
      else { g with enemyTimer := g.enemyTimer + dt } := by
  rfl

@[simp] theorem SpawnEnemy_player (L : Lib) (g : Game) : (SpawnEnemy L g).player = g.player := rfl
@[simp] theorem SpawnEnemy_bullets (L : Lib) (g : Game) : (SpawnEnemy L g).bullets = g.bullets := rfl
@[simp] theorem SpawnEnemy_particles (L : Lib) (g : Game) :
    (SpawnEnemy L g).particles = g.particles := rfl
@[simp] theorem SpawnEnemy_stars (L : Lib) (g : Game) : (SpawnEnemy L g).stars = g.stars := rfl
@[simp] theorem SpawnEnemy_gameState (L : Lib) (g : Game) :
    (SpawnEnemy L g).gameState = g.gameState := rfl
@[simp] theorem SpawnEnemy_gameTime (L : Lib) (g : Game) :
    (SpawnEnemy L g).gameTime = g.gameTime := rfl
@[simp] theorem SpawnEnemy_enemyTimer (L : Lib) (g : Game) :
    (SpawnEnemy L g).enemyTimer = g.enemyTimer := rfl
@[simp] theorem SpawnEnemy_wave (L : Lib) (g : Game) : (SpawnEnemy L g).wave = g.wave := rfl
@[simp] theorem SpawnEnemy_difficultyMultiplier (L : Lib) (g : Game) :
    (SpawnEnemy L g).difficultyMultiplier = g.difficultyMultiplier := rfl

@[simp] theorem UpdateGame_player (L : Lib) (inp : Input) (g : Game) :
    (UpdateGame L inp g).player = (afterCollision L inp g).player := by
  unfold UpdateGame difficultyStep; rw [spawnerStep_eq]; split_ifs <;> rfl

@[simp] theorem UpdateGame_bullets (L : Lib) (inp : Input) (g : Game) :
    (UpdateGame L inp g).bullets = (afterCollision L inp g).bullets := by
  unfold UpdateGame difficultyStep; rw [spawnerStep_eq]; split_ifs <;> rfl

@[simp] theorem UpdateGame_gameState (L : Lib) (inp : Input) (g : Game) :
    (UpdateGame L inp g).gameState = (afterCollision L inp g).gameState := by
  unfold UpdateGame difficultyStep; rw [spawnerStep_eq]; split_ifs <;> rfl

@[simp] theorem UpdateGame_gameTime (L : Lib) (inp : Input) (g : Game) :
    (UpdateGame L inp g).gameTime = g.gameTime + inp.dt := by
  unfold UpdateGame difficultyStep; rw [spawnerStep_eq]
  split_ifs <;> simp

theorem UpdateGame_wave (L : Lib) (inp : Input) (g : Game) :
    (UpdateGame L inp g).wave = 1 + truncToInt ((g.gameTime + inp.dt) / 20) := by
  unfold UpdateGame difficultyStep; rw [spawnerStep_eq]
  split_ifs <;> simp

theorem UpdateGame_difficultyMultiplier (L : Lib) (inp : Input) (g : Game) :
    (UpdateGame L inp g).difficultyMultiplier = 1 + (g.gameTime + inp.dt) / 30 := by
  unfold UpdateGame difficultyStep; rw [spawnerStep_eq]
  split_ifs <;> simp

theorem UpdateGame_enemyTimer (L : Lib) (inp : Input) (g : Game) :
    (UpdateGame L inp g).enemyTimer =
      if g.enemyTimer + inp.dt ≥ 2 / g.difficultyMultiplier then 0
      else g.enemyTimer + inp.dt := by
  unfold UpdateGame difficultyStep; rw [spawnerStep_eq]
  simp only [beforeSpawner_enemyTimer, beforeSpawner_difficultyMultiplier]
  split_ifs <;> simp

theorem UpdateGame_enemies (L : Lib) (inp : Input) (g : Game) :
    (UpdateGame L inp g).enemies =
      if g.enemyTimer + inp.dt ≥ 2 / g.difficultyMultiplier then
        (SpawnEnemy L (beforeSpawner L inp g)).enemies
      else (afterCollision L inp g).enemies := by
  unfold UpdateGame difficultyStep; rw [spawnerStep_eq]
  simp only [beforeSpawner_enemyTimer, beforeSpawner_difficultyMultiplier]
  split_ifs <;> rfl

/-! ## Invariants of the reachable states -/

theorem initStars_length (ss : List Star) (r : Rand) : (initStars ss r).1.length = ss.length := by
  induction ss generalizing r with
  | nil => rfl
  | cons s ss ih => simp [initStars, ih]

theorem updateStars_length (dt : ℚ) (ss : List Star) (r : Rand) :
    (updateStars dt ss r).1.length = ss.length := by
  induction ss generalizing r with
  | nil => rfl
  | cons s ss ih =>
    unfold updateStars
    dsimp only
    split_ifs <;> simp [ih]

theorem shootInto_length (p v : Vector2) (c : Color) (bs : List Bullet) :
    (shootInto p v c bs).length = bs.length := by
  induction bs with
  | nil => rfl
  | cons b bs ih =>
    unfold shootInto
    split_ifs <;> simp [ih]

theorem spawnInto_length (L : Lib) (w : Int) (es : List Enemy) (r : Rand) :
    (spawnInto L w es r).1.length = es.length := by
  induction es generalizing r with
  | nil => rfl
  | cons e es ih =>
    unfold spawnInto
    split_ifs <;> simp [ih]

theorem retireHits_length (L : Lib) (e : Enemy) (bs : List Bullet) :
    (retireHits L e bs).length = bs.length := by
  simp [retireHits]

theorem updateEnemy_bullets (L : Lib) (dt : ℚ) (e : Enemy) (g : Game) :
    (updateEnemy L dt e g).2.bullets =
      if e.active then retireHits L (moveEnemy L dt e) g.bullets else g.bullets := by
  cases h : e.active
  · rw [updateEnemy_inactive L dt e g h]; rfl
  · rw [(updateEnemy_spec L dt e g h).2.1]; rfl

theorem updateEnemy_bullets_length (L : Lib) (dt : ℚ) (e : Enemy) (g : Game) :
    (updateEnemy L dt e g).2.bullets.length = g.bullets.length := by
  rw [updateEnemy_bullets]
  split_ifs
  · exact retireHits_length _ _ _
  · rfl

theorem updateEnemies_lengths (L : Lib) (dt : ℚ) (es : List Enemy) (g : Game) :
    (updateEnemies L dt es g).1.length = es.length ∧
      (updateEnemies L dt es g).2.bullets.length = g.bullets.length := by
  induction es generalizing g with
  | nil => exact ⟨rfl, rfl⟩
  | cons e es ih =>
    rw [updateEnemies_cons]
    obtain ⟨h1, h2⟩ := ih (updateEnemy L dt e g).2
    exact ⟨by simp [h1], h2.trans (updateEnemy_bullets_length L dt e g)⟩

theorem playerPhase_bullets_length (inp : Input) (g : Game) :
    (playerPhase inp g).bullets.length = g.bullets.length := by
  unfold playerPhase
  dsimp only
  split_ifs <;> simp [ShootBullet, shootInto_length]

theorem beforeCollision_bullets_length (inp : Input) (g : Game) :
    (beforeCollision inp g).bullets.length = g.bullets.length := by
  simp [beforeCollision, playerPhase_bullets_length]

theorem InitGame_wellFormed (g : Game) (h : WellFormed g) : WellFormed (InitGame g) := by
  obtain ⟨h1, h2, h3, h4⟩ := h
  refine ⟨?_, ?_, ?_, ?_⟩
  · simpa [InitGame] using h1
  · simpa [InitGame] using h2
  · simpa [InitGame, initStars_length] using h3
  · simpa [InitGame] using h4

theorem UpdateGame_wellFormed (L : Lib) (inp : Input) (g : Game) (h : WellFormed g) :
    WellFormed (UpdateGame L inp g) := by
  obtain ⟨h1, h2, h3, h4⟩ := h
  have hl := updateEnemies_lengths L inp.dt g.enemies (beforeCollision inp g)
  have hf := afterCollision_frame L inp g
  refine ⟨?_, ?_, ?_, ?_⟩
  · rw [UpdateGame_bullets, afterCollision_bullets, hl.2, beforeCollision_bullets_length]
    exact h1
  · rw [UpdateGame_enemies]
    split_ifs
    · show (spawnInto L _ (beforeSpawner L inp g).enemies _).1.length = _
      rw [spawnInto_length, beforeSpawner_enemies, afterCollision_enemies, hl.1]
      exact h2
    · rw [afterCollision_enemies, hl.1]; exact h2
  · have : (UpdateGame L inp g).stars = (beforeSpawner L inp g).stars := by
      unfold UpdateGame difficultyStep; rw [spawnerStep_eq]; split_ifs <;> rfl
    rw [this]
    show (updateStars inp.dt (afterCollision L inp g).stars _).1.length = _
    rw [updateStars_length, hf.sameStars, beforeCollision_stars]
    exact h3
  · have : (UpdateGame L inp g).particles = (beforeSpawner L inp g).particles := by
      unfold UpdateGame difficultyStep; rw [spawnerStep_eq]; split_ifs <;> rfl
    rw [this]
    show ((afterCollision L inp g).particles.map _).length = _
    rw [List.length_map, hf.particlesLength, beforeCollision_particles]
    exact h4

theorem reachable_wellFormed {L : Lib} {g : Game} (h : Reachable L g) : WellFormed g := by
  induction h with
  | init g hw => exact InitGame_wellFormed g hw
  | tick inp g _ _ ih => exact UpdateGame_wellFormed L inp g ih

theorem playerInv_same {p p' : Player} (h : SameButScore p p') (hp : PlayerInv p) :
    PlayerInv p' := by
  unfold PlayerInv at *
  rw [h.sameHealth, h.sameActive]; exact hp

theorem playerInv_damaged {p : Player} (hp : PlayerInv p) (ha : p.active = true) :
    PlayerInv (damaged p) := by
  obtain ⟨h0, h5, hiff⟩ := hp
  have hpos : 0 < p.health := hiff.1 ha
  refine ⟨?_, ?_, ?_⟩
  · show 0 ≤ p.health - 1; omega
  · show p.health - 1 ≤ 5; omega
  · show (if p.health - 1 ≤ 0 then false else p.active) = true ↔ 0 < p.health - 1
    by_cases h1 : p.health - 1 ≤ 0
    · simp only [h1, if_true]
      constructor
      · intro h; cases h
      · intro h; omega
    · simp only [h1, if_false, ha, true_iff]
      omega

theorem UpdateGame_playerInv (L : Lib) (inp : Input) (g : Game) (h : PlayerInv g.player) :
    PlayerInv (UpdateGame L inp g).player := by
  rw [UpdateGame_player, afterCollision_player]
  have h0 : PlayerInv (beforeCollision inp g).player := by
    unfold PlayerInv
    simp only [beforeCollision_player_health, beforeCollision_player_active]
    exact h
  rcases updateEnemies_once L inp.dt g.enemies (beforeCollision inp g) with h1 | ⟨⟨ha, -⟩, h1⟩
  · exact playerInv_same h1 h0
  · exact playerInv_same h1 (playerInv_damaged h0 ha)

theorem InitGame_playerInv (g : Game) : PlayerInv (InitGame g).player := by
  refine ⟨?_, ?_, ?_⟩ <;> simp [InitGame]

theorem reachable_playerInv {L : Lib} {g : Game} (h : Reachable L g) : PlayerInv g.player := by
  induction h with
  | init g _ => exact InitGame_playerInv g
  | tick inp g _ _ ih => exact UpdateGame_playerInv L inp g ih

theorem UpdateGame_timeInv (L : Lib) (inp : Input) (g : Game) (h : 0 ≤ g.gameTime)
    (hdt : 0 ≤ inp.dt) : TimeInv (UpdateGame L inp g) := by
  refine ⟨?_, ?_, ?_⟩
  · rw [UpdateGame_gameTime]; exact add_nonneg h hdt
  · rw [UpdateGame_wave, UpdateGame_gameTime]
  · rw [UpdateGame_difficultyMultiplier, UpdateGame_gameTime]

theorem InitGame_timeInv (g : Game) : TimeInv (InitGame g) := by
  refine ⟨?_, ?_, ?_⟩
  · simp [InitGame]
  · simp [InitGame, truncToInt]
  · simp [InitGame]

theorem reachable_timeInv {L : Lib} {g : Game} (h : Reachable L g) : TimeInv g := by
  induction h with
  | init g _ => exact InitGame_timeInv g
  | tick inp g _ hdt ih => exact UpdateGame_timeInv L inp g ih.1 hdt

theorem zeroGame_wellFormed (r : Rand) : WellFormed (zeroGame r) :=
  ⟨List.length_replicate _ _, List.length_replicate _ _, List.length_replicate _ _,
    List.length_replicate _ _⟩

theorem freshGame_reachable (L : Lib) : Reachable L freshGame :=
  Reachable.init _ (zeroGame_wellFormed _)

/-- C7: in every state reachable from InitGame by ticks of non-negative
duration, whatever the inputs and the random draws, the player's health lies
between 0 and 5 and the player is active if and only if its health is positive. -/
theorem player_health_invariant (L : Lib) (g : Game) (h : Reachable L g) :
    0 ≤ g.player.health ∧ g.player.health ≤ 5 ∧
      (g.player.active = true ↔ 0 < g.player.health) :=
  reachable_playerInv h

theorem player_health_invariant_witness :
    Reachable raylib (UpdateGame raylib (idle 2) freshGame) ∧
      (0 ≤ (UpdateGame raylib (idle 2) freshGame).player.health ∧
        (UpdateGame raylib (idle 2) freshGame).player.health ≤ 5 ∧
        ((UpdateGame raylib (idle 2) freshGame).player.active = true ↔
          0 < (UpdateGame raylib (idle 2) freshGame).player.health)) :=
  ⟨Reachable.tick _ _ (freshGame_reachable _) (by decide!),
    player_health_invariant raylib _
      (Reachable.tick _ _ (freshGame_reachable _) (by decide!))⟩

/-- C10, at the boundary: from the fresh game a tick of 2 seconds brings the
spawn timer to exactly 2.0 / difficultyMultiplier = 2; the timer does not exceed
the interval, yet the wave system fires: the timer is reset to 0 and slot 0 of the
enemy pool, free before, holds a new enemy. -/
theorem spawn_threshold_counterexample :
    Reachable raylib freshGame ∧
    freshGame.enemyTimer + (idle 2).dt = 2 ∧ 2 / freshGame.difficultyMultiplier = 2 ∧
    ¬ (freshGame.enemyTimer + (idle 2).dt > 2 / freshGame.difficultyMultiplier) ∧
    (UpdateGame raylib (idle 2) freshGame).enemyTimer = 0 ∧
    ((afterCollision raylib (idle 2) freshGame).enemies.map fun e => e.active)
      = List.replicate 20 false ∧
    ((UpdateGame raylib (idle 2) freshGame).enemies.map fun e => e.active)
      = true :: List.replicate 19 false :=
  ⟨freshGame_reachable _, by decide!, by decide!, by decide!, by decide!, by decide!, by decide!⟩

/-- C10, amended: in a tick from a reachable state, with T = enemyTimer + dt and
D = the difficultyMultiplier held at the start of the tick (D is at least 1),
SpawnEnemy is called, once, if and only if T is at least 2.0 / D: then enemyTimer is
0 after the tick and the enemy pool is the one SpawnEnemy returns; otherwise
enemyTimer is T and the enemy pool is as the collision pass left it. -/
theorem spawn_threshold (L : Lib) (inp : Input) (g : Game) (h : Reachable L g) :
    1 ≤ g.difficultyMultiplier ∧
    (2 / g.difficultyMultiplier ≤ g.enemyTimer + inp.dt →
      (UpdateGame L inp g).enemyTimer = 0 ∧
      (UpdateGame L inp g).enemies = (SpawnEnemy L (beforeSpawner L inp g)).enemies) ∧
    (g.enemyTimer + inp.dt < 2 / g.difficultyMultiplier →
      (UpdateGame L inp g).enemyTimer = g.enemyTimer + inp.dt ∧
      (UpdateGame L inp g).enemies = (afterCollision L inp g).enemies) := by
  obtain ⟨h0, -, hd⟩ := reachable_timeInv h
  refine ⟨?_, ?_, ?_⟩
  · rw [hd]
    have : 0 ≤ g.gameTime / 30 := div_nonneg h0 (by norm_num)
    linarith
  · intro hT
    have hT' : g.enemyTimer + inp.dt ≥ 2 / g.difficultyMultiplier := hT
    rw [UpdateGame_enemyTimer, UpdateGame_enemies]
    simp only [hT', if_true, and_self]
  · intro hT
    have hT' : ¬ g.enemyTimer + inp.dt ≥ 2 / g.difficultyMultiplier := not_le.mpr hT
    rw [UpdateGame_enemyTimer, UpdateGame_enemies]
    simp only [hT', if_false, and_self]

theorem spawn_threshold_witness :
    Reachable raylib freshGame ∧ 1 ≤ freshGame.difficultyMultiplier ∧
      2 / freshGame.difficultyMultiplier ≤ freshGame.enemyTimer + (idle 2).dt ∧
      (UpdateGame raylib (idle 2) freshGame).enemyTimer = 0 ∧
      (UpdateGame raylib (idle 2) freshGame).enemies =
        (SpawnEnemy raylib (beforeSpawner raylib (idle 2) freshGame)).enemies :=
  ⟨freshGame_reachable _,
    (spawn_threshold raylib (idle 2) freshGame (freshGame_reachable _)).1, by decide!,
    (spawn_threshold raylib (idle 2) freshGame (freshGame_reachable _)).2.1 (by decide!)⟩

/-! ## The bullet pool -/

theorem shootInto_full (p v : Vector2) (c : Color) (bs : List Bullet)
    (h : ∀ b ∈ bs, b.active = true) : shootInto p v c bs = bs := by
  induction bs with
  | nil => rfl
  | cons b bs ih =>
    have hb : b.active = true := h b (List.mem_cons_self _ _)
    unfold shootInto
    simp only [hb, Bool.not_true, Bool.false_eq_true, if_false]
    rw [ih fun b' hb' => h b' (List.mem_cons_of_mem _ hb')]

theorem activeBullets_le_length (bs : List Bullet) : activeBullets bs ≤ bs.length :=
  List.countP_le_length _

/-- C4: for every state (with pools of the declared sizes) in which all 50 bullet
slots are active, ShootBullet returns the state unchanged, bullet pool included;
and after any call of ShootBullet the pool still has 50 slots, so that at most 50
bullets are active. -/
theorem full_pool_shot_dropped (g : Game) (position velocity : Vector2) (color : Color)
    (hwf : WellFormed g) :
    ((∀ b ∈ g.bullets, b.active = true) → ShootBullet position velocity color g = g) ∧
    WellFormed (ShootBullet position velocity color g) ∧
    activeBullets g.bullets ≤ 50 ∧
    activeBullets (ShootBullet position velocity color g).bullets ≤ 50 := by
  have hlen : (ShootBullet position velocity color g).bullets.length = 50 := by
    show (shootInto position velocity color g.bullets).length = 50
    rw [shootInto_length]; exact hwf.1
  refine ⟨?_, ⟨?_, hwf.2.1, hwf.2.2.1, hwf.2.2.2⟩, ?_, ?_⟩
  · intro hfull
    show { g with bullets := shootInto position velocity color g.bullets } = g
    rw [shootInto_full _ _ _ _ hfull]
  · exact hlen
  · have h := activeBullets_le_length g.bullets
    rw [hwf.1] at h
    exact h
  · exact hlen ▸ activeBullets_le_length _

theorem full_pool_shot_dropped_witness :
    WellFormed fullGame ∧ (∀ b ∈ fullGame.bullets, b.active = true) ∧
      ShootBullet ⟨388, 500⟩ ⟨0, -500⟩ ⟨0, 200, 255, 255⟩ fullGame = fullGame ∧
      activeBullets (ShootBullet ⟨388, 500⟩ ⟨0, -500⟩ ⟨0, 200, 255, 255⟩ fullGame).bullets ≤ 50 :=
  ⟨(reachable_wellFormed (freshGame_reachable raylib)) |> fun h => ⟨List.length_replicate _ _, h.2⟩,
    by decide!,
    (full_pool_shot_dropped fullGame ⟨388, 500⟩ ⟨0, -500⟩ ⟨0, 200, 255, 255⟩
      ⟨List.length_replicate _ _, (reachable_wellFormed (freshGame_reachable raylib)).2⟩).1 (by decide!),
    (full_pool_shot_dropped fullGame ⟨388, 500⟩ ⟨0, -500⟩ ⟨0, 200, 255, 255⟩
      ⟨List.length_replicate _ _, (reachable_wellFormed (freshGame_reachable raylib)).2⟩).2.2.2⟩

/-! ## The invincibility window -/

/-- A tick in which the timer runs out, the player is active and an active enemy
overlaps the player costs one health point. -/
theorem UpdateGame_expired (L : Lib) (inp : Input) (g : Game)
    (ha : g.player.active = true)
    (ht : g.player.damage_timer ≤ 0 ∨ g.player.damage_timer ≤ inp.dt)
    (hex : ∃ e ∈ g.enemies, e.active = true ∧
      overlaps L (beforeCollision inp g).player (moveEnemy L inp.dt e) = true) :
    (UpdateGame L inp g).player.health = g.player.health - 1 ∧
      (UpdateGame L inp g).player.damage_timer = 1 := by
  have ht' : (beforeCollision inp g).player.damage_timer ≤ 0 := by
    rw [beforeCollision_damage_timer]
    split_ifs with hp
    · rcases ht with h | h
      · linarith
      · linarith
    · exact not_lt.mp hp
  have ha' : (beforeCollision inp g).player.active = true := by
    rw [beforeCollision_player_active]; exact ha
  have hs := updateEnemies_contact L inp.dt g.enemies (beforeCollision inp g) ha' ht' hex
  rw [UpdateGame_player, afterCollision_player]
  refine ⟨?_, ?_⟩
  · rw [hs.sameHealth]; show (beforeCollision inp g).player.health - 1 = _
    rw [beforeCollision_player_health]
  · rw [hs.sameDamageTimer]; rfl

theorem retireHits_count (L : Lib) (e : Enemy) (bs : List Bullet) :
    activeBullets (retireHits L e bs) + hitCount L e bs = activeBullets bs := by
  induction bs with
  | nil => rfl
  | cons b bs ih =>
    have hc : activeBullets (b :: bs) = activeBullets bs + if b.active then 1 else 0 := by
      unfold activeBullets; rw [List.countP_cons]
    rw [hitCount_cons, hc]
    show activeBullets ((if bulletHits L e b then retire b else b) :: retireHits L e bs) + _ = _
    cases hb : bulletHits L e b
    · have : activeBullets (b :: retireHits L e bs)
          = activeBullets (retireHits L e bs) + if b.active then 1 else 0 := by
        unfold activeBullets; rw [List.countP_cons]
      simp only [Bool.false_eq_true, if_false, this]
      omega
    · have hact := bulletHits_active L e b hb
      have : activeBullets (retire b :: retireHits L e bs)
          = activeBullets (retireHits L e bs) := by
        unfold activeBullets; rw [List.countP_cons]; simp [retire]
      simp only [if_true, this, hact]
      omega

theorem updateEnemy_health (L : Lib) (dt : ℚ) (e : Enemy) (g : Game) :
    (updateEnemy L dt e g).1.health =
      e.health - if e.active then (hitCount L (moveEnemy L dt e) g.bullets : Int) else 0 := by
  cases h : e.active
  · rw [updateEnemy_inactive L dt e g h]; simp
  · rw [(updateEnemy_spec L dt e g h).1]; simp

theorem updateEnemy_conserves (L : Lib) (dt : ℚ) (e : Enemy) (g : Game) :
    (updateEnemy L dt e g).1.health - activeBullets (updateEnemy L dt e g).2.bullets =
      e.health - activeBullets g.bullets := by
  rw [updateEnemy_health, updateEnemy_bullets]
  cases h : e.active
  · simp
  · rw [if_pos rfl, if_pos rfl]
    have := retireHits_count L (moveEnemy L dt e) g.bullets
    omega

theorem totalHealth_cons (e : Enemy) (es : List Enemy) :
    totalHealth (e :: es) = e.health + totalHealth es := by
  simp [totalHealth]

/-- The enemy loop removes as much health as it retires bullets. -/
theorem updateEnemies_conserves (L : Lib) (dt : ℚ) (es : List Enemy) (g : Game) :
    totalHealth (updateEnemies L dt es g).1 - activeBullets (updateEnemies L dt es g).2.bullets =
      totalHealth es - activeBullets g.bullets := by
  induction es generalizing g with
  | nil => rfl
  | cons e es ih =>
    rw [updateEnemies_cons]
    simp only [totalHealth_cons]
    have h1 := ih (updateEnemy L dt e g).2
    have h2 := updateEnemy_conserves L dt e g
    omega

theorem hitsSome_nil (L : Lib) (dt : ℚ) (b : Bullet) : hitsSome L dt [] b = false := rfl

theorem hitsSome_cons (L : Lib) (dt : ℚ) (e : Enemy) (es : List Enemy) (b : Bullet) :
    hitsSome L dt (e :: es) b =
      ((e.active && bulletHits L (moveEnemy L dt e) b) || hitsSome L dt es b) := by
  simp [hitsSome]

theorem hitsSome_retire (L : Lib) (dt : ℚ) (es : List Enemy) (b : Bullet) :
    hitsSome L dt es (retire b) = false := by
  induction es with
  | nil => rfl
  | cons e es ih => rw [hitsSome_cons, ih, bulletHits_retire]; simp

/-- The bullet pool after the enemy loop: exactly the bullets that met an enemy are retired. -/
theorem updateEnemies_bullets (L : Lib) (dt : ℚ) (es : List Enemy) (g : Game) :
    (updateEnemies L dt es g).2.bullets =
      g.bullets.map fun b => if hitsSome L dt es b then retire b else b := by
  induction es generalizing g with
  | nil => simp [updateEnemies_nil, hitsSome_nil]
  | cons e es ih =>
    rw [updateEnemies_cons]
    show (updateEnemies L dt es (updateEnemy L dt e g).2).2.bullets = _
    rw [ih, updateEnemy_bullets]
    cases ha : e.active
    · simp [hitsSome_cons, ha]
    · simp only [if_true, retireHits, List.map_map]
      apply List.map_congr_left
      intro b _
      simp only [Function.comp, hitsSome_cons, ha, Bool.true_and]
      cases hb : bulletHits L (moveEnemy L dt e) b
      · simp
      · simp [hitsSome_retire]

theorem updateEnemies_append (L : Lib) (dt : ℚ) (pre post : List Enemy) (g : Game) :
    updateEnemies L dt (pre ++ post) g =
      ((updateEnemies L dt pre g).1 ++ (updateEnemies L dt post (updateEnemies L dt pre g).2).1,
        (updateEnemies L dt post (updateEnemies L dt pre g).2).2) := by
  induction pre generalizing g with
  | nil => rfl
  | cons e pre ih =>
    rw [List.cons_append, updateEnemies_cons, ih, updateEnemies_cons]
    rfl

/-- The slot at a given position of the pool after the enemy loop. -/
theorem updateEnemies_slot (L : Lib) (dt : ℚ) (pre post : List Enemy) (e : Enemy) (g : Game) :
    (updateEnemies L dt (pre ++ e :: post) g).1[pre.length]? =
      some (updateEnemy L dt e (updateEnemies L dt pre g).2).1 := by
  rw [updateEnemies_append, updateEnemies_cons]
  have hl := (updateEnemies_lengths L dt pre g).1
  rw [List.getElem?_append_right (by rw [hl])]
  simp [hl]

theorem updateEnemies_slot_health (L : Lib) (dt : ℚ) (pre post : List Enemy) (e : Enemy)
    (g : Game) :
    ∃ e', (updateEnemies L dt (pre ++ e :: post) g).1[pre.length]? = some e' ∧
      e'.health = e.health - if e.active then (firstHits L dt pre e g.bullets : Int) else 0 := by
  refine ⟨_, updateEnemies_slot L dt pre post e g, ?_⟩
  rw [updateEnemy_health, updateEnemies_bullets]
  cases ha : e.active
  · simp
  · simp only [if_true, hitCount, firstHits, List.countP_map]
    congr 3
    funext b
    simp only [Function.comp]
    cases hs : hitsSome L dt pre b
    · simp
    · simp

/-- C5: in every tick, the bullets retired by the enemy loop are exactly the
bullets found overlapping an enemy, and they are inactive at the end of the tick;
each enemy loses one health point for each bullet that overlaps it and no enemy
before it in the pool, so that a bullet damages exactly one enemy, by exactly 1;
and the total health removed from all enemies equals the number of bullets
retired by hits. -/
theorem bullets_single_use (L : Lib) (inp : Input) (g : Game) :
    (UpdateGame L inp g).bullets =
      ((beforeCollision inp g).bullets.map fun b =>
        if hitsSome L inp.dt g.enemies b then retire b else b) ∧
    (∀ pre e post, g.enemies = pre ++ e :: post →
      ∃ e', (afterCollision L inp g).enemies[pre.length]? = some e' ∧
        e'.health = e.health -
          if e.active then (firstHits L inp.dt pre e (beforeCollision inp g).bullets : Int)
          else 0) ∧
    totalHealth g.enemies - totalHealth (afterCollision L inp g).enemies =
      (activeBullets (beforeCollision inp g).bullets : Int) -
        activeBullets (UpdateGame L inp g).bullets := by
  refine ⟨?_, ?_, ?_⟩
  · rw [UpdateGame_bullets, afterCollision_bullets, updateEnemies_bullets]
  · intro pre e post hsplit
    rw [afterCollision_enemies, hsplit]
    exact updateEnemies_slot_health L inp.dt pre post e (beforeCollision inp g)
  · rw [UpdateGame_bullets, afterCollision_bullets, afterCollision_enemies]
    have := updateEnemies_conserves L inp.dt g.enemies (beforeCollision inp g)
    omega

/-! ## The score through the enemy loop -/

theorem damaged_score (p : Player) : (damaged p).score = p.score := rfl

theorem updateEnemy_score (L : Lib) (dt : ℚ) (e : Enemy) (g : Game) :
    (updateEnemy L dt e g).2.player.score =
      g.player.score + if e.active then scoreGain L (moveEnemy L dt e) g.bullets else 0 := by
  cases h : e.active
  · rw [updateEnemy_inactive L dt e g h]; simp
  · rw [(updateEnemy_spec L dt e g h).2.2.1, if_pos rfl]
    split_ifs <;> simp [damaged_score]

theorem passScore_nil (L : Lib) (dt : ℚ) (bs : List Bullet) : passScore L dt [] bs = 0 := rfl

theorem passScore_cons (L : Lib) (dt : ℚ) (e : Enemy) (es : List Enemy) (bs : List Bullet) :
    passScore L dt (e :: es) bs =
      if e.active then
        scoreGain L (moveEnemy L dt e) bs + passScore L dt es (retireHits L (moveEnemy L dt e) bs)
      else passScore L dt es bs := rfl

/-- The score after the enemy loop. -/
theorem updateEnemies_score (L : Lib) (dt : ℚ) (es : List Enemy) (g : Game) :
    (updateEnemies L dt es g).2.player.score = g.player.score + passScore L dt es g.bullets := by
  induction es generalizing g with
  | nil => simp [updateEnemies_nil, passScore_nil]
  | cons e es ih =>
    rw [updateEnemies_cons]
    show (updateEnemies L dt es (updateEnemy L dt e g).2).2.player.score = _
    rw [ih, updateEnemy_score, updateEnemy_bullets, passScore_cons]
    cases h : e.active
    · simp
    · simp only [if_true]; ring

theorem UpdateGame_score (L : Lib) (inp : Input) (g : Game) :
    (UpdateGame L inp g).player.score =
      g.player.score + passScore L inp.dt g.enemies (beforeCollision inp g).bullets := by
  rw [UpdateGame_player, afterCollision_player, updateEnemies_score,
    beforeCollision_player_score]

theorem scoreGain_of_no_hit (L : Lib) (e : Enemy) (bs : List Bullet) (h : hitCount L e bs = 0) :
    scoreGain L e bs = 0 := by
  unfold scoreGain
  rw [h]
  have : max 0 (((0 : Nat) : Int) - max (e.health - 1) 0) = 0 := by omega
  rw [this, mul_zero]

theorem hitCount_eq_zero (L : Lib) (e : Enemy) (bs : List Bullet)
    (h : ∀ b ∈ bs, bulletHits L e b = false) : hitCount L e bs = 0 := by
  unfold hitCount
  rw [List.countP_eq_zero]
  intro b hb
  rw [h b hb]; simp

theorem mem_retireHits (L : Lib) (e : Enemy) (bs : List Bullet) (b' : Bullet)
    (h : b' ∈ retireHits L e bs) : ∃ b ∈ bs, b' = b ∨ b' = retire b := by
  unfold retireHits at h
  obtain ⟨b, hb, rfl⟩ := List.mem_map.1 h
  refine ⟨b, hb, ?_⟩
  split_ifs
  · exact Or.inr rfl
  · exact Or.inl rfl

theorem passScore_of_no_hit (L : Lib) (dt : ℚ) (es : List Enemy) (bs : List Bullet)
    (h : ∀ e ∈ es, e.active = true → ∀ b ∈ bs, bulletHits L (moveEnemy L dt e) b = false) :
    passScore L dt es bs = 0 := by
  induction es generalizing bs with
  | nil => rfl
  | cons e es ih =>
    rw [passScore_cons]
    cases ha : e.active
    · simp only [Bool.false_eq_true, if_false]
      exact ih bs fun e' he' => h e' (List.mem_cons_of_mem _ he')
    · simp only [if_true]
      rw [scoreGain_of_no_hit L _ _ (hitCount_eq_zero L _ _ (h e (List.mem_cons_self _ _) ha)),
        zero_add]
      apply ih
      intro e' he' ha' b' hb'
      obtain ⟨b, hb, hbb⟩ := mem_retireHits L _ _ _ hb'
      rcases hbb with rfl | rfl
      · exact h e' (List.mem_cons_of_mem _ he') ha' _ hb
      · exact bulletHits_retire L _ _

/-! ## Contact with the player -/

/-- C6, as stated, fails on the score: in this tick the player is active with
damage_timer 0, the Strong enemy of slot 0 is the only active enemy whose box
overlaps the player's and no bullet touches it, the contact costs one health
point and retires that enemy; but the bullet kills the Normal enemy of slot 1 in
the same tick, so the score is 100 after the tick and not 0 as before. -/
theorem contact_score_counterexample :
    contactKillGame.player.active = true ∧
    (beforeCollision (idle (1 / 60)) contactKillGame).player.damage_timer ≤ 0 ∧
    (contactKillGame.enemies.map fun e =>
        e.active && overlaps raylib (beforeCollision (idle (1 / 60)) contactKillGame).player
          (moveEnemy raylib (1 / 60) e))
      = true :: List.replicate 19 false ∧
    hitCount raylib (moveEnemy raylib (1 / 60) intruder)
      (beforeCollision (idle (1 / 60)) contactKillGame).bullets = 0 ∧
    (UpdateGame raylib (idle (1 / 60)) contactKillGame).player.health = 4 ∧
    ((UpdateGame raylib (idle (1 / 60)) contactKillGame).enemies.map fun e => e.active)
      = List.replicate 20 false ∧
    contactKillGame.player.score = 0 ∧
    (UpdateGame raylib (idle (1 / 60)) contactKillGame).player.score = 100 :=
  ⟨by decide!, by decide!, by decide!, by decide!, by decide!, by decide!, by decide!,
    by decide!⟩

/-- C6, amended: in a tick in which the player is active with damage_timer at most 0
after the per-tick decrement, an active enemy overlaps the player, no other active
enemy does, and no bullet touches that enemy: the enemy loop leaves that enemy
inactive with its health as it was (at the end of the tick its slot is inactive
unless the wave system fired), the player's health is one less than before and
damage_timer is 1; the contact adds nothing to the score, which is unchanged when
no bullet touches any enemy in the tick. -/
theorem contact_destroys_enemy (L : Lib) (inp : Input) (g : Game) (pre post : List Enemy)
    (e : Enemy)
    (hsplit : g.enemies = pre ++ e :: post)
    (ha : g.player.active = true)
    (ht : (beforeCollision inp g).player.damage_timer ≤ 0)
    (he : e.active = true)
    (hov : overlaps L (beforeCollision inp g).player (moveEnemy L inp.dt e) = true)
    (hothers : ∀ e' ∈ pre ++ post, e'.active = true →
      overlaps L (beforeCollision inp g).player (moveEnemy L inp.dt e') = false)
    (hnb : ∀ b ∈ (beforeCollision inp g).bullets,
      bulletHits L (moveEnemy L inp.dt e) b = false) :
    (∃ e', (afterCollision L inp g).enemies[pre.length]? = some e' ∧
      e'.active = false ∧ e'.health = e.health) ∧
    ((∃ e', (UpdateGame L inp g).enemies[pre.length]? = some e' ∧ e'.active = false) ∨
      2 / g.difficultyMultiplier ≤ g.enemyTimer + inp.dt) ∧
    (UpdateGame L inp g).player.health = g.player.health - 1 ∧
    (UpdateGame L inp g).player.damage_timer = 1 ∧
    ((∀ e' ∈ g.enemies, e'.active = true → ∀ b ∈ (beforeCollision inp g).bullets,
        bulletHits L (moveEnemy L inp.dt e') b = false) →
      (UpdateGame L inp g).player.score = g.player.score) := by
  have hexp := UpdateGame_expired L inp g ha
    (by
      have h := ht
      rw [beforeCollision_damage_timer] at h
      split_ifs at h with hp
      · right; linarith
      · left; exact h)
    ⟨e, by rw [hsplit]; simp, he, hov⟩
  -- the slot of `e` after the enemy loop
  have hslot : ∃ e', (afterCollision L inp g).enemies[pre.length]? = some e' ∧
      e'.active = false ∧ e'.health = e.health := by
    rw [afterCollision_enemies, hsplit]
    refine ⟨_, updateEnemies_slot L inp.dt pre post e (beforeCollision inp g), ?_, ?_⟩
    · obtain ⟨hs, -⟩ := updateEnemies_no_contact L inp.dt pre (beforeCollision inp g)
        fun e' he' => hothers e' (List.mem_append_left _ he')
      have hc : contact L (updateEnemies L inp.dt pre (beforeCollision inp g)).2.player
          (moveEnemy L inp.dt e) = true := by
        rw [contact_eq, hs.sameActive, hs.sameDamageTimer, overlaps_congr L hs.samePosition hs.sameSize, hov,
          beforeCollision_player_active, ha]
        simpa using ht
      exact (updateEnemy_hit L inp.dt e _ he hc).2.2
    · rw [updateEnemy_health, updateEnemies_bullets]
      have hz : hitCount L (moveEnemy L inp.dt e)
          ((beforeCollision inp g).bullets.map fun b =>
            if hitsSome L inp.dt pre b then retire b else b) = 0 := by
        apply hitCount_eq_zero
        intro b' hb'
        obtain ⟨b, hb, rfl⟩ := List.mem_map.1 hb'
        split_ifs
        · exact bulletHits_retire L _ _
        · exact hnb b hb
      rw [hz]; simp
  refine ⟨hslot, ?_, hexp.1, hexp.2, ?_⟩
  · by_cases hT : 2 / g.difficultyMultiplier ≤ g.enemyTimer + inp.dt
    · exact Or.inr hT
    · left
      obtain ⟨e', h1, h2, -⟩ := hslot
      refine ⟨e', ?_, h2⟩
      rw [UpdateGame_enemies]
      have hT' : ¬ g.enemyTimer + inp.dt ≥ 2 / g.difficultyMultiplier := hT
      simp only [hT', if_false]
      exact h1
  · intro hnone
    rw [UpdateGame_score, passScore_of_no_hit L inp.dt g.enemies _ hnone, add_zero]

theorem contact_destroys_enemy_witness :
    contactKillGame.enemies = [] ++ intruder :: bystanders ∧
    contactKillGame.player.active = true ∧
    (beforeCollision (idle (1 / 60)) contactKillGame).player.damage_timer ≤ 0 ∧
    intruder.active = true ∧
    overlaps raylib (beforeCollision (idle (1 / 60)) contactKillGame).player
      (moveEnemy raylib (idle (1 / 60)).dt intruder) = true ∧
    (∀ e' ∈ [] ++ bystanders, e'.active = true →
      overlaps raylib (beforeCollision (idle (1 / 60)) contactKillGame).player
        (moveEnemy raylib (idle (1 / 60)).dt e') = false) ∧
    (∀ b ∈ (beforeCollision (idle (1 / 60)) contactKillGame).bullets,
      bulletHits raylib (moveEnemy raylib (idle (1 / 60)).dt intruder) b = false) ∧
    (UpdateGame raylib (idle (1 / 60)) contactKillGame).player.health
      = contactKillGame.player.health - 1 ∧
    (UpdateGame raylib (idle (1 / 60)) contactKillGame).player.damage_timer = 1 :=
  ⟨rfl, by decide!, by decide!, by decide!, by decide!, by decide!, by decide!,
    (contact_destroys_enemy raylib (idle (1 / 60)) contactKillGame [] bystanders intruder rfl
      (by decide!) (by decide!) (by decide!) (by decide!) (by decide!) (by decide!)).2.2.1,
    (contact_destroys_enemy raylib (idle (1 / 60)) contactKillGame [] bystanders intruder rfl
      (by decide!) (by decide!) (by decide!) (by decide!) (by decide!) (by decide!)).2.2.2.1⟩

/-! ## Enemies keep positive health while active -/

theorem updateEnemy_enemyInv (L : Lib) (dt : ℚ) (e : Enemy) (g : Game)
    (h : e.active = true → 0 < e.health) :
    (updateEnemy L dt e g).1.active = true → 0 < (updateEnemy L dt e g).1.health := by
  cases ha : e.active
  · rw [updateEnemy_inactive L dt e g ha]
    intro h'; rw [ha] at h'; cases h'
  · rw [(updateEnemy_spec L dt e g ha).1]
    intro hact
    simp only [Bool.and_eq_true] at hact
    have hpos := h ha
    show 0 < e.health - (hitCount L (moveEnemy L dt e) g.bullets : Int)
    by_cases hk : 0 < hitCount L (moveEnemy L dt e) g.bullets ∧
        e.health - (hitCount L (moveEnemy L dt e) g.bullets : Int) ≤ 0
    · rw [if_pos hk] at hact
      exact absurd hact.1 (by simp)
    · by_cases hk0 : 0 < hitCount L (moveEnemy L dt e) g.bullets
      · have : ¬ e.health - (hitCount L (moveEnemy L dt e) g.bullets : Int) ≤ 0 :=
          fun h' => hk ⟨hk0, h'⟩
        omega
      · omega

theorem updateEnemies_enemyInv (L : Lib) (dt : ℚ) (es : List Enemy) (g : Game)
    (h : EnemyInv es) : EnemyInv (updateEnemies L dt es g).1 := by
  induction es generalizing g with
  | nil => intro e he; cases he
  | cons e es ih =>
    rw [updateEnemies_cons]
    intro e' he'
    rcases List.mem_cons.1 he' with rfl | hmem
    · exact updateEnemy_enemyInv L dt e g (h e (List.mem_cons_self _ _))
    · exact ih _ (fun x hx => h x (List.mem_cons_of_mem _ hx)) e' hmem

theorem newEnemy_enemyInv (L : Lib) (w : Int) (r : Rand) : 0 < (newEnemy L w r).1.health := by
  unfold newEnemy
  dsimp only
  split_ifs <;> simp

theorem spawnInto_enemyInv (L : Lib) (w : Int) (es : List Enemy) (r : Rand) (h : EnemyInv es) :
    EnemyInv (spawnInto L w es r).1 := by
  induction es generalizing r with
  | nil => intro e he; cases he
  | cons e es ih =>
    unfold spawnInto
    split_ifs with ha
    · intro e' he' _
      rcases List.mem_cons.1 he' with rfl | hmem
      · exact newEnemy_enemyInv L w r
      · exact h e' (List.mem_cons_of_mem _ hmem) ‹_›
    · intro e' he'
      rcases List.mem_cons.1 he' with rfl | hmem
      · exact h _ (List.mem_cons_self _ _)
      · exact ih r (fun x hx => h x (List.mem_cons_of_mem _ hx)) e' hmem

theorem UpdateGame_enemyInv (L : Lib) (inp : Input) (g : Game) (h : EnemyInv g.enemies) :
    EnemyInv (UpdateGame L inp g).enemies := by
  have h1 : EnemyInv (afterCollision L inp g).enemies := by
    rw [afterCollision_enemies]; exact updateEnemies_enemyInv L inp.dt g.enemies _ h
  rw [UpdateGame_enemies]
  split_ifs
  · exact spawnInto_enemyInv L _ _ _ h1
  · exact h1

theorem InitGame_enemyInv (g : Game) : EnemyInv (InitGame g).enemies := by
  intro e he ha
  simp only [InitGame, List.mem_map] at he
  obtain ⟨e0, -, rfl⟩ := he
  cases ha

theorem reachable_enemyInv {L : Lib} {g : Game} (h : Reachable L g) : EnemyInv g.enemies := by
  induction h with
  | init g _ => exact InitGame_enemyInv g
  | tick inp g _ _ ih => exact UpdateGame_enemyInv L inp g ih

/-! ## The score table -/

theorem passKills_cons (L : Lib) (dt : ℚ) (e : Enemy) (es : List Enemy) (bs : List Bullet) :
    passKills L dt (e :: es) bs =
      if e.active then
        (if 0 < e.health ∧ e.health - hitCount L (moveEnemy L dt e) bs ≤ 0 then [e.type]
          else []) ++ passKills L dt es (retireHits L (moveEnemy L dt e) bs)
      else passKills L dt es bs := rfl

theorem updateEnemies_kills (L : Lib) (dt : ℚ) (es : List Enemy) (g : Game) :
    (((es.zip (updateEnemies L dt es g).1).filter fun p =>
      p.1.active && decide (0 < p.1.health) && decide (p.2.health ≤ 0)).map fun p => p.1.type)
      = passKills L dt es g.bullets := by
  induction es generalizing g with
  | nil => rfl
  | cons e es ih =>
    rw [updateEnemies_cons, passKills_cons]
    simp only [List.zip_cons_cons, List.filter_cons]
    rw [updateEnemy_health]
    have hb := updateEnemy_bullets L dt e g
    cases ha : e.active
    · simp only [Bool.false_and, Bool.false_eq_true, if_false]
      rw [ih, hb, ha]; rfl
    · simp only [Bool.true_and, if_true, Bool.and_eq_true, decide_eq_true_eq]
      rw [ha, if_pos rfl] at hb
      split_ifs
      · simp only [List.map_cons, List.singleton_append]
        rw [ih, hb]
      · simp only [List.nil_append]
        rw [ih, hb]

theorem bulletKills_eq (L : Lib) (inp : Input) (g : Game) :
    bulletKills L inp g = passKills L inp.dt g.enemies (beforeCollision inp g).bullets := by
  unfold bulletKills
  rw [afterCollision_enemies]
  exact updateEnemies_kills L inp.dt g.enemies (beforeCollision inp g)

theorem hitCount_retireHits_le (L : Lib) (e e' : Enemy) (bs : List Bullet) :
    hitCount L e' (retireHits L e bs) ≤ hitCount L e' bs := by
  induction bs with
  | nil => exact le_refl _
  | cons b bs ih =>
    show hitCount L e' ((if bulletHits L e b then retire b else b) :: retireHits L e bs) ≤ _
    rw [hitCount_cons, hitCount_cons]
    cases hb : bulletHits L e b
    · simp only [Bool.false_eq_true, if_false]; omega
    · simp only [if_true, bulletHits_retire, Bool.false_eq_true, if_false]
      split_ifs <;> omega

/-- When every enemy is hit at most once, the loop adds the type value of each kill once. -/
theorem passScore_single (L : Lib) (dt : ℚ) (es : List Enemy) (bs : List Bullet)
    (hinv : EnemyInv es)
    (hs : ∀ e ∈ es, e.active = true → hitCount L (moveEnemy L dt e) bs ≤ 1) :
    passScore L dt es bs = ((passKills L dt es bs).map points).sum := by
  induction es generalizing bs with
  | nil => rfl
  | cons e es ih =>
    rw [passScore_cons, passKills_cons]
    have hinv' : EnemyInv es := fun x hx => hinv x (List.mem_cons_of_mem _ hx)
    cases ha : e.active
    · simp only [Bool.false_eq_true, if_false]
      exact ih bs hinv' fun x hx => hs x (List.mem_cons_of_mem _ hx)
    · simp only [if_true]
      have hpos : 0 < e.health := hinv e (List.mem_cons_self _ _) ha
      have hk : hitCount L (moveEnemy L dt e) bs ≤ 1 := hs e (List.mem_cons_self _ _) ha
      rw [ih (retireHits L (moveEnemy L dt e) bs) hinv' fun x hx hax =>
        le_trans (hitCount_retireHits_le L _ _ bs) (hs x (List.mem_cons_of_mem _ hx) hax)]
      rw [List.map_append, List.sum_append]
      congr 1
      unfold scoreGain
      rw [moveEnemy_health, moveEnemy_type]
      by_cases hkill : 0 < e.health ∧ e.health - (hitCount L (moveEnemy L dt e) bs : Int) ≤ 0
      · rw [if_pos hkill]
        have : max 0 ((hitCount L (moveEnemy L dt e) bs : Int) - max (e.health - 1) 0) = 1 := by
          omega
        rw [this]; simp
      · rw [if_neg hkill]
        have : max 0 ((hitCount L (moveEnemy L dt e) bs : Int) - max (e.health - 1) 0) = 0 := by
          have : ¬ e.health - (hitCount L (moveEnemy L dt e) bs : Int) ≤ 0 :=
            fun h' => hkill ⟨hpos, h'⟩
          omega
        rw [this]; simp

theorem UpdateGame_score_single (L : Lib) (inp : Input) (g : Game) (hinv : EnemyInv g.enemies)
    (hs : singleHits L inp g) :
    (UpdateGame L inp g).player.score =
      g.player.score + ((bulletKills L inp g).map points).sum := by
  rw [UpdateGame_score, bulletKills_eq, passScore_single L inp.dt g.enemies _ hinv hs]

theorem runTicks_score_single (L : Lib) (inputs : List Input) (g : Game)
    (hinv : EnemyInv g.enemies) (hs : runSingleHits L inputs g) :
    (runTicks L inputs g).player.score =
      g.player.score + ((runKills L inputs g).map points).sum := by
  induction inputs generalizing g with
  | nil => simp [runTicks, runKills]
  | cons inp rest ih =>
    obtain ⟨h1, h2⟩ := hs
    show (runTicks L rest (UpdateGame L inp g)).player.score = _
    rw [ih (UpdateGame L inp g) (UpdateGame_enemyInv L inp g hinv) h2,
      UpdateGame_score_single L inp g hinv h1]
    show _ = g.player.score
      + ((bulletKills L inp g ++ runKills L rest (UpdateGame L inp g)).map points).sum
    rw [List.map_append, List.sum_append]; ring

/-- C2: starting from score 0 in a state whose active enemies have positive health
(as in every reachable state), over any run of ticks in which at most one bullet
overlaps an enemy per tick and the enemies killed by bullet hits are exactly one
Normal, one Fast and one Strong enemy, the final score is exactly 550. -/
theorem score_table (L : Lib) (inputs : List Input) (g : Game)
    (hinv : EnemyInv g.enemies) (h0 : g.player.score = 0)
    (hs : runSingleHits L inputs g) (hk : (runKills L inputs g).Perm [0, 1, 2]) :
    (runTicks L inputs g).player.score = 550 := by
  rw [runTicks_score_single L inputs g hinv hs, h0, (hk.map points).sum_eq]
  rfl

theorem score_table_witness :
    EnemyInv scoreTableGame.enemies ∧ scoreTableGame.player.score = 0 ∧
      runSingleHits raylib threeFrames scoreTableGame ∧
      (runKills raylib threeFrames scoreTableGame).Perm [0, 1, 2] ∧
      (runTicks raylib threeFrames scoreTableGame).player.score = 550 :=
  ⟨by decide!, by decide!, ⟨by decide!, by decide!, by decide!, trivial⟩, by decide!,
    score_table raylib threeFrames scoreTableGame (by decide!) (by decide!)
      ⟨by decide!, by decide!, by decide!, trivial⟩ (by decide!)⟩

/-- C1, at a reachable state: the Normal enemy of slot 0 (health 1) is the only
active enemy; the player fires, both bullets of the volley overlap that enemy in
the same tick, its health reaches 0 by the first hit, and it is the only enemy
killed in the tick: the sum of the type values of the enemies killed is 100, but
the score rises from 0 to 200. -/
theorem double_hit_scores_twice :
    Reachable raylib doubleHitGame ∧ 0 ≤ fireFrame.dt ∧
    doubleHitGame.player.score = 0 ∧
    ((doubleHitGame.enemies.filter fun e => e.active).map fun e => (e.type, e.health))
      = [(0, 1)] ∧
    (doubleHitGame.enemies.map fun e =>
        hitCount raylib (moveEnemy raylib fireFrame.dt e)
          (beforeCollision fireFrame doubleHitGame).bullets)
      = 2 :: List.replicate 19 0 ∧
    bulletKills raylib fireFrame doubleHitGame = [0] ∧
    ((bulletKills raylib fireFrame doubleHitGame).map points).sum = 100 ∧
    (UpdateGame raylib fireFrame doubleHitGame).player.score = 200 :=
  ⟨Reachable.tick _ _ (Reachable.tick _ _ (Reachable.tick _ _
      (Reachable.init _ (zeroGame_wellFormed _)) (by decide!)) (by decide!)) (by decide!),
    by decide!, by decide!, by decide!, by decide!, by decide!, by decide!, by decide!⟩

/-! ## SpawnEnemy -/

theorem GetRandomValue_range (min max : Int) (r : Rand) (h : min ≤ max) :
    min ≤ (GetRandomValue min max r).1 ∧ (GetRandomValue min max r).1 ≤ max := by
  have hpos : 0 < max - min + 1 := by omega
  have h1 := Int.emod_nonneg (r 0 : Int) (ne_of_gt hpos)
  have h2 := Int.emod_lt_of_pos (r 0 : Int) hpos
  show min ≤ min + (r 0 : Int) % (max - min + 1) ∧ min + (r 0 : Int) % (max - min + 1) ≤ max
  omega

theorem spawnInto_first_free (L : Lib) (w : Int) (pre post : List Enemy) (e : Enemy) (r : Rand)
    (hpre : ∀ x ∈ pre, x.active = true) (he : e.active = false) :
    (spawnInto L w (pre ++ e :: post) r).1 = pre ++ (newEnemy L w r).1 :: post := by
  induction pre with
  | nil => simp [spawnInto, he]
  | cons x pre ih =>
    have hx : x.active = true := hpre x (List.mem_cons_self _ _)
    rw [List.cons_append, spawnInto]
    simp only [hx, Bool.not_true, Bool.false_eq_true, if_false, List.cons_append]
    rw [ih fun y hy => hpre y (List.mem_cons_of_mem _ hy)]

theorem newEnemy_common (L : Lib) (w : Int) (r : Rand) :
    (newEnemy L w r).1.active = true ∧
      (newEnemy L w r).1.position = ⟨((GetRandomValue 40 (800 - 40) r).1 : ℚ), -40⟩ := by
  unfold newEnemy
  dsimp only
  split_ifs <;> exact ⟨rfl, rfl⟩

/-- C11: when SpawnEnemy finds a free slot (the first one of the pool, after the
active slots `pre`), with c the type draw, the enemy written there is Normal (type 0,
30x30, speed 80 + 10 wave, health 1) for c < 60, Fast (type 1, 20x20, speed
150 + 15 wave, health 1) for 60 <= c < 85 and Strong (type 2, 40x40, speed 50 + 5 wave,
health 3) otherwise; it is active at y = -40 with 40 <= x <= 760, and every other
slot of the pool is unchanged. -/
theorem spawn_enemy_slot (L : Lib) (g : Game) (pre post : List Enemy) (e : Enemy)
    (hsplit : g.enemies = pre ++ e :: post) (hpre : ∀ x ∈ pre, x.active = true)
    (he : e.active = false) :
    ∃ e', (SpawnEnemy L g).enemies = pre ++ e' :: post ∧
      e'.active = true ∧ e'.position.y = -40 ∧
      e'.position.x = ((GetRandomValue 40 760 g.random).1 : ℚ) ∧
      40 ≤ e'.position.x ∧ e'.position.x ≤ 760 ∧
      ((GetRandomValue 0 100 (GetRandomValue 40 760 g.random).2).1 < 60 →
        e'.type = 0 ∧ e'.size = ⟨30, 30⟩ ∧ e'.speed = 80 + 10 * (g.wave : ℚ) ∧ e'.health = 1) ∧
      (60 ≤ (GetRandomValue 0 100 (GetRandomValue 40 760 g.random).2).1 →
        (GetRandomValue 0 100 (GetRandomValue 40 760 g.random).2).1 < 85 →
        e'.type = 1 ∧ e'.size = ⟨20, 20⟩ ∧ e'.speed = 150 + 15 * (g.wave : ℚ) ∧
          e'.health = 1) ∧
      (85 ≤ (GetRandomValue 0 100 (GetRandomValue 40 760 g.random).2).1 →
        e'.type = 2 ∧ e'.size = ⟨40, 40⟩ ∧ e'.speed = 50 + 5 * (g.wave : ℚ) ∧ e'.health = 3) := by
  have hx := GetRandomValue_range 40 760 g.random (by norm_num)
  have hpos := (newEnemy_common L g.wave g.random).2
  have h760 : (800 : Int) - 40 = 760 := by norm_num
  rw [h760] at hpos
  have hxq : (newEnemy L g.wave g.random).1.position.x
      = ((GetRandomValue 40 760 g.random).1 : ℚ) := by rw [hpos]
  refine ⟨(newEnemy L g.wave g.random).1, ?_, (newEnemy_common L g.wave g.random).1, ?_, ?_, ?_,
    ?_, ?_, ?_, ?_⟩
  · show (spawnInto L g.wave g.enemies g.random).1 = _
    rw [hsplit]
    exact spawnInto_first_free L g.wave pre post e g.random hpre he
  · rw [hpos]
  · rw [hpos]
  · rw [hxq]; exact_mod_cast hx.1
  · rw [hxq]; exact_mod_cast hx.2
  · intro hc
    have hc' : (GetRandomValue 0 100 (GetRandomValue 40 (800 - 40) g.random).2).1 < 60 := by
      rw [h760]; exact hc
    unfold newEnemy
    simp only [hc', if_true]
    refine ⟨trivial, trivial, ?_, trivial⟩
    ring
  · intro hc1 hc2
    have hc1' : ¬ (GetRandomValue 0 100 (GetRandomValue 40 (800 - 40) g.random).2).1 < 60 := by
      rw [h760]; omega
    have hc2' : (GetRandomValue 0 100 (GetRandomValue 40 (800 - 40) g.random).2).1 < 85 := by
      rw [h760]; exact hc2
    unfold newEnemy
    simp only [hc1', hc2', if_true, if_false]
    refine ⟨trivial, trivial, ?_, trivial⟩
    ring
  · intro hc
    have hc1' : ¬ (GetRandomValue 0 100 (GetRandomValue 40 (800 - 40) g.random).2).1 < 60 := by
      rw [h760]; omega
    have hc2' : ¬ (GetRandomValue 0 100 (GetRandomValue 40 (800 - 40) g.random).2).1 < 85 := by
      rw [h760]; omega
    unfold newEnemy
    simp only [hc1', hc2', if_false]
    refine ⟨trivial, trivial, ?_, trivial⟩
    ring

theorem spawn_enemy_slot_witness :
    freshGame.enemies = [] ++ (⟨⟨0, 0⟩, ⟨0, 0⟩, 0, 0, false, 0, 0⟩ : Enemy) ::
        List.replicate 19 ⟨⟨0, 0⟩, ⟨0, 0⟩, 0, 0, false, 0, 0⟩ ∧
      (∀ x ∈ ([] : List Enemy), x.active = true) ∧
      (⟨⟨0, 0⟩, ⟨0, 0⟩, 0, 0, false, 0, 0⟩ : Enemy).active = false ∧
      ∃ e', (SpawnEnemy raylib freshGame).enemies =
          [] ++ e' :: List.replicate 19 ⟨⟨0, 0⟩, ⟨0, 0⟩, 0, 0, false, 0, 0⟩ ∧
        e'.active = true ∧ e'.position.y = -40 ∧ 40 ≤ e'.position.x ∧ e'.position.x ≤ 760 :=
  ⟨by decide!, by decide!, rfl,
    (spawn_enemy_slot raylib freshGame [] (List.replicate 19 ⟨⟨0, 0⟩, ⟨0, 0⟩, 0, 0, false, 0, 0⟩)
      ⟨⟨0, 0⟩, ⟨0, 0⟩, 0, 0, false, 0, 0⟩ (by decide!) (by decide!) rfl).imp
      fun _ h => ⟨h.1, h.2.1, h.2.2.1, h.2.2.2.2.1, h.2.2.2.2.2.1⟩⟩

/-- C19, on the code: the type draw of line 238 is GetRandomValue(0, 100), which
ranges over the 101 integers 0..100, the value 100 included; of these 60 give a
Normal, 25 a Fast and 16 (not 15) a Strong enemy. -/
theorem type_draw_range :
    ((List.range 101).map fun n => (GetRandomValue 0 100 fun _ => n).1)
      = (List.range 101).map Int.ofNat ∧
    (GetRandomValue 0 100 fun _ => 100).1 = 100 ∧ typeOfDraw 100 = 2 ∧
    (List.range 101).countP (fun c => typeOfDraw c = 0) = 60 ∧
    (List.range 101).countP (fun c => typeOfDraw c = 1) = 25 ∧
    (List.range 101).countP (fun c => typeOfDraw c = 2) = 16 :=
  ⟨by decide!, by decide!, by decide!, by decide!, by decide!, by decide!⟩

/-! ## The game state machine -/

theorem InitGame_player (g : Game) :
    (InitGame g).player = ⟨⟨400, 520⟩, ⟨40, 40⟩, 300, 5, 0, 0, true, 0⟩ := by
  simp only [InitGame, SCREEN_WIDTH, SCREEN_HEIGHT]
  norm_num

theorem InitGame_resets (g : Game) :
    (∀ b ∈ (InitGame g).bullets, b.active = false) ∧
    (∀ e ∈ (InitGame g).enemies, e.active = false) ∧
    (∀ p ∈ (InitGame g).particles, p.active = false) ∧
    (InitGame g).gameTime = 0 ∧ (InitGame g).enemyTimer = 0 ∧ (InitGame g).wave = 1 ∧
    (InitGame g).difficultyMultiplier = 1 := by
  refine ⟨?_, ?_, ?_, rfl, rfl, rfl, rfl⟩
  · intro b hb
    simp only [InitGame, List.mem_map] at hb
    obtain ⟨b0, -, rfl⟩ := hb; rfl
  · intro e he
    simp only [InitGame, List.mem_map] at he
    obtain ⟨e0, -, rfl⟩ := he; rfl
  · intro p hp
    simp only [InitGame, List.mem_map] at hp
    obtain ⟨p0, -, rfl⟩ := hp; rfl

theorem mainFrame_menu (L : Lib) (inp : Input) (pr : Pressed) (g : Game)
    (h : g.gameState = GameState.STATE_MENU) : mainFrame L inp pr g = DrawMenu inp pr g := by
  unfold mainFrame updatePhase drawPhase
  simp only [h]

theorem mainFrame_gameOver (L : Lib) (inp : Input) (pr : Pressed) (g : Game)
    (h : g.gameState = GameState.STATE_GAMEOVER) :
    mainFrame L inp pr g = DrawGameOver inp pr g := by
  unfold mainFrame updatePhase drawPhase
  simp only [h]

theorem mainFrame_confirm (L : Lib) (inp : Input) (pr : Pressed) (g : Game)
    (hstate : g.gameState = GameState.STATE_MENU ∨ g.gameState = GameState.STATE_GAMEOVER)
    (hen : pr.KEY_ENTER = true) (hesc : pr.KEY_ESCAPE = false) :
    ∃ g1, mainFrame L inp pr g = { InitGame g1 with gameState := GameState.STATE_GAME } ∧
      g1.bullets.length = g.bullets.length ∧ g1.enemies.length = g.enemies.length ∧
      g1.particles.length = g.particles.length := by
  rcases hstate with h | h
  · rw [mainFrame_menu L inp pr g h]
    refine ⟨{ g with stars := (updateStars inp.dt g.stars g.random).1,
                     random := (updateStars inp.dt g.stars g.random).2 }, ?_, rfl, rfl, rfl⟩
    unfold DrawMenu
    simp only [hen, if_true]
  · rw [mainFrame_gameOver L inp pr g h]
    refine ⟨{ g with stars := g.stars.map (gameOverStar inp.dt),
                     particles := g.particles.map (updateParticle inp.dt) }, ?_, rfl, rfl, ?_⟩
    · unfold DrawGameOver
      simp only [hen, hesc, if_true, Bool.false_eq_true, if_false]
    · simp

/-- C14: a frame in the Menu state or in the GameOver state in which Enter is
pressed and Escape is not ends in the Playing state with a fully reset game,
whatever the state before: the player at (400, 520), 40x40, health 5, score 0, both
timers 0, active; every bullet, enemy and particle slot inactive (the pools keep
their sizes); gameTime 0, enemyTimer 0, wave 1, difficultyMultiplier 1. -/
theorem confirm_resets_game (L : Lib) (inp : Input) (pr : Pressed) (g : Game)
    (hstate : g.gameState = GameState.STATE_MENU ∨ g.gameState = GameState.STATE_GAMEOVER)
    (hen : pr.KEY_ENTER = true) (hesc : pr.KEY_ESCAPE = false) :
    (mainFrame L inp pr g).gameState = GameState.STATE_GAME ∧
    (mainFrame L inp pr g).player.position = ⟨400, 520⟩ ∧
    (mainFrame L inp pr g).player.size = ⟨40, 40⟩ ∧
    (mainFrame L inp pr g).player.health = 5 ∧
    (mainFrame L inp pr g).player.score = 0 ∧
    (mainFrame L inp pr g).player.shoot_timer = 0 ∧
    (mainFrame L inp pr g).player.damage_timer = 0 ∧
    (mainFrame L inp pr g).player.active = true ∧
    (∀ b ∈ (mainFrame L inp pr g).bullets, b.active = false) ∧
    (∀ e ∈ (mainFrame L inp pr g).enemies, e.active = false) ∧
    (∀ p ∈ (mainFrame L inp pr g).particles, p.active = false) ∧
    (mainFrame L inp pr g).bullets.length = g.bullets.length ∧
    (mainFrame L inp pr g).enemies.length = g.enemies.length ∧
    (mainFrame L inp pr g).particles.length = g.particles.length ∧
    (mainFrame L inp pr g).gameTime = 0 ∧ (mainFrame L inp pr g).enemyTimer = 0 ∧
    (mainFrame L inp pr g).wave = 1 ∧ (mainFrame L inp pr g).difficultyMultiplier = 1 := by
  obtain ⟨g1, hg1, hb, he, hp⟩ := mainFrame_confirm L inp pr g hstate hen hesc
  rw [hg1]
  have hpl : ({ InitGame g1 with gameState := GameState.STATE_GAME } : Game).player
      = ⟨⟨400, 520⟩, ⟨40, 40⟩, 300, 5, 0, 0, true, 0⟩ := InitGame_player g1
  obtain ⟨r1, r2, r3, r4, r5, r6, r7⟩ := InitGame_resets g1
  refine ⟨rfl, ?_, ?_, ?_, ?_, ?_, ?_, ?_, r1, r2, r3, ?_, ?_, ?_, r4, r5, r6, r7⟩
  · rw [hpl]
  · rw [hpl]
  · rw [hpl]
  · rw [hpl]
  · rw [hpl]
  · rw [hpl]
  · rw [hpl]
  · show (g1.bullets.map _).length = _
    rw [List.length_map, hb]
  · show (g1.enemies.map _).length = _
    rw [List.length_map, he]
  · show (g1.particles.map _).length = _
    rw [List.length_map, hp]

theorem confirm_resets_game_witness :
    (contactKillGame.gameState = GameState.STATE_MENU ∨
      contactKillGame.gameState = GameState.STATE_GAMEOVER) ∧
    (⟨true, false⟩ : Pressed).KEY_ENTER = true ∧ (⟨true, false⟩ : Pressed).KEY_ESCAPE = false ∧
    (mainFrame raylib (idle (1 / 60)) ⟨true, false⟩ contactKillGame).gameState
      = GameState.STATE_GAME ∧
    (mainFrame raylib (idle (1 / 60)) ⟨true, false⟩ contactKillGame).player.position
      = ⟨400, 520⟩ ∧
    (∀ e ∈ (mainFrame raylib (idle (1 / 60)) ⟨true, false⟩ contactKillGame).enemies,
      e.active = false) :=
  ⟨by decide!, rfl, rfl,
    (confirm_resets_game raylib (idle (1 / 60)) ⟨true, false⟩ contactKillGame (by decide!)
      rfl rfl).1,
    (confirm_resets_game raylib (idle (1 / 60)) ⟨true, false⟩ contactKillGame (by decide!)
      rfl rfl).2.1,
    (confirm_resets_game raylib (idle (1 / 60)) ⟨true, false⟩ contactKillGame (by decide!)
      rfl rfl).2.2.2.2.2.2.2.2.2.1⟩

/-! ## Frames outside the Playing state -/

theorem updateStars_keeps (dt : ℚ) (ss : List Star) (r : Rand) :
    List.Forall₂ (fun a b : Star => b.speed = a.speed ∧ b.brightness = a.brightness ∧
      b.size = a.size) ss (updateStars dt ss r).1 := by
  induction ss generalizing r with
  | nil => exact List.Forall₂.nil
  | cons s ss ih =>
    unfold updateStars
    dsimp only
    split_ifs
    · exact List.Forall₂.cons ⟨rfl, rfl, rfl⟩ (ih _)
    · exact List.Forall₂.cons ⟨rfl, rfl, rfl⟩ (ih _)

theorem gameOverStar_keeps (dt : ℚ) (ss : List Star) :
    List.Forall₂ (fun a b : Star => b.speed = a.speed ∧ b.brightness = a.brightness ∧
      b.size = a.size) ss (ss.map (gameOverStar dt)) := by
  induction ss with
  | nil => exact List.Forall₂.nil
  | cons s ss ih =>
    refine List.Forall₂.cons ?_ ih
    unfold gameOverStar
    dsimp only
    split_ifs <;> exact ⟨rfl, rfl, rfl⟩

/-- C16: a frame in the Menu state or in the GameOver state in which Enter is not
pressed leaves the player, every bullet slot, every enemy slot, gameTime,
enemyTimer, wave and difficultyMultiplier unchanged; of the stars only the
positions change; in the Menu state the particle slots and the game state are
unchanged too, in the GameOver state the particle loop runs once and the game
state changes only on Escape, to Menu. -/
theorem idle_screens_freeze_game (L : Lib) (inp : Input) (pr : Pressed) (g : Game)
    (hstate : g.gameState = GameState.STATE_MENU ∨ g.gameState = GameState.STATE_GAMEOVER)
    (hen : pr.KEY_ENTER = false) :
    (mainFrame L inp pr g).player = g.player ∧
    (mainFrame L inp pr g).bullets = g.bullets ∧
    (mainFrame L inp pr g).enemies = g.enemies ∧
    (mainFrame L inp pr g).gameTime = g.gameTime ∧
    (mainFrame L inp pr g).enemyTimer = g.enemyTimer ∧
    (mainFrame L inp pr g).wave = g.wave ∧
    (mainFrame L inp pr g).difficultyMultiplier = g.difficultyMultiplier ∧
    List.Forall₂ (fun a b : Star => b.speed = a.speed ∧ b.brightness = a.brightness ∧
      b.size = a.size) g.stars (mainFrame L inp pr g).stars ∧
    (g.gameState = GameState.STATE_MENU →
      (mainFrame L inp pr g).particles = g.particles ∧
      (mainFrame L inp pr g).gameState = GameState.STATE_MENU) ∧
    (g.gameState = GameState.STATE_GAMEOVER →
      (mainFrame L inp pr g).particles = g.particles.map (updateParticle inp.dt) ∧
      (mainFrame L inp pr g).gameState =
        if pr.KEY_ESCAPE then GameState.STATE_MENU else GameState.STATE_GAMEOVER) := by
  rcases hstate with h | h
  · rw [mainFrame_menu L inp pr g h]
    have e1 : DrawMenu inp pr g =
        { g with stars := (updateStars inp.dt g.stars g.random).1,
                 random := (updateStars inp.dt g.stars g.random).2 } := by
      unfold DrawMenu
      simp only [hen, Bool.false_eq_true, if_false]
    rw [e1]
    refine ⟨rfl, rfl, rfl, rfl, rfl, rfl, rfl, updateStars_keeps _ _ _, ?_, ?_⟩
    · intro _; exact ⟨rfl, h⟩
    · intro h'; rw [h] at h'; cases h'
  · rw [mainFrame_gameOver L inp pr g h]
    cases hesc : pr.KEY_ESCAPE
    · have e1 : DrawGameOver inp pr g =
          { g with stars := g.stars.map (gameOverStar inp.dt),
                   particles := g.particles.map (updateParticle inp.dt) } := by
        unfold DrawGameOver
        simp only [hen, hesc, Bool.false_eq_true, if_false]
      rw [e1]
      refine ⟨rfl, rfl, rfl, rfl, rfl, rfl, rfl, gameOverStar_keeps _ _, ?_, ?_⟩
      · intro h'; rw [h] at h'; cases h'
      · intro _; exact ⟨rfl, by simpa using h⟩
    · have e1 : DrawGameOver inp pr g =
          { g with stars := g.stars.map (gameOverStar inp.dt),
                   particles := g.particles.map (updateParticle inp.dt),
                   gameState := GameState.STATE_MENU } := by
        unfold DrawGameOver
        simp only [hen, hesc, Bool.false_eq_true, if_false, if_true]
      rw [e1]
      refine ⟨rfl, rfl, rfl, rfl, rfl, rfl, rfl, gameOverStar_keeps _ _, ?_, ?_⟩
      · intro h'; rw [h] at h'; cases h'
      · intro _; exact ⟨rfl, by simp⟩

theorem idle_screens_freeze_game_witness :
    (contactKillGame.gameState = GameState.STATE_MENU ∨
      contactKillGame.gameState = GameState.STATE_GAMEOVER) ∧
    (⟨false, false⟩ : Pressed).KEY_ENTER = false ∧
    (mainFrame raylib (idle (1 / 60)) ⟨false, false⟩ contactKillGame).player
      = contactKillGame.player ∧
    (mainFrame raylib (idle (1 / 60)) ⟨false, false⟩ contactKillGame).bullets
      = contactKillGame.bullets ∧
    (mainFrame raylib (idle (1 / 60)) ⟨false, false⟩ contactKillGame).enemies
      = contactKillGame.enemies :=
  ⟨by decide!, rfl,
    (idle_screens_freeze_game raylib (idle (1 / 60)) ⟨false, false⟩ contactKillGame
      (by decide!) rfl).1,
    (idle_screens_freeze_game raylib (idle (1 / 60)) ⟨false, false⟩ contactKillGame
      (by decide!) rfl).2.1,
    (idle_screens_freeze_game raylib (idle (1 / 60)) ⟨false, false⟩ contactKillGame
      (by decide!) rfl).2.2.1⟩

/-! ## The death of the player -/

/-- What the enemy loop does to the player and to the game state: nothing, or one
damaging contact. -/
theorem updateEnemies_outcome (L : Lib) (dt : ℚ) (es : List Enemy) (g : Game) :
    (SameButScore g.player (updateEnemies L dt es g).2.player ∧
      (updateEnemies L dt es g).2.gameState = g.gameState) ∨
    (SameButScore (damaged g.player) (updateEnemies L dt es g).2.player ∧
      (updateEnemies L dt es g).2.gameState =
        if g.player.health - 1 ≤ 0 then GameState.STATE_GAMEOVER else g.gameState) := by
  induction es generalizing g with
  | nil => exact Or.inl ⟨sameButScore_refl _, rfl⟩
  | cons e es ih =>
    rw [updateEnemies_cons]
    by_cases hc : e.active = true ∧ contact L g.player (moveEnemy L dt e) = true
    · obtain ⟨h1, h2, -⟩ := updateEnemy_hit L dt e g hc.1 hc.2
      have hsh : (updateEnemy L dt e g).2.player.active = false ∨
          0 < (updateEnemy L dt e g).2.player.damage_timer := by
        right; rw [h1.sameDamageTimer]; show (0 : ℚ) < 1; norm_num
      obtain ⟨h3, h4⟩ := updateEnemies_shielded L dt es _ hsh
      exact Or.inr ⟨sameButScore_trans h1 h3, h4.trans h2⟩
    · have hm : e.active = false ∨ contact L g.player (moveEnemy L dt e) = false := by
        cases ha : e.active
        · exact Or.inl rfl
        · right
          cases hcc : contact L g.player (moveEnemy L dt e)
          · rfl
          · exact absurd ⟨ha, hcc⟩ hc
      obtain ⟨h1, h2⟩ := updateEnemy_miss L dt e g hm
      rcases ih (updateEnemy L dt e g).2 with ⟨h3, h4⟩ | ⟨h3, h4⟩
      · exact Or.inl ⟨sameButScore_trans h1 h3, h4.trans h2⟩
      · refine Or.inr ⟨sameButScore_trans (sameButScore_damaged h1) h3, ?_⟩
        rw [h4, h1.sameHealth, h2]

/-- What a tick does to health, active flag and game state. -/
theorem UpdateGame_outcome (L : Lib) (inp : Input) (g : Game) :
    ((UpdateGame L inp g).player.health = g.player.health ∧
      (UpdateGame L inp g).player.active = g.player.active ∧
      (UpdateGame L inp g).gameState = g.gameState) ∨
    ((UpdateGame L inp g).player.health = g.player.health - 1 ∧
      (UpdateGame L inp g).player.active =
        (if g.player.health - 1 ≤ 0 then false else g.player.active) ∧
      (UpdateGame L inp g).gameState =
        if g.player.health - 1 ≤ 0 then GameState.STATE_GAMEOVER else g.gameState) := by
  rw [UpdateGame_player, UpdateGame_gameState, afterCollision_player, afterCollision_gameState]
  rcases updateEnemies_outcome L inp.dt g.enemies (beforeCollision inp g) with ⟨h1, h2⟩ | ⟨h1, h2⟩
  · left
    refine ⟨?_, ?_, ?_⟩
    · rw [h1.sameHealth, beforeCollision_player_health]
    · rw [h1.sameActive, beforeCollision_player_active]
    · rw [h2, beforeCollision_gameState]
  · right
    refine ⟨?_, ?_, ?_⟩
    · rw [h1.sameHealth]
      show (beforeCollision inp g).player.health - 1 = _
      rw [beforeCollision_player_health]
    · rw [h1.sameActive]
      show (if (beforeCollision inp g).player.health - 1 ≤ 0 then false
        else (beforeCollision inp g).player.active) = _
      rw [beforeCollision_player_health, beforeCollision_player_active]
    · rw [h2, beforeCollision_player_health, beforeCollision_gameState]

/-- C15, as stated, fails on the inputs: in the Playing state, with the player at
its last health point and an enemy in contact, a frame in which Escape is pressed
takes the health to 0 and deactivates the player, but the update phase of that
frame ends in the Menu state, not in GameOver. -/
theorem death_with_escape_counterexample :
    lastLifeGame.gameState = GameState.STATE_GAME ∧ lastLifeGame.player.health = 1 ∧
    (UpdateGame raylib (idle (1 / 10)) lastLifeGame).player.health = 0 ∧
    (UpdateGame raylib (idle (1 / 10)) lastLifeGame).gameState = GameState.STATE_GAMEOVER ∧
    (updatePhase raylib (idle (1 / 10)) ⟨false, true⟩ lastLifeGame).player.active = false ∧
    (updatePhase raylib (idle (1 / 10)) ⟨false, true⟩ lastLifeGame).gameState
      = GameState.STATE_MENU :=
  ⟨by decide!, by decide!, by decide!, by decide!, by decide!, by decide!⟩

/-- C15, amended: in a Playing frame in which the player's health reaches 0
during UpdateGame, UpdateGame leaves the game state GameOver and the player
inactive, and after the update phase of the frame the player is inactive and the
game state is GameOver unless Escape is pressed in that frame, in which case it is
Menu; and UpdateGame does not change gameState in a tick in which the player's
health does not reach 0. -/
theorem death_transition (L : Lib) (inp : Input) (pr : Pressed) (g : Game)
    (hg : g.gameState = GameState.STATE_GAME) :
    ((UpdateGame L inp g).player.health < g.player.health →
      (UpdateGame L inp g).player.health ≤ 0 →
      (UpdateGame L inp g).gameState = GameState.STATE_GAMEOVER ∧
      (UpdateGame L inp g).player.active = false ∧
      (updatePhase L inp pr g).player.active = false ∧
      (updatePhase L inp pr g).gameState =
        if pr.KEY_ESCAPE then GameState.STATE_MENU else GameState.STATE_GAMEOVER) ∧
    (¬ ((UpdateGame L inp g).player.health < g.player.health ∧
        (UpdateGame L inp g).player.health ≤ 0) →
      (UpdateGame L inp g).gameState = g.gameState) := by
  have hup : updatePhase L inp pr g =
      if pr.KEY_ESCAPE then { UpdateGame L inp g with gameState := GameState.STATE_MENU }
      else UpdateGame L inp g := by
    unfold updatePhase
    simp only [hg]
  refine ⟨?_, ?_⟩
  · intro hlt hle
    rcases UpdateGame_outcome L inp g with ⟨h1, -, -⟩ | ⟨h1, h2, h3⟩
    · rw [h1] at hlt; exact absurd hlt (lt_irrefl _)
    · have hd : g.player.health - 1 ≤ 0 := by rw [← h1]; exact hle
      simp only [hd, if_true] at h2 h3
      refine ⟨h3, h2, ?_, ?_⟩
      · rw [hup]; split_ifs <;> exact h2
      · rw [hup]; split_ifs
        · rfl
        · exact h3
  · intro hn
    rcases UpdateGame_outcome L inp g with ⟨-, -, h3⟩ | ⟨h1, -, h3⟩
    · exact h3
    · have hd : ¬ g.player.health - 1 ≤ 0 := by
        intro hd
        apply hn
        rw [h1]
        exact ⟨by omega, hd⟩
      simpa only [hd, if_false] using h3

theorem death_transition_witness :
    lastLifeGame.gameState = GameState.STATE_GAME ∧
    (UpdateGame raylib (idle (1 / 10)) lastLifeGame).player.health
      < lastLifeGame.player.health ∧
    (UpdateGame raylib (idle (1 / 10)) lastLifeGame).player.health ≤ 0 ∧
    ((UpdateGame raylib (idle (1 / 10)) lastLifeGame).gameState = GameState.STATE_GAMEOVER ∧
      (UpdateGame raylib (idle (1 / 10)) lastLifeGame).player.active = false ∧
      (updatePhase raylib (idle (1 / 10)) ⟨false, false⟩ lastLifeGame).player.active = false ∧
      (updatePhase raylib (idle (1 / 10)) ⟨false, false⟩ lastLifeGame).gameState =
        if (⟨false, false⟩ : Pressed).KEY_ESCAPE then GameState.STATE_MENU
        else GameState.STATE_GAMEOVER) :=
  ⟨by decide!, by decide!, by decide!,
    (death_transition raylib (idle (1 / 10)) ⟨false, false⟩ lastLifeGame (by decide!)).1
      (by decide!) (by decide!)⟩

/-! ## SpawnParticles -/

theorem activeParticles_cons (p : Particle) (ps : List Particle) :
    activeParticles (p :: ps) = activeParticles ps + if p.active then 1 else 0 := by
  unfold activeParticles; rw [List.countP_cons]

theorem freeSlots_cons (p : Particle) (ps : List Particle) :
    freeSlots (p :: ps) = freeSlots ps + if p.active then 0 else 1 := by
  unfold freeSlots; rw [List.countP_cons]
  cases p.active <;> simp

theorem activeParticles_add_freeSlots (ps : List Particle) :
    activeParticles ps + freeSlots ps = ps.length := by
  induction ps with
  | nil => rfl
  | cons p ps ih =>
    rw [activeParticles_cons, freeSlots_cons, List.length_cons]
    cases p.active <;> simp <;> omega

theorem newParticle_fields (L : Lib) (position : Vector2) (color : Color) (r : Rand) :
    (newParticle L position color r).1.active = true ∧
      (newParticle L position color r).1.position = position ∧
      (newParticle L position color r).1.color = color ∧
      (newParticle L position color r).1.max_lifetime
        = (newParticle L position color r).1.lifetime :=
  ⟨rfl, rfl, rfl, rfl⟩

theorem spawnParticlesLoop_cons_free (L : Lib) (position : Vector2) (color : Color) (count : Int)
    (p : Particle) (ps : List Particle) (r : Rand) (hc : 0 < count) (hp : p.active = false) :
    spawnParticlesLoop L position color count (p :: ps) r =
      ((newParticle L position color r).1 ::
          (spawnParticlesLoop L position color (count - 1) ps
            (newParticle L position color r).2).1,
        (spawnParticlesLoop L position color (count - 1) ps
          (newParticle L position color r).2).2) := by
  rw [spawnParticlesLoop]
  have hc' : count > 0 := hc
  simp only [hc', if_true, hp, Bool.not_false]

theorem spawnParticlesLoop_cons_busy (L : Lib) (position : Vector2) (color : Color) (count : Int)
    (p : Particle) (ps : List Particle) (r : Rand) (hc : 0 < count) (hp : p.active = true) :
    spawnParticlesLoop L position color count (p :: ps) r =
      (p :: (spawnParticlesLoop L position color count ps r).1,
        (spawnParticlesLoop L position color count ps r).2) := by
  rw [spawnParticlesLoop]
  have hc' : count > 0 := hc
  simp only [hc', if_true, hp, Bool.not_true, Bool.false_eq_true, if_false]

theorem spawnParticlesLoop_done (L : Lib) (position : Vector2) (color : Color) (count : Int)
    (ps : List Particle) (r : Rand) (hc : count ≤ 0) :
    spawnParticlesLoop L position color count ps r = (ps, r) := by
  cases ps with
  | nil => rfl
  | cons p ps =>
    rw [spawnParticlesLoop]
    have hc' : ¬ count > 0 := not_lt.mpr hc
    simp only [hc', if_false]

/-- The call activates as many particles as requested, or as there are free slots. -/
theorem spawnParticlesLoop_count (L : Lib) (position : Vector2) (color : Color) (count : Int)
    (ps : List Particle) (r : Rand) (hc : 0 ≤ count) :
    activeParticles (spawnParticlesLoop L position color count ps r).1 =
      activeParticles ps + min count.toNat (freeSlots ps) := by
  induction ps generalizing count r with
  | nil => simp [spawnParticlesLoop, activeParticles, freeSlots]
  | cons p ps ih =>
    by_cases hpos : 0 < count
    · cases hp : p.active
      · rw [spawnParticlesLoop_cons_free L position color count p ps r hpos hp,
          activeParticles_cons, activeParticles_cons, freeSlots_cons,
          ih (count - 1) _ (by omega)]
        simp only [(newParticle_fields L position color r).1, if_true, hp, Bool.false_eq_true,
          if_false]
        have : (count - 1).toNat = count.toNat - 1 := by omega
        rw [this]
        have : 1 ≤ count.toNat := by omega
        omega
      · rw [spawnParticlesLoop_cons_busy L position color count p ps r hpos hp,
          activeParticles_cons, activeParticles_cons, freeSlots_cons, ih count _ hc]
        simp only [hp, if_true]
        omega
    · have h0 : count = 0 := by omega
      rw [spawnParticlesLoop_done L position color count _ r (by omega), h0]
      simp

/-- The slot at a given position of the pool after the call. -/
theorem spawnParticlesLoop_slot (L : Lib) (position : Vector2) (color : Color) (count : Int)
    (pre post : List Particle) (p : Particle) (r : Rand) :
    ∃ p', (spawnParticlesLoop L position color count (pre ++ p :: post) r).1[pre.length]?
        = some p' ∧
      (p.active = true → p' = p) ∧
      (p.active = false → (freeSlots pre : Int) < count →
        p'.active = true ∧ p'.position = position ∧ p'.color = color ∧
          p'.max_lifetime = p'.lifetime) ∧
      (p.active = false → count ≤ (freeSlots pre : Int) → p' = p) := by
  induction pre generalizing count r with
  | nil =>
    by_cases hpos : 0 < count
    · cases hp : p.active
      · refine ⟨(newParticle L position color r).1, ?_, ?_, ?_, ?_⟩
        · rw [List.nil_append, spawnParticlesLoop_cons_free L position color count p post r hpos hp]
          simp
        · intro h; cases h
        · intro _ _; exact newParticle_fields L position color r
        · intro _ h; simp [freeSlots] at h; omega
      · refine ⟨p, ?_, fun _ => rfl, ?_, fun _ _ => rfl⟩
        · rw [List.nil_append, spawnParticlesLoop_cons_busy L position color count p post r hpos hp]
          simp
        · intro h; cases h
    · refine ⟨p, ?_, fun _ => rfl, ?_, fun _ _ => rfl⟩
      · rw [spawnParticlesLoop_done L position color count _ r (by omega)]
        simp
      · intro _ h; simp [freeSlots] at h; omega
  | cons x pre ih =>
    by_cases hpos : 0 < count
    · cases hx : x.active
      · obtain ⟨p', h1, h2, h3, h4⟩ := ih (count - 1) (newParticle L position color r).2
        refine ⟨p', ?_, h2, ?_, ?_⟩
        · rw [List.cons_append,
            spawnParticlesLoop_cons_free L position color count x _ r hpos hx]
          simpa using h1
        · intro hp hlt
          apply h3 hp
          rw [freeSlots_cons] at hlt
          simp only [hx, Bool.false_eq_true, if_false] at hlt
          push_cast at hlt; omega
        · intro hp hle
          apply h4 hp
          rw [freeSlots_cons] at hle
          simp only [hx, Bool.false_eq_true, if_false] at hle
          push_cast at hle; omega
      · obtain ⟨p', h1, h2, h3, h4⟩ := ih count r
        refine ⟨p', ?_, h2, ?_, ?_⟩
        · rw [List.cons_append,
            spawnParticlesLoop_cons_busy L position color count x _ r hpos hx]
          simpa using h1
        · intro hp hlt
          apply h3 hp
          rw [freeSlots_cons] at hlt
          simpa only [hx, if_true, Nat.add_zero] using hlt
        · intro hp hle
          apply h4 hp
          rw [freeSlots_cons] at hle
          simpa only [hx, if_true, Nat.add_zero] using hle
    · refine ⟨p, ?_, fun _ => rfl, ?_, fun _ _ => rfl⟩
      · rw [spawnParticlesLoop_done L position color count _ r (by omega)]
        show (x :: pre ++ p :: post)[(x :: pre).length]? = some p
        rw [List.getElem?_append_right (le_refl _)]
        simp
      · intro _ h
        have : (0 : Int) ≤ (freeSlots (x :: pre) : Int) := Int.ofNat_nonneg _
        omega

/-- C20: for every state (with pools of the declared sizes) whose particle pool has f
free slots and every count >= 0, SpawnParticles(position, color, count) activates
exactly min(count, f) particles; the slot at any index is unchanged if it was
active, is a new active particle with the given position and color and
max_lifetime equal to its lifetime if it was free with fewer than count free slots
before it, and is unchanged otherwise; the pool keeps its 200 slots, so at most 200
particles are active. -/
theorem spawn_particles_slots (L : Lib) (position : Vector2) (color : Color) (count : Int)
    (g : Game) (hwf : WellFormed g) (hc : 0 ≤ count) :
    activeParticles (SpawnParticles L position color count g).particles =
      activeParticles g.particles + min count.toNat (freeSlots g.particles) ∧
    (∀ pre p post, g.particles = pre ++ p :: post →
      ∃ p', (SpawnParticles L position color count g).particles[pre.length]? = some p' ∧
        (p.active = true → p' = p) ∧
        (p.active = false → (freeSlots pre : Int) < count →
          p'.active = true ∧ p'.position = position ∧ p'.color = color ∧
            p'.max_lifetime = p'.lifetime) ∧
        (p.active = false → count ≤ (freeSlots pre : Int) → p' = p)) ∧
    (SpawnParticles L position color count g).particles.length = 200 ∧
    activeParticles (SpawnParticles L position color count g).particles ≤ 200 := by
  have hlen : (SpawnParticles L position color count g).particles.length = 200 := by
    rw [SpawnParticles_particles_length]; exact hwf.2.2.2
  refine ⟨spawnParticlesLoop_count L position color count g.particles g.random hc, ?_, hlen, ?_⟩
  · intro pre p post hsplit
    show ∃ p', (spawnParticlesLoop L position color count g.particles g.random).1[pre.length]?
      = some p' ∧ _
    rw [hsplit]
    exact spawnParticlesLoop_slot L position color count pre post p g.random
  · have := activeParticles_add_freeSlots (SpawnParticles L position color count g).particles
    omega

theorem spawn_particles_slots_witness :
    WellFormed freshGame ∧ (0 : Int) ≤ 12 ∧
      activeParticles (SpawnParticles raylib ⟨400, 520⟩ ⟨0, 180, 255, 255⟩ 12 freshGame).particles
        = activeParticles freshGame.particles + min (12 : Int).toNat (freeSlots freshGame.particles) ∧
      activeParticles freshGame.particles = 0 ∧ freeSlots freshGame.particles = 200 ∧
      activeParticles (SpawnParticles raylib ⟨400, 520⟩ ⟨0, 180, 255, 255⟩ 12 freshGame).particles
        ≤ 200 :=
  ⟨reachable_wellFormed (freshGame_reachable raylib), by decide,
    (spawn_particles_slots raylib ⟨400, 520⟩ ⟨0, 180, 255, 255⟩ 12 freshGame
      (reachable_wellFormed (freshGame_reachable raylib)) (by decide)).1,
    by decide!, by decide!,
    (spawn_particles_slots raylib ⟨400, 520⟩ ⟨0, 180, 255, 255⟩ 12 freshGame
      (reachable_wellFormed (freshGame_reachable raylib)) (by decide)).2.2.2⟩

/-! ## The life of a particle -/

theorem shootInto_free (p v : Vector2) (c : Color) (b : Bullet) (bs : List Bullet)
    (h : b.active = false) : shootInto p v c (b :: bs) = ⟨p, v, 4, true, c⟩ :: bs := by
  unfold shootInto
  simp only [h, Bool.not_false, if_true]

theorem shootInto_busy (p v : Vector2) (c : Color) (b : Bullet) (bs : List Bullet)
    (h : b.active = true) : shootInto p v c (b :: bs) = b :: shootInto p v c bs := by
  rw [shootInto]
  simp only [h, Bool.not_true, Bool.false_eq_true, if_false]

theorem movePlayer_fields (inp : Input) (p : Player) :
    (movePlayer inp p).shoot_timer = p.shoot_timer ∧ (movePlayer inp p).active = p.active ∧
      (movePlayer inp p).size = p.size := ⟨rfl, rfl, rfl⟩

theorem movePlayer_y_le (inp : Input) (p : Player) :
    (movePlayer inp p).position.y ≤ SCREEN_HEIGHT - p.size.y / 2 := by
  unfold movePlayer
  dsimp only
  split_ifs <;> linarith

/-- What the block guarded by `player.active` does when the player fires. -/
theorem playerPhase_fire (inp : Input) (g : Game) (hact : g.player.active = true)
    (hfire : inp.KEY_SPACE = true ∨ inp.MOUSE_BUTTON_LEFT = true)
    (ht : g.player.shoot_timer - inp.dt ≤ 0) :
    (playerPhase inp g).bullets =
        shootInto ⟨(movePlayer inp g.player).position.x + 12,
            (movePlayer inp g.player).position.y - 20⟩ ⟨0, -500⟩ ⟨0, 200, 255, 255⟩
          (shootInto ⟨(movePlayer inp g.player).position.x - 12,
            (movePlayer inp g.player).position.y - 20⟩ ⟨0, -500⟩ ⟨0, 200, 255, 255⟩ g.bullets) ∧
      (playerPhase inp g).player.position = (movePlayer inp g.player).position := by
  have hf : (inp.KEY_SPACE || inp.MOUSE_BUTTON_LEFT) = true := by
    rcases hfire with h | h <;> simp [h]
  have ht' : (movePlayer inp g.player).shoot_timer - inp.dt ≤ 0 := ht
  unfold playerPhase
  simp only [hact, if_true, hf, ht', and_self]
  exact ⟨rfl, rfl⟩

theorem hitsSome_inactive (L : Lib) (dt : ℚ) (es : List Enemy) (b : Bullet)
    (h : ∀ e ∈ es, e.active = false) : hitsSome L dt es b = false := by
  unfold hitsSome
  rw [List.any_eq_false]
  intro e he
  simp [h e he]

/-- With no active enemy the enemy loop leaves the bullet pool as the bullet loop
made it. -/
theorem UpdateGame_bullets_quiet (L : Lib) (inp : Input) (g : Game)
    (h : ∀ e ∈ g.enemies, e.active = false) :
    (UpdateGame L inp g).bullets = (beforeCollision inp g).bullets := by
  rw [UpdateGame_bullets, afterCollision_bullets, updateEnemies_bullets]
  conv_rhs => rw [← List.map_id (beforeCollision inp g).bullets]
  apply List.map_congr_left
  intro b _
  simp [hitsSome_inactive L inp.dt g.enemies b h]

theorem UpdateGame_player_position (L : Lib) (inp : Input) (g : Game) :
    (UpdateGame L inp g).player.position = (playerPhase inp g).player.position := by
  rw [UpdateGame_player, (afterCollision_frame L inp g).playerPosition]
  simp only [beforeCollision, tickDamageTimer_position]
  unfold playerPhase
  dsimp only
  split_ifs <;> rfl

theorem beforeCollision_bullets (inp : Input) (g : Game) :
    (beforeCollision inp g).bullets = (playerPhase inp g).bullets.map (updateBullet inp.dt) := by
  simp only [beforeCollision]
  unfold playerPhase
  dsimp only
  split_ifs <;> rfl

/-- The bullet loop applied to a bullet fired in the same tick. -/
theorem updateBullet_new (dt x y : ℚ) (c : Color) (hy : y - 500 * dt ≤ SCREEN_HEIGHT + 10) :
    updateBullet dt ⟨⟨x, y⟩, ⟨0, -500⟩, 4, true, c⟩ =
      ⟨⟨x, y - 500 * dt⟩, ⟨0, -500⟩, 4, decide (-10 ≤ y - 500 * dt), c⟩ := by
  unfold updateBullet
  have e1 : x + 0 * dt = x := by ring
  have e2 : y + -500 * dt = y - 500 * dt := by ring
  have hn : ¬ (y - 500 * dt > SCREEN_HEIGHT + 10) := not_lt.mpr hy
  simp only [if_true, e1, e2]
  by_cases h : y - 500 * dt < -10
  · have h' : ¬ (-10 ≤ y - 500 * dt) := not_le.mpr h
    simp [h, h']
  · have h' : -10 ≤ y - 500 * dt := not_lt.mp h
    simp [h, hn, h']

theorem updateBullet_idle (dt : ℚ) (b : Bullet) (h : b.active = false) :
    updateBullet dt b = b := by
  unfold updateBullet
  simp [h]

theorem activeBullets_idle (bs : List Bullet) (h : ∀ b ∈ bs, b.active = false) :
    activeBullets bs = 0 := by
  unfold activeBullets
  rw [List.countP_eq_zero]
  intro b hb
  simp [h b hb]

/-- C13, as the spec states it, fails: in the first tick of a fresh game with the
fire key held for 1/60 s the two bullets end the tick 25/3 above the muzzle height
py - 20, because the bullet loop moves them in the tick that fires them; and with
a tick of 2 s they leave the screen in that same tick and none is active. -/
theorem first_shot_counterexample :
    (UpdateGame raylib fireFrame freshGame).player.position = ⟨400, 520⟩ ∧
    ((UpdateGame raylib fireFrame freshGame).bullets.filter fun b => b.active).map
        (fun b => b.position) = [⟨388, 500 - 25 / 3⟩, ⟨412, 500 - 25 / 3⟩] ∧
    (¬ ∃ b ∈ (UpdateGame raylib fireFrame freshGame).bullets, b.active = true ∧
        b.position = ⟨(UpdateGame raylib fireFrame freshGame).player.position.x - 12,
          (UpdateGame raylib fireFrame freshGame).player.position.y - 20⟩) ∧
    activeBullets (UpdateGame raylib { idle 2 with KEY_SPACE := true } freshGame).bullets = 0 := by
  decide!

/-- C13 (amended): in the first tick after InitGame, of duration dt >= 0 and with
the fire input held, the bullet pool at the end of the tick starts with two
bullets of velocity (0, -500) and radius 4 at (px - 12, py - 20 - 500 dt) and
(px + 12, py - 20 - 500 dt), where (px, py) is the player position at the end of
the tick; every other slot is inactive; the two bullets are active exactly when
py - 20 - 500 dt >= -10, and then exactly two bullets are active. -/
theorem first_shot (L : Lib) (inp : Input) (g0 : Game) (hwf : WellFormed g0)
    (hdt : 0 ≤ inp.dt) (hfire : inp.KEY_SPACE = true ∨ inp.MOUSE_BUTTON_LEFT = true) :
    ∃ b1 b2 rest, (UpdateGame L inp (InitGame g0)).bullets = b1 :: b2 :: rest ∧
      (∀ b ∈ rest, b.active = false) ∧
      b1.velocity = ⟨0, -500⟩ ∧ b1.radius = 4 ∧
      b1.position = ⟨(UpdateGame L inp (InitGame g0)).player.position.x - 12,
        (UpdateGame L inp (InitGame g0)).player.position.y - 20 - 500 * inp.dt⟩ ∧
      b2.velocity = ⟨0, -500⟩ ∧ b2.radius = 4 ∧
      b2.position = ⟨(UpdateGame L inp (InitGame g0)).player.position.x + 12,
        (UpdateGame L inp (InitGame g0)).player.position.y - 20 - 500 * inp.dt⟩ ∧
      (b1.active = true ↔
        -10 ≤ (UpdateGame L inp (InitGame g0)).player.position.y - 20 - 500 * inp.dt) ∧
      (b2.active = true ↔
        -10 ≤ (UpdateGame L inp (InitGame g0)).player.position.y - 20 - 500 * inp.dt) ∧
      (-10 ≤ (UpdateGame L inp (InitGame g0)).player.position.y - 20 - 500 * inp.dt →
        activeBullets (UpdateGame L inp (InitGame g0)).bullets = 2) := by
  obtain ⟨hb, he, -⟩ := InitGame_resets g0
  have hlen : (InitGame g0).bullets.length = MAX_BULLETS := (InitGame_wellFormed g0 hwf).1
  have hpl := InitGame_player g0
  have hact : (InitGame g0).player.active = true := by rw [hpl]
  have hst : (InitGame g0).player.shoot_timer - inp.dt ≤ 0 := by
    rw [hpl]; show (0 : ℚ) - inp.dt ≤ 0; linarith
  obtain ⟨hbul, hpos⟩ := playerPhase_fire inp (InitGame g0) hact hfire hst
  have hP := UpdateGame_player_position L inp (InitGame g0)
  rw [hpos] at hP
  have hB := UpdateGame_bullets_quiet L inp (InitGame g0) he
  rw [beforeCollision_bullets, hbul] at hB
  have hy := movePlayer_y_le inp (InitGame g0).player
  have hsz : (InitGame g0).player.size.y = 40 := by rw [hpl]
  rw [hsz] at hy
  rw [hB, hP]
  generalize (movePlayer inp (InitGame g0).player).position = pos at hy ⊢
  generalize (InitGame g0).bullets = bs at hb hlen ⊢
  match bs, hlen, hb with
  | [], hlen, _ => simp [MAX_BULLETS] at hlen
  | [_], hlen, _ => simp [MAX_BULLETS] at hlen
  | c1 :: c2 :: rest, _, hb =>
    have h1 : c1.active = false := hb c1 (by simp)
    have h2 : c2.active = false := hb c2 (by simp)
    have hr : ∀ b ∈ rest, b.active = false := fun b hm => hb b (by simp [hm])
    have hrest : rest.map (updateBullet inp.dt) = rest := by
      conv_rhs => rw [← List.map_id rest]
      apply List.map_congr_left
      intro b hm
      simp [updateBullet_idle inp.dt b (hr b hm)]
    have hy' : pos.y - 20 - 500 * inp.dt ≤ SCREEN_HEIGHT + 10 := by
      simp only [SCREEN_HEIGHT] at hy ⊢
      nlinarith
    rw [shootInto_free _ _ _ c1 _ h1, shootInto_busy _ _ _ _ _ rfl, shootInto_free _ _ _ c2 _ h2,
      List.map_cons, List.map_cons, hrest, updateBullet_new _ _ _ _ hy',
      updateBullet_new _ _ _ _ hy']
    refine ⟨_, _, rest, rfl, hr, rfl, rfl, rfl, rfl, rfl, rfl, ?_, ?_, ?_⟩
    · simp
    · simp
    · intro h
      unfold activeBullets
      rw [List.countP_cons, List.countP_cons]
      have := activeBullets_idle rest hr
      unfold activeBullets at this
      rw [this]
      simp [h]

theorem first_shot_witness :
    WellFormed (zeroGame fun _ => 0) ∧ 0 ≤ fireFrame.dt ∧
    (fireFrame.KEY_SPACE = true ∨ fireFrame.MOUSE_BUTTON_LEFT = true) ∧
    ∃ b1 b2 rest, (UpdateGame raylib fireFrame (InitGame (zeroGame fun _ => 0))).bullets =
        b1 :: b2 :: rest ∧
      (∀ b ∈ rest, b.active = false) ∧
      b1.velocity = ⟨0, -500⟩ ∧ b1.radius = 4 ∧
      b1.position =
        ⟨(UpdateGame raylib fireFrame (InitGame (zeroGame fun _ => 0))).player.position.x - 12,
        (UpdateGame raylib fireFrame (InitGame (zeroGame fun _ => 0))).player.position.y - 20 -
          500 * fireFrame.dt⟩ ∧
      b2.velocity = ⟨0, -500⟩ ∧ b2.radius = 4 ∧
      b2.position =
        ⟨(UpdateGame raylib fireFrame (InitGame (zeroGame fun _ => 0))).player.position.x + 12,
        (UpdateGame raylib fireFrame (InitGame (zeroGame fun _ => 0))).player.position.y - 20 -
          500 * fireFrame.dt⟩ ∧
      (b1.active = true ↔
        -10 ≤ (UpdateGame raylib fireFrame (InitGame (zeroGame fun _ => 0))).player.position.y
          - 20 - 500 * fireFrame.dt) ∧
      (b2.active = true ↔
        -10 ≤ (UpdateGame raylib fireFrame (InitGame (zeroGame fun _ => 0))).player.position.y
          - 20 - 500 * fireFrame.dt) ∧
      (-10 ≤ (UpdateGame raylib fireFrame (InitGame (zeroGame fun _ => 0))).player.position.y
          - 20 - 500 * fireFrame.dt →
        activeBullets (UpdateGame raylib fireFrame (InitGame (zeroGame fun _ => 0))).bullets = 2) :=
  ⟨zeroGame_wellFormed _, by decide!, Or.inl rfl,
    first_shot raylib fireFrame (zeroGame fun _ => 0) (zeroGame_wellFormed _) (by decide!)
      (Or.inl rfl)⟩

/-! ## The circle-against-box test -/

theorem clamp_mem (lo w c : ℚ) (hw : 0 ≤ w) :
    lo ≤ max lo (min c (lo + w)) ∧ max lo (min c (lo + w)) ≤ lo + w := by
  refine ⟨le_max_left _ _, max_le (by linarith) (min_le_right _ _)⟩

theorem clamp_nearest (lo w c q : ℚ) (h1 : lo ≤ q) (h2 : q ≤ lo + w) :
    (c - max lo (min c (lo + w))) ^ 2 ≤ (c - q) ^ 2 := by
  rcases le_total c lo with h | h
  · have e1 : min c (lo + w) = c := min_eq_left (by linarith)
    have e2 : max lo c = lo := max_eq_left h
    rw [e1, e2]; nlinarith
  · rcases le_total c (lo + w) with h' | h'
    · have e1 : min c (lo + w) = c := min_eq_left h'
      have e2 : max lo c = c := max_eq_right h
      rw [e1, e2]; nlinarith
    · have e1 : min c (lo + w) = lo + w := min_eq_right h'
      have e2 : max lo (lo + w) = lo + w := max_eq_right (by linarith)
      rw [e1, e2]; nlinarith

/-- The distance from a coordinate to its clamp, as raylib computes it from the
centre and the half extent of the box. -/
theorem clamp_abs (lo w c : ℚ) (hw : 0 ≤ w) :
    |c - max lo (min c (lo + w))| = max 0 (|c - (lo + w / 2)| - w / 2) := by
  rcases le_total c lo with h | h
  · have e1 : min c (lo + w) = c := min_eq_left (by linarith)
    have e2 : max lo c = lo := max_eq_left h
    rw [e1, e2, abs_of_nonpos (by linarith), abs_of_nonpos (by linarith),
      max_eq_right (by linarith)]
    ring
  · rcases le_total c (lo + w) with h' | h'
    · have e1 : min c (lo + w) = c := min_eq_left h'
      have e2 : max lo c = c := max_eq_right h
      rw [e1, e2, sub_self, abs_zero]
      have : |c - (lo + w / 2)| ≤ w / 2 := abs_le.mpr ⟨by linarith, by linarith⟩
      rw [max_eq_left (by linarith)]
    · have e1 : min c (lo + w) = lo + w := min_eq_right h'
      have e2 : max lo (lo + w) = lo + w := max_eq_right (by linarith)
      rw [e1, e2, abs_of_nonneg (by linarith), abs_of_nonneg (by linarith),
        max_eq_right (by linarith)]
      ring

theorem nearestPoint_inBox (rec : Rectangle) (c : Vector2) (hw : 0 ≤ rec.width)
    (hh : 0 ≤ rec.height) : inBox rec (nearestPoint rec c) :=
  ⟨clamp_mem rec.x rec.width c.x hw, clamp_mem rec.y rec.height c.y hh⟩

theorem nearestPoint_nearest (rec : Rectangle) (c q : Vector2) (hq : inBox rec q) :
    distSq c (nearestPoint rec c) ≤ distSq c q := by
  unfold distSq nearestPoint
  exact add_le_add (clamp_nearest rec.x rec.width c.x q.x hq.1.1 hq.1.2)
    (clamp_nearest rec.y rec.height c.y q.y hq.2.1 hq.2.2)

theorem distSq_nearestPoint (rec : Rectangle) (c : Vector2) (hw : 0 ≤ rec.width)
    (hh : 0 ≤ rec.height) :
    distSq c (nearestPoint rec c) =
      (max 0 (|c.x - (rec.x + rec.width / 2)| - rec.width / 2)) ^ 2 +
        (max 0 (|c.y - (rec.y + rec.height / 2)| - rec.height / 2)) ^ 2 := by
  unfold distSq nearestPoint
  rw [← clamp_abs rec.x rec.width c.x hw, ← clamp_abs rec.y rec.height c.y hh, sq_abs, sq_abs]

/-- The test as raylib computes it and the test as the spec describes it agree
on every box of non-negative extent and every non-negative radius. -/
theorem rlCheckCollisionCircleRec_eq (center : Vector2) (radius : ℚ) (rec : Rectangle)
    (hw : 0 ≤ rec.width) (hh : 0 ≤ rec.height) (hr : 0 ≤ radius) :
    rlCheckCollisionCircleRec center radius rec = CheckCollisionCircleRec center radius rec := by
  unfold CheckCollisionCircleRec
  rw [distSq_nearestPoint rec center hw hh]
  unfold rlCheckCollisionCircleRec
  simp only
  generalize |center.x - (rec.x + rec.width / 2)| = dx
  generalize |center.y - (rec.y + rec.height / 2)| = dy
  generalize rec.width / 2 = a
  generalize rec.height / 2 = b
  by_cases h1 : dx > a + radius
  · have hm : max 0 (dx - a) = dx - a := max_eq_right (by linarith)
    have : ¬ (0 ≤ radius ∧ max 0 (dx - a) ^ 2 + max 0 (dy - b) ^ 2 ≤ radius * radius) := by
      rintro ⟨-, h⟩
      rw [hm] at h
      nlinarith [sq_nonneg (max 0 (dy - b))]
    simp [h1, this]
  · by_cases h2 : dy > b + radius
    · have hm : max 0 (dy - b) = dy - b := max_eq_right (by linarith)
      have : ¬ (0 ≤ radius ∧ max 0 (dx - a) ^ 2 + max 0 (dy - b) ^ 2 ≤ radius * radius) := by
        rintro ⟨-, h⟩
        rw [hm] at h
        nlinarith [sq_nonneg (max 0 (dx - a))]
      simp [h1, h2, this]
    · have h1' : dx - a ≤ radius := by linarith [not_lt.mp h1]
      have h2' : dy - b ≤ radius := by linarith [not_lt.mp h2]
      by_cases h3 : dx ≤ a
      · have hm : max 0 (dx - a) = 0 := max_eq_left (by linarith)
        have hb0 : 0 ≤ max 0 (dy - b) := le_max_left _ _
        have hb1 : max 0 (dy - b) ≤ radius := max_le hr h2'
        have : 0 ≤ radius ∧ max 0 (dx - a) ^ 2 + max 0 (dy - b) ^ 2 ≤ radius * radius := by
          rw [hm]
          exact ⟨hr, by nlinarith⟩
        rw [if_neg h1, if_neg h2, if_pos h3, decide_eq_true this]
      · by_cases h4 : dy ≤ b
        · have hm : max 0 (dy - b) = 0 := max_eq_left (by linarith)
          have ha0 : 0 ≤ max 0 (dx - a) := le_max_left _ _
          have ha1 : max 0 (dx - a) ≤ radius := max_le hr h1'
          have : 0 ≤ radius ∧ max 0 (dx - a) ^ 2 + max 0 (dy - b) ^ 2 ≤ radius * radius := by
            rw [hm]
            exact ⟨hr, by nlinarith⟩
          rw [if_neg h1, if_neg h2, if_neg h3, if_pos h4, decide_eq_true this]
        · have hma : max 0 (dx - a) = dx - a := max_eq_right (by linarith [not_le.mp h3])
          have hmb : max 0 (dy - b) = dy - b := max_eq_right (by linarith [not_le.mp h4])
          simp only [h1, h2, h3, h4, if_false, hma, hmb, hr, true_and]
          congr 1
          rw [sq, sq]

/-- The comparison of the squares is the comparison of the distance with the
radius. -/
theorem CheckCollisionCircleRec_iff (center : Vector2) (radius : ℚ) (rec : Rectangle) :
    CheckCollisionCircleRec center radius rec = true ↔
      Real.sqrt ((distSq center (nearestPoint rec center) : ℚ) : ℝ) ≤ (radius : ℝ) := by
  unfold CheckCollisionCircleRec
  rw [decide_eq_true_iff, Real.sqrt_le_iff]
  constructor
  · rintro ⟨h1, h2⟩
    refine ⟨by exact_mod_cast h1, ?_⟩
    rw [sq]
    exact_mod_cast h2
  · rintro ⟨h1, h2⟩
    rw [sq] at h2
    exact ⟨by exact_mod_cast h1, by exact_mod_cast h2⟩

/-- C17: the hit test of line 356 is the circle of the bullet (its position and
radius) against the box of the enemy, which is centred at the enemy position with
the enemy size.  With the circle-against-box test as the spec describes it, the
nearest point lies in the box and no point of the box is nearer to the centre,
the test reports a hit iff the distance from the centre to that point is at most
the radius (equality included), and a bullet hits iff it is active, moves up and
passes that test. -/
theorem hit_test_nearest_point (L : Lib)
    (hL : L.CheckCollisionCircleRec = CheckCollisionCircleRec) (e : Enemy) (b : Bullet)
    (hw : 0 ≤ e.size.x) (hh : 0 ≤ e.size.y) :
    ((enemyRect e).x + (enemyRect e).width / 2 = e.position.x ∧
      (enemyRect e).y + (enemyRect e).height / 2 = e.position.y ∧
      (enemyRect e).width = e.size.x ∧ (enemyRect e).height = e.size.y) ∧
    (inBox (enemyRect e) (nearestPoint (enemyRect e) b.position) ∧
      ∀ q, inBox (enemyRect e) q →
        distSq b.position (nearestPoint (enemyRect e) b.position) ≤ distSq b.position q) ∧
    (L.CheckCollisionCircleRec b.position b.radius (enemyRect e) = true ↔
      Real.sqrt ((distSq b.position (nearestPoint (enemyRect e) b.position) : ℚ) : ℝ)
        ≤ (b.radius : ℝ)) ∧
    (bulletHits L e b = true ↔
      b.active = true ∧ b.velocity.y < 0 ∧
        Real.sqrt ((distSq b.position (nearestPoint (enemyRect e) b.position) : ℚ) : ℝ)
          ≤ (b.radius : ℝ)) := by
  have hiff := CheckCollisionCircleRec_iff b.position b.radius (enemyRect e)
  refine ⟨⟨?_, ?_, rfl, rfl⟩, ⟨nearestPoint_inBox _ _ hw hh,
    fun q hq => nearestPoint_nearest _ _ q hq⟩, ?_, ?_⟩
  · show e.position.x - e.size.x / 2 + e.size.x / 2 = e.position.x
    ring
  · show e.position.y - e.size.y / 2 + e.size.y / 2 = e.position.y
    ring
  · rw [hL]; exact hiff
  · unfold bulletHits
    rw [hL, Bool.and_eq_true, Bool.and_eq_true, decide_eq_true_iff, hiff, and_assoc]

theorem hit_test_nearest_point_witness :
    specLib.CheckCollisionCircleRec = CheckCollisionCircleRec ∧
    0 ≤ strongEnemy.size.x ∧ 0 ≤ strongEnemy.size.y ∧
    nearestPoint (enemyRect strongEnemy) cornerBullet.position = ⟨620, 220⟩ ∧
    distSq cornerBullet.position (nearestPoint (enemyRect strongEnemy) cornerBullet.position)
      = cornerBullet.radius * cornerBullet.radius ∧
    bulletHits specLib strongEnemy cornerBullet = true ∧
    (bulletHits specLib strongEnemy cornerBullet = true ↔
      cornerBullet.active = true ∧ cornerBullet.velocity.y < 0 ∧
        Real.sqrt ((distSq cornerBullet.position
          (nearestPoint (enemyRect strongEnemy) cornerBullet.position) : ℚ) : ℝ)
          ≤ (cornerBullet.radius : ℝ)) :=
  ⟨rfl, by decide!, by decide!, by decide!, by decide!, by decide!,
    (hit_test_nearest_point specLib rfl strongEnemy cornerBullet (by decide!) (by decide!)).2.2.2⟩

/-! ## A Strong enemy hit twice in a tick -/

/-- A burst that finds enough free slots activates exactly `count` particles. -/
theorem SpawnParticles_count (L : Lib) (position : Vector2) (color : Color) (count : Int)
    (g : Game) (hc : 0 ≤ count) (hfree : count.toNat ≤ freeSlots g.particles) :
    activeParticles (SpawnParticles L position color count g).particles =
        activeParticles g.particles + count.toNat ∧
      freeSlots (SpawnParticles L position color count g).particles + count.toNat =
        freeSlots g.particles := by
  have h1 : activeParticles (SpawnParticles L position color count g).particles =
      activeParticles g.particles + count.toNat := by
    show activeParticles (spawnParticlesLoop L position color count g.particles g.random).1 = _
    rw [spawnParticlesLoop_count L position color count g.particles g.random hc,
      min_eq_left hfree]
  refine ⟨h1, ?_⟩
  have h2 := activeParticles_add_freeSlots (SpawnParticles L position color count g).particles
  have h3 := activeParticles_add_freeSlots g.particles
  rw [SpawnParticles_particles_length] at h2
  omega

/-- The explosion of a Strong enemy: 15 + 8 particles. -/
theorem explode_strong_count (L : Lib) (e : Enemy) (g : Game) (ht : e.type = 2)
    (hfree : 23 ≤ freeSlots g.particles) :
    activeParticles (explode L e g).particles = activeParticles g.particles + 23 := by
  have e1 : explode L e g = SpawnParticles L e.position ⟨255, 80, 200, 255⟩ 8
      (SpawnParticles L e.position ⟨200, 0, 255, 255⟩ 15 g) := by
    unfold explode
    simp [ht]
  obtain ⟨a1, a2⟩ := SpawnParticles_count L e.position ⟨200, 0, 255, 255⟩ 15 g (by decide)
    (by show 15 ≤ _; omega)
  have a2' : freeSlots
      (SpawnParticles L e.position ⟨200, 0, 255, 255⟩ 15 g).particles + 15 =
      freeSlots g.particles := a2
  obtain ⟨b1, -⟩ := SpawnParticles_count L e.position ⟨255, 80, 200, 255⟩ 8
    (SpawnParticles L e.position ⟨200, 0, 255, 255⟩ 15 g) (by decide) (by show 8 ≤ _; omega)
  rw [e1, b1, a1]
  show activeParticles g.particles + 15 + 8 = _
  omega

/-- The last hit on a Strong enemy: the particles of the explosion. -/
theorem collideBullets_kill_count (L : Lib) (bs : List Bullet) (e : Enemy) (g : Game)
    (ht : e.type = 2) (hh : e.health = 1) (hhit : hitCount L e bs = 1)
    (hfree : 23 ≤ freeSlots g.particles) :
    activeParticles (collideBullets L bs e g).2.2.particles = activeParticles g.particles + 23 := by
  induction bs with
  | nil => simp [hitCount_nil] at hhit
  | cons b bs ih =>
    rw [hitCount_cons] at hhit
    cases hb : bulletHits L e b
    · rw [collideBullets_cons_miss L b bs e g hb]
      simp only [hb, Bool.false_eq_true, if_false, Nat.add_zero] at hhit
      exact ih hhit
    · rw [collideBullets_cons_hit L b bs e g hb]
      simp only [hb, if_true] at hhit
      have hz : hitCount L (onBulletHit L b e g).1 bs = 0 := by
        rw [hitCount_congr L (onBulletHit_rect L b e g)]; omega
      show activeParticles
        (collideBullets L bs (onBulletHit L b e g).1 (onBulletHit L b e g).2).2.2.particles = _
      rw [collideBullets_none L bs _ _ hz]
      have hk : e.health - 1 ≤ 0 := by omega
      have e1 : (onBulletHit L b e g).2.particles =
          (explode L { e with health := e.health - 1, active := false } g).particles := by
        unfold onBulletHit
        simp [hk]
      show activeParticles (onBulletHit L b e g).2.particles = _
      rw [e1]
      exact explode_strong_count L _ g ht hfree

/-- Two hits on a Strong enemy of health 2: the spark of the first and the
explosion of the second. -/
theorem collideBullets_double_count (L : Lib) (bs : List Bullet) (e : Enemy) (g : Game)
    (ht : e.type = 2) (hh : e.health = 2) (hhit : hitCount L e bs = 2)
    (hfree : 27 ≤ freeSlots g.particles) :
    activeParticles (collideBullets L bs e g).2.2.particles = activeParticles g.particles + 27 := by
  induction bs with
  | nil => simp [hitCount_nil] at hhit
  | cons b bs ih =>
    rw [hitCount_cons] at hhit
    cases hb : bulletHits L e b
    · rw [collideBullets_cons_miss L b bs e g hb]
      simp only [hb, Bool.false_eq_true, if_false, Nat.add_zero] at hhit
      exact ih hhit
    · rw [collideBullets_cons_hit L b bs e g hb]
      simp only [hb, if_true] at hhit
      have h1 : hitCount L (onBulletHit L b e g).1 bs = 1 := by
        rw [hitCount_congr L (onBulletHit_rect L b e g)]; omega
      have hk : ¬ e.health - 1 ≤ 0 := by omega
      have e1 : (onBulletHit L b e g).2 =
          SpawnParticles L b.position ⟨200, 200, 200, 255⟩ 4 g := by
        unfold onBulletHit
        simp [hk]
      have e2 : (onBulletHit L b e g).1 = { e with health := e.health - 1 } := by
        unfold onBulletHit
        simp [hk]
      obtain ⟨a1, a2⟩ := SpawnParticles_count L b.position ⟨200, 200, 200, 255⟩ 4 g (by decide)
        (by show 4 ≤ _; omega)
      have a2' : freeSlots (SpawnParticles L b.position ⟨200, 200, 200, 255⟩ 4 g).particles + 4 =
          freeSlots g.particles := a2
      show activeParticles
        (collideBullets L bs (onBulletHit L b e g).1 (onBulletHit L b e g).2).2.2.particles = _
      rw [collideBullets_kill_count L bs _ _ (by rw [e2]; exact ht) (by rw [e2]; show e.health - 1 = 1; omega)
        h1 (by rw [e1]; omega), e1, a1]
      show activeParticles g.particles + 4 + 23 = _
      omega

/-- An active enemy that no bullet hits and that does not touch the player changes
nothing but its own slot. -/
theorem updateEnemy_quiet (L : Lib) (dt : ℚ) (e : Enemy) (g : Game)
    (hhit : e.active = true → hitCount L (moveEnemy L dt e) g.bullets = 0)
    (hov : e.active = true → overlaps L g.player (moveEnemy L dt e) = false) :
    (updateEnemy L dt e g).2 = g := by
  cases ha : e.active
  · rw [updateEnemy_inactive L dt e g ha]
  · rw [updateEnemy_active L dt e g ha, collideBullets_none L g.bullets _ g (hhit ha)]
    have hc : contact L g.player (moveEnemy L dt e) = false := by
      rw [contact_eq, hov ha]; simp
    exact congrArg Prod.snd (playerContact_miss L (moveEnemy L dt e) g hc)

theorem updateEnemies_quiet (L : Lib) (dt : ℚ) (es : List Enemy) (g : Game)
    (hhit : ∀ e ∈ es, e.active = true → hitCount L (moveEnemy L dt e) g.bullets = 0)
    (hov : ∀ e ∈ es, e.active = true → overlaps L g.player (moveEnemy L dt e) = false) :
    (updateEnemies L dt es g).2 = g := by
  induction es with
  | nil => rfl
  | cons e es ih =>
    rw [updateEnemies_cons]
    have h1 := updateEnemy_quiet L dt e g (hhit e (List.mem_cons_self _ _))
      (hov e (List.mem_cons_self _ _))
    show (updateEnemies L dt es (updateEnemy L dt e g).2).2 = g
    rw [h1]
    exact ih (fun e' he' => hhit e' (List.mem_cons_of_mem _ he'))
      (fun e' he' => hov e' (List.mem_cons_of_mem _ he'))

/-- Without contact with the player, the particle pool after the body of the enemy
loop is the one the bullet loop left. -/
theorem updateEnemy_particles (L : Lib) (dt : ℚ) (e : Enemy) (g : Game) (ha : e.active = true)
    (hc : contact L g.player (moveEnemy L dt e) = false) :
    (updateEnemy L dt e g).2.particles =
      (collideBullets L g.bullets (moveEnemy L dt e) g).2.2.particles := by
  rw [updateEnemy_active L dt e g ha]
  have hp := collideBullets_player L g.bullets (moveEnemy L dt e) g
  have hen := collideBullets_enemy L g.bullets (moveEnemy L dt e) g
  have hf := collideBullets_frame L g.bullets (moveEnemy L dt e) g
  have hrect : enemyRect (collideBullets L g.bullets (moveEnemy L dt e) g).2.1
      = enemyRect (moveEnemy L dt e) := by rw [hen]; rfl
  have hc' : contact L ({ (collideBullets L g.bullets (moveEnemy L dt e) g).2.2 with
        bullets := (collideBullets L g.bullets (moveEnemy L dt e) g).1 } : Game).player
        (collideBullets L g.bullets (moveEnemy L dt e) g).2.1 = false := by
    rw [← hc]
    apply contact_congr L _ _ _ _ hrect
    · show (collideBullets L g.bullets (moveEnemy L dt e) g).2.2.player.active = _
      rw [hp]
    · show (collideBullets L g.bullets (moveEnemy L dt e) g).2.2.player.damage_timer = _
      rw [hp]
    · exact hf.playerPosition
    · exact hf.playerSize
  rw [playerContact_miss L _ _ hc']

/-- C18, as stated, fails: in this tick the Strong enemy of slot 0 has health 2,
exactly two bullets pass the hit test against it, all 200 particle slots are free
and no enemy touches the player; but a third bullet kills the Normal enemy of
slot 1 in the same tick, so the score rises by 400 and 43 particles are
activated. -/
theorem strong_double_hit_counterexample :
    strongTrioGame.enemies[0]? = some woundedEnemy ∧
    woundedEnemy.active = true ∧ woundedEnemy.type = 2 ∧ woundedEnemy.health = 2 ∧
    hitCount raylib (moveEnemy raylib (1 / 60) woundedEnemy)
      (beforeCollision (idle (1 / 60)) strongTrioGame).bullets = 2 ∧
    freeSlots strongTrioGame.particles = 200 ∧
    (strongTrioGame.enemies.map fun e =>
        e.active && overlaps raylib (beforeCollision (idle (1 / 60)) strongTrioGame).player
          (moveEnemy raylib (1 / 60) e))
      = List.replicate 20 false ∧
    (UpdateGame raylib (idle (1 / 60)) strongTrioGame).player.score
      = strongTrioGame.player.score + 400 ∧
    activeParticles (afterCollision raylib (idle (1 / 60)) strongTrioGame).particles
      = activeParticles strongTrioGame.particles + 43 ∧
    activeParticles (UpdateGame raylib (idle (1 / 60)) strongTrioGame).particles
      = activeParticles strongTrioGame.particles + 43 :=
  ⟨by decide!, by decide!, by decide!, by decide!, by decide!, by decide!, by decide!,
    by decide!, by decide!, by decide!⟩

/-- C18, amended: take a tick in which an active Strong enemy with health 2 is
hit by exactly two bullets of the pool as the bullet loop left it, at least 27
particle slots are free, no bullet hits any other active enemy and no active enemy
overlaps the player.  Then the bullet pool after the tick is that pool with the
two bullets retired; the enemy loop leaves the enemy inactive with health 0 (at
the end of the tick its slot is inactive unless the wave system fired); the score
has risen by exactly 300; and the enemy loop has activated exactly 4 + 15 + 8 = 27
particles. -/
theorem strong_double_hit (L : Lib) (inp : Input) (g : Game) (pre post : List Enemy)
    (e : Enemy)
    (hsplit : g.enemies = pre ++ e :: post)
    (he : e.active = true) (ht : e.type = 2) (hh : e.health = 2)
    (hhits : hitCount L (moveEnemy L inp.dt e) (beforeCollision inp g).bullets = 2)
    (hfree : 27 ≤ freeSlots g.particles)
    (hothers : ∀ e' ∈ pre ++ post, e'.active = true →
      ∀ b ∈ (beforeCollision inp g).bullets, bulletHits L (moveEnemy L inp.dt e') b = false)
    (hcontact : ∀ e' ∈ g.enemies, e'.active = true →
      overlaps L (beforeCollision inp g).player (moveEnemy L inp.dt e') = false) :
    (UpdateGame L inp g).bullets =
      retireHits L (moveEnemy L inp.dt e) (beforeCollision inp g).bullets ∧
    activeBullets (UpdateGame L inp g).bullets + 2 =
      activeBullets (beforeCollision inp g).bullets ∧
    (∃ e', (afterCollision L inp g).enemies[pre.length]? = some e' ∧
      e'.active = false ∧ e'.health = 0) ∧
    ((∃ e', (UpdateGame L inp g).enemies[pre.length]? = some e' ∧ e'.active = false) ∨
      2 / g.difficultyMultiplier ≤ g.enemyTimer + inp.dt) ∧
    (UpdateGame L inp g).player.score = g.player.score + 300 ∧
    activeParticles (afterCollision L inp g).particles = activeParticles g.particles + 27 := by
  -- the enemies before `e` change nothing
  have hpre : (updateEnemies L inp.dt pre (beforeCollision inp g)).2 = beforeCollision inp g :=
    updateEnemies_quiet L inp.dt pre _
      (fun e' he' ha' => hitCount_eq_zero L _ _
        (hothers e' (List.mem_append_left _ he') ha'))
      (fun e' he' ha' => hcontact e' (by rw [hsplit]; simp [he']) ha')
  -- the body of the loop for `e`
  have hc : contact L (beforeCollision inp g).player (moveEnemy L inp.dt e) = false := by
    rw [contact_eq, hcontact e (by rw [hsplit]; simp) he]; simp
  obtain ⟨s1, s2, s3, -, s5⟩ := updateEnemy_spec L inp.dt e (beforeCollision inp g) he
  have s6 := updateEnemy_particles L inp.dt e (beforeCollision inp g) he hc
  -- the enemies after `e` change nothing
  have hpost : (updateEnemies L inp.dt post
      (updateEnemy L inp.dt e (beforeCollision inp g)).2).2 =
      (updateEnemy L inp.dt e (beforeCollision inp g)).2 := by
    apply updateEnemies_quiet
    · intro e' he' ha'
      apply hitCount_eq_zero
      intro b' hb'
      rw [s2] at hb'
      obtain ⟨b, hb, rfl⟩ := List.mem_map.1 hb'
      split_ifs
      · exact bulletHits_retire L _ _
      · exact hothers e' (List.mem_append_right _ he') ha' b hb
    · intro e' he' ha'
      rw [overlaps_congr L s5.playerPosition s5.playerSize]
      exact hcontact e' (by rw [hsplit]; simp [he']) ha'
  have hall : (updateEnemies L inp.dt g.enemies (beforeCollision inp g)).2 =
      (updateEnemy L inp.dt e (beforeCollision inp g)).2 := by
    rw [hsplit, updateEnemies_append, updateEnemies_cons, hpre]
    exact hpost
  have hslot : ∃ e', (afterCollision L inp g).enemies[pre.length]? = some e' ∧
      e'.active = false ∧ e'.health = 0 := by
    rw [afterCollision_enemies, hsplit]
    refine ⟨_, updateEnemies_slot L inp.dt pre post e (beforeCollision inp g), ?_, ?_⟩
    · rw [hpre, s1, hhits, hh]
      simp
    · rw [hpre, s1, hhits, hh]
      rfl
  refine ⟨?_, ?_, hslot, ?_, ?_, ?_⟩
  · rw [UpdateGame_bullets, afterCollision_bullets, hall, s2]
  · rw [UpdateGame_bullets, afterCollision_bullets, hall, s2]
    have := retireHits_count L (moveEnemy L inp.dt e) (beforeCollision inp g).bullets
    omega
  · by_cases hT : 2 / g.difficultyMultiplier ≤ g.enemyTimer + inp.dt
    · exact Or.inr hT
    · left
      obtain ⟨e', h1, h2, -⟩ := hslot
      refine ⟨e', ?_, h2⟩
      rw [UpdateGame_enemies]
      have hT' : ¬ g.enemyTimer + inp.dt ≥ 2 / g.difficultyMultiplier := hT
      simp only [hT', if_false]
      exact h1
  · rw [UpdateGame_player, afterCollision_player, hall, s3]
    simp only [hc, Bool.false_eq_true, if_false, beforeCollision_player_score]
    unfold scoreGain
    rw [hhits, moveEnemy_type, moveEnemy_health, ht, hh]
    rfl
  · have hp4 : (afterCollision L inp g).particles =
        (updateEnemies L inp.dt g.enemies (beforeCollision inp g)).2.particles := by
      rw [afterCollision_eq]
    rw [hp4, hall, s6]
    have := collideBullets_double_count L (beforeCollision inp g).bullets (moveEnemy L inp.dt e)
      (beforeCollision inp g) (by rw [moveEnemy_type]; exact ht)
      (by rw [moveEnemy_health]; exact hh) hhits
      (by rw [beforeCollision_particles]; exact hfree)
    rw [this, beforeCollision_particles]

theorem strong_double_hit_witness :
    strongPairGame.enemies = [] ++ woundedEnemy ::
      (⟨⟨200, 200⟩, ⟨30, 30⟩, 90, 1, true, 0, 0⟩ ::
        List.replicate 18 ⟨⟨0, 0⟩, ⟨0, 0⟩, 0, 0, false, 0, 0⟩) ∧
    woundedEnemy.active = true ∧ woundedEnemy.type = 2 ∧ woundedEnemy.health = 2 ∧
    hitCount raylib (moveEnemy raylib (idle (1 / 60)).dt woundedEnemy)
      (beforeCollision (idle (1 / 60)) strongPairGame).bullets = 2 ∧
    27 ≤ freeSlots strongPairGame.particles ∧
    (UpdateGame raylib (idle (1 / 60)) strongPairGame).player.score
      = strongPairGame.player.score + 300 ∧
    activeParticles (afterCollision raylib (idle (1 / 60)) strongPairGame).particles
      = activeParticles strongPairGame.particles + 27 :=
  ⟨rfl, by decide!, by decide!, by decide!, by decide!, by decide!,
    (strong_double_hit raylib (idle (1 / 60)) strongPairGame []
      (⟨⟨200, 200⟩, ⟨30, 30⟩, 90, 1, true, 0, 0⟩ ::
        List.replicate 18 ⟨⟨0, 0⟩, ⟨0, 0⟩, 0, 0, false, 0, 0⟩) woundedEnemy rfl
      (by decide!) (by decide!) (by decide!) (by decide!) (by decide!) (by decide!)
      (by decide!)).2.2.2.2⟩

/-! ## The clock and the difficulty values -/

theorem clamp_between (a lo hi : ℚ) (h : lo ≤ hi) :
    lo ≤ (if (if a < lo then lo else a) > hi then hi else (if a < lo then lo else a)) ∧
      (if (if a < lo then lo else a) > hi then hi else (if a < lo then lo else a)) ≤ hi := by
  split_ifs <;> constructor <;> linarith

theorem movePlayer_box (inp : Input) (p : Player) (hs : p.size = ⟨40, 40⟩) :
    (20 ≤ (movePlayer inp p).position.x ∧ (movePlayer inp p).position.x ≤ 780) ∧
      (20 ≤ (movePlayer inp p).position.y ∧ (movePlayer inp p).position.y ≤ 580) := by
  have hx : p.size.x / 2 = 20 := by rw [hs]; norm_num
  have hy : p.size.y / 2 = 20 := by rw [hs]; norm_num
  have h1 := clamp_between
    (if inp.KEY_RIGHT || inp.KEY_D then
      (if inp.KEY_LEFT || inp.KEY_A then p.position.x - p.speed * inp.dt else p.position.x)
        + p.speed * inp.dt
     else (if inp.KEY_LEFT || inp.KEY_A then p.position.x - p.speed * inp.dt else p.position.x))
    (p.size.x / 2) (SCREEN_WIDTH - p.size.x / 2) (by rw [hx]; norm_num [SCREEN_WIDTH])
  have h2 := clamp_between
    (if inp.KEY_DOWN || inp.KEY_S then
      (if inp.KEY_UP || inp.KEY_W then p.position.y - p.speed * inp.dt else p.position.y)
        + p.speed * inp.dt
     else (if inp.KEY_UP || inp.KEY_W then p.position.y - p.speed * inp.dt else p.position.y))
    (p.size.y / 2) (SCREEN_HEIGHT - p.size.y / 2) (by rw [hy]; norm_num [SCREEN_HEIGHT])
  have e1 : SCREEN_WIDTH - p.size.x / 2 = 780 := by rw [hx]; norm_num [SCREEN_WIDTH]
  have e2 : SCREEN_HEIGHT - p.size.y / 2 = 580 := by rw [hy]; norm_num [SCREEN_HEIGHT]
  constructor
  · exact ⟨le_trans (le_of_eq hx.symm) h1.1, le_trans h1.2 (le_of_eq e1)⟩
  · exact ⟨le_trans (le_of_eq hy.symm) h2.1, le_trans h2.2 (le_of_eq e2)⟩

theorem playerPhase_player_position (inp : Input) (g : Game) :
    (playerPhase inp g).player.position =
      if g.player.active then (movePlayer inp g.player).position else g.player.position := by
  unfold playerPhase
  dsimp only
  split_ifs <;> rfl

theorem UpdateGame_player_size (L : Lib) (inp : Input) (g : Game) :
    (UpdateGame L inp g).player.size = g.player.size := by
  rw [UpdateGame_player, (afterCollision_frame L inp g).playerSize, beforeCollision_player_size]

theorem UpdateGame_playerBox (L : Lib) (inp : Input) (g : Game) (h : PlayerBox g.player) :
    PlayerBox (UpdateGame L inp g).player := by
  unfold PlayerBox
  rw [UpdateGame_player_size, UpdateGame_player_position, playerPhase_player_position]
  refine ⟨h.1, ?_⟩
  split_ifs
  · exact movePlayer_box inp g.player h.1
  · exact h.2

theorem InitGame_playerBox (g : Game) : PlayerBox (InitGame g).player := by
  unfold PlayerBox
  rw [InitGame_player]
  norm_num

theorem reachable_playerBox {L : Lib} {g : Game} (h : Reachable L g) : PlayerBox g.player := by
  induction h with
  | init g _ => exact InitGame_playerBox g
  | tick inp g _ _ ih => exact UpdateGame_playerBox L inp g ih

theorem shootInto_slot (p v : Vector2) (c : Color) (bs : List Bullet) (i : Nat) (b : Bullet)
    (hi : bs[i]? = some b) (hb : b.active = true) : (shootInto p v c bs)[i]? = some b := by
  induction bs generalizing i with
  | nil => simp at hi
  | cons x xs ih =>
    cases hx : x.active
    · rw [shootInto_free p v c x xs hx]
      cases i with
      | zero =>
        simp only [List.getElem?_cons_zero, Option.some.injEq] at hi
        rw [hi, hb] at hx; cases hx
      | succ j => simpa using hi
    · rw [shootInto_busy p v c x xs hx]
      cases i with
      | zero => simpa using hi
      | succ j =>
        simp only [List.getElem?_cons_succ] at hi ⊢
        exact ih j hi

theorem shootInto_mem (p v : Vector2) (c : Color) (bs : List Bullet) (b : Bullet)
    (h : b ∈ shootInto p v c bs) : b ∈ bs ∨ b = ⟨p, v, 4, true, c⟩ := by
  induction bs with
  | nil => simp [shootInto] at h
  | cons x xs ih =>
    cases hx : x.active
    · rw [shootInto_free p v c x xs hx] at h
      rcases List.mem_cons.1 h with h | h
      · exact Or.inr h
      · exact Or.inl (List.mem_cons_of_mem _ h)
    · rw [shootInto_busy p v c x xs hx] at h
      rcases List.mem_cons.1 h with h | h
      · exact Or.inl (h ▸ List.mem_cons_self _ _)
      · rcases ih h with h | h
        · exact Or.inl (List.mem_cons_of_mem _ h)
        · exact Or.inr h

/-- The bullet pool after the player block: untouched, or two calls of ShootBullet. -/
theorem playerPhase_bullets (inp : Input) (g : Game) :
    (playerPhase inp g).bullets =
      if fires inp g then
        shootInto ⟨(movePlayer inp g.player).position.x + 12,
            (movePlayer inp g.player).position.y - 20⟩ ⟨0, -500⟩ ⟨0, 200, 255, 255⟩
          (shootInto ⟨(movePlayer inp g.player).position.x - 12,
            (movePlayer inp g.player).position.y - 20⟩ ⟨0, -500⟩ ⟨0, 200, 255, 255⟩ g.bullets)
      else g.bullets := by
  unfold playerPhase fires
  cases ha : g.player.active
  · simp
  · by_cases hf : (inp.KEY_SPACE || inp.MOUSE_BUTTON_LEFT) = true
    · by_cases ht : (movePlayer inp g.player).shoot_timer - inp.dt ≤ 0
      · simp only [if_true, hf, ht, and_self, Bool.true_and, decide_True]
        rfl
      · simp only [if_true, hf, ht, and_false, if_false, Bool.true_and, decide_False,
          Bool.false_eq_true]
    · have hf' : (inp.KEY_SPACE || inp.MOUSE_BUTTON_LEFT) = false := by
        cases h : (inp.KEY_SPACE || inp.MOUSE_BUTTON_LEFT)
        · rfl
        · exact absurd h hf
      simp only [if_true, hf', Bool.false_eq_true, false_and, if_false, Bool.false_and,
        Bool.true_and]

theorem playerPhase_bullets_slot (inp : Input) (g : Game) (i : Nat) (b : Bullet)
    (hi : g.bullets[i]? = some b) (hb : b.active = true) :
    (playerPhase inp g).bullets[i]? = some b := by
  rw [playerPhase_bullets]
  split_ifs
  · exact shootInto_slot _ _ _ _ i b (shootInto_slot _ _ _ _ i b hi hb) hb
  · exact hi

theorem playerPhase_bullets_mem (inp : Input) (g : Game) (b : Bullet)
    (h : b ∈ (playerPhase inp g).bullets) :
    b ∈ g.bullets ∨ (b.velocity = ⟨0, -500⟩ ∧ b.radius = 4) := by
  rw [playerPhase_bullets] at h
  split_ifs at h
  · rcases shootInto_mem _ _ _ _ b h with h | h
    · rcases shootInto_mem _ _ _ _ b h with h | h
      · exact Or.inl h
      · right; rw [h]; exact ⟨rfl, rfl⟩
    · right; rw [h]; exact ⟨rfl, rfl⟩
  · exact Or.inl h

theorem updateBullet_fields (dt : ℚ) (b : Bullet) :
    (updateBullet dt b).velocity = b.velocity ∧ (updateBullet dt b).radius = b.radius ∧
      ((updateBullet dt b).active = true → b.active = true) := by
  unfold updateBullet
  dsimp only
  split_ifs <;> simp_all

theorem updateBullet_position (dt : ℚ) (b : Bullet) (hb : b.active = true) :
    (updateBullet dt b).position =
      ⟨b.position.x + b.velocity.x * dt, b.position.y + b.velocity.y * dt⟩ := by
  unfold updateBullet
  dsimp only
  rw [if_pos hb]
  split_ifs <;> rfl

theorem updateBullet_active (dt : ℚ) (b : Bullet) (hb : b.active = true) :
    (updateBullet dt b).active = true ↔
      (-10 ≤ b.position.y + b.velocity.y * dt ∧
        b.position.y + b.velocity.y * dt ≤ SCREEN_HEIGHT + 10) := by
  unfold updateBullet
  dsimp only
  rw [if_pos hb]
  split_ifs with h
  · constructor
    · intro h'; cases h'
    · rintro ⟨h1, h2⟩
      rcases h with h | h
      · exact absurd h1 (not_le.mpr h)
      · exact absurd h2 (not_le.mpr h)
  · constructor
    · intro _
      exact ⟨not_lt.mp fun h' => h (Or.inl h'), not_lt.mp fun h' => h (Or.inr h')⟩
    · intro _; exact hb

theorem retire_fields (b : Bullet) :
    (retire b).position = b.position ∧ (retire b).velocity = b.velocity ∧
      (retire b).radius = b.radius ∧ (retire b).active = false := ⟨rfl, rfl, rfl, rfl⟩

/-- The bullet pool at the end of a tick, slot by slot. -/
theorem UpdateGame_bullets_eq (L : Lib) (inp : Input) (g : Game) :
    (UpdateGame L inp g).bullets =
      (((playerPhase inp g).bullets.map (updateBullet inp.dt)).map fun b =>
        if hitsSome L inp.dt g.enemies b then retire b else b) := by
  rw [UpdateGame_bullets, afterCollision_bullets, updateEnemies_bullets, beforeCollision_bullets]

/-- A slot that is active when the tick starts holds, when the tick ends, the
same bullet moved by the bullet loop, or that bullet retired by a hit. -/
theorem UpdateGame_bullet_slot (L : Lib) (inp : Input) (g : Game) (i : Nat) (b : Bullet)
    (hi : g.bullets[i]? = some b) (hb : b.active = true) :
    ∃ b', (UpdateGame L inp g).bullets[i]? = some b' ∧
      (b' = updateBullet inp.dt b ∨ b' = retire (updateBullet inp.dt b)) := by
  rw [UpdateGame_bullets_eq, List.getElem?_map, List.getElem?_map,
    playerPhase_bullets_slot inp g i b hi hb]
  simp only [Option.map_some']
  split_ifs
  · exact ⟨_, rfl, Or.inr rfl⟩
  · exact ⟨_, rfl, Or.inl rfl⟩

theorem UpdateGame_bullet_mem (L : Lib) (inp : Input) (g : Game) (b' : Bullet)
    (h : b' ∈ (UpdateGame L inp g).bullets) :
    ∃ b ∈ (playerPhase inp g).bullets,
      b' = updateBullet inp.dt b ∨ b' = retire (updateBullet inp.dt b) := by
  rw [UpdateGame_bullets_eq] at h
  obtain ⟨b1, hb1, rfl⟩ := List.mem_map.1 h
  obtain ⟨b, hb, rfl⟩ := List.mem_map.1 hb1
  refine ⟨b, hb, ?_⟩
  split_ifs
  · exact Or.inr rfl
  · exact Or.inl rfl

theorem playerPhase_bulletInv (inp : Input) (g : Game) (h : BulletInv g.bullets) :
    BulletInv (playerPhase inp g).bullets := by
  intro b hb ha
  rcases playerPhase_bullets_mem inp g b hb with h' | h'
  · exact h b h' ha
  · exact h'

theorem beforeCollision_bulletInv (inp : Input) (g : Game) (h : BulletInv g.bullets) :
    BulletInv (beforeCollision inp g).bullets := by
  intro b' hb' ha
  rw [beforeCollision_bullets] at hb'
  obtain ⟨b, hb, rfl⟩ := List.mem_map.1 hb'
  obtain ⟨hv, hr, hact⟩ := updateBullet_fields inp.dt b
  rw [hv, hr]
  exact playerPhase_bulletInv inp g h b hb (hact ha)

theorem beforeCollision_bulletsOnScreen (inp : Input) (g : Game) :
    BulletsOnScreen (beforeCollision inp g).bullets := by
  intro b' hb' ha
  rw [beforeCollision_bullets] at hb'
  obtain ⟨b, hb, rfl⟩ := List.mem_map.1 hb'
  have hact := (updateBullet_fields inp.dt b).2.2 ha
  rw [updateBullet_position inp.dt b hact]
  exact (updateBullet_active inp.dt b hact).1 ha

theorem UpdateGame_bulletInv (L : Lib) (inp : Input) (g : Game) (h : BulletInv g.bullets) :
    BulletInv (UpdateGame L inp g).bullets := by
  intro b' hb' ha
  obtain ⟨b, hb, h' | h'⟩ := UpdateGame_bullet_mem L inp g b' hb'
  · obtain ⟨hv, hr, hact⟩ := updateBullet_fields inp.dt b
    rw [h'] at ha ⊢
    rw [hv, hr]
    exact playerPhase_bulletInv inp g h b hb (hact ha)
  · rw [h'] at ha; cases ha

theorem InitGame_bulletInv (g : Game) : BulletInv (InitGame g).bullets := by
  intro b hb ha
  rw [(InitGame_resets g).1 b hb] at ha
  cases ha

theorem reachable_bulletInv {L : Lib} {g : Game} (h : Reachable L g) : BulletInv g.bullets := by
  induction h with
  | init g _ => exact InitGame_bulletInv g
  | tick inp g _ _ ih => exact UpdateGame_bulletInv L inp g ih

/-- C27: in every state reachable from InitGame by UpdateGame ticks, every active
bullet has velocity (0, -500) and radius 4; through a tick an active slot keeps its
x, its velocity and its radius; and in the collision pass every active bullet
passes the filter velocity.y < 0, so that the hit test of an active bullet is the
circle-against-box test alone. -/
theorem bullets_fly_straight (L : Lib) (g : Game) (h : Reachable L g) :
    (∀ b ∈ g.bullets, b.active = true → b.velocity = ⟨0, -500⟩ ∧ b.radius = 4) ∧
    (∀ (inp : Input) (i : Nat) (b : Bullet), g.bullets[i]? = some b → b.active = true →
      ∃ b', (UpdateGame L inp g).bullets[i]? = some b' ∧
        b'.position.x = b.position.x ∧ b'.velocity = ⟨0, -500⟩ ∧ b'.radius = 4) ∧
    (∀ (inp : Input) (e : Enemy), ∀ b ∈ (beforeCollision inp g).bullets, b.active = true →
      b.velocity.y < 0 ∧
        bulletHits L e b = L.CheckCollisionCircleRec b.position b.radius (enemyRect e)) := by
  have hinv := reachable_bulletInv h
  refine ⟨hinv, ?_, ?_⟩
  · intro inp i b hi hb
    obtain ⟨hv, hr⟩ := hinv b (List.getElem?_mem hi) hb
    obtain ⟨b', h1, h2⟩ := UpdateGame_bullet_slot L inp g i b hi hb
    obtain ⟨fv, fr, -⟩ := updateBullet_fields inp.dt b
    have hx : (updateBullet inp.dt b).position.x = b.position.x := by
      rw [updateBullet_position inp.dt b hb, hv]
      show b.position.x + 0 * inp.dt = b.position.x
      ring
    refine ⟨b', h1, ?_⟩
    rcases h2 with h2 | h2
    · rw [h2, fv, fr]; exact ⟨hx, hv, hr⟩
    · rw [h2]
      show (updateBullet inp.dt b).position.x = _ ∧ (updateBullet inp.dt b).velocity = _ ∧
        (updateBullet inp.dt b).radius = _
      rw [fv, fr]; exact ⟨hx, hv, hr⟩
  · intro inp e b hb ha
    obtain ⟨hv, -⟩ := beforeCollision_bulletInv inp g hinv b hb ha
    have hneg : b.velocity.y < 0 := by rw [hv]; norm_num
    refine ⟨hneg, ?_⟩
    unfold bulletHits
    simp [ha, hneg]

theorem bullets_fly_straight_witness :
    Reachable raylib (UpdateGame raylib fireFrame freshGame) ∧
    activeBullets (UpdateGame raylib fireFrame freshGame).bullets = 2 ∧
    (∀ b ∈ (UpdateGame raylib fireFrame freshGame).bullets, b.active = true →
      b.velocity = ⟨0, -500⟩ ∧ b.radius = 4) :=
  ⟨Reachable.tick _ _ (freshGame_reachable _) (by decide!), by decide!,
    (bullets_fly_straight raylib _
      (Reachable.tick _ _ (freshGame_reachable _) (by decide!))).1⟩

/-! ## The enemy pool through a tick -/

theorem moveEnemy_position_y (L : Lib) (dt : ℚ) (e : Enemy) :
    (moveEnemy L dt e).position.y = e.position.y + e.speed * dt := by
  unfold moveEnemy; simp only; split_ifs <;> rfl

theorem moveEnemy_active_iff (L : Lib) (dt : ℚ) (e : Enemy) :
    (moveEnemy L dt e).active = true ↔
      (e.active = true ∧ e.position.y + e.speed * dt ≤ SCREEN_HEIGHT + 50) := by
  unfold moveEnemy
  simp only
  split_ifs with h
  · constructor
    · intro h'; cases h'
    · rintro ⟨-, h2⟩; exact absurd h2 (not_le.mpr h)
  · exact ⟨fun h' => ⟨h', not_lt.mp h⟩, fun h' => h'.1⟩

/-- What the body of the enemy loop leaves in the slot, when the slot is still
active afterwards: the enemy was active, it is still on the screen after its move,
and either no bullet hit it or it has health left. -/
theorem updateEnemy_survivor (L : Lib) (dt : ℚ) (e : Enemy) (g : Game)
    (h : (updateEnemy L dt e g).1.active = true) :
    e.active = true ∧
    (updateEnemy L dt e g).1.type = e.type ∧ (updateEnemy L dt e g).1.size = e.size ∧
    (updateEnemy L dt e g).1.position.y = e.position.y + e.speed * dt ∧
    e.position.y + e.speed * dt ≤ SCREEN_HEIGHT + 50 ∧
    (updateEnemy L dt e g).1.health ≤ e.health ∧
    ((updateEnemy L dt e g).1.health = e.health ∨ 0 < (updateEnemy L dt e g).1.health) := by
  cases ha : e.active
  · rw [updateEnemy_inactive L dt e g ha] at h
    rw [ha] at h; cases h
  · have hs := (updateEnemy_spec L dt e g ha).1
    rw [hs] at h ⊢
    simp only [Bool.and_eq_true] at h
    obtain ⟨h1, -⟩ := h
    by_cases hk : 0 < hitCount L (moveEnemy L dt e) g.bullets ∧
        e.health - (hitCount L (moveEnemy L dt e) g.bullets : Int) ≤ 0
    · rw [if_pos hk] at h1; cases h1
    · rw [if_neg hk] at h1
      have hm := (moveEnemy_active_iff L dt e).1 h1
      refine ⟨rfl, moveEnemy_type L dt e, moveEnemy_size L dt e, moveEnemy_position_y L dt e,
        hm.2, ?_, ?_⟩
      · show e.health - (hitCount L (moveEnemy L dt e) g.bullets : Int) ≤ e.health
        omega
      · show e.health - (hitCount L (moveEnemy L dt e) g.bullets : Int) = e.health ∨
          0 < e.health - (hitCount L (moveEnemy L dt e) g.bullets : Int)
        by_cases hk0 : 0 < hitCount L (moveEnemy L dt e) g.bullets
        · right
          have : ¬ e.health - (hitCount L (moveEnemy L dt e) g.bullets : Int) ≤ 0 :=
            fun h' => hk ⟨hk0, h'⟩
          omega
        · left; omega

theorem updateEnemies_mem (L : Lib) (dt : ℚ) (es : List Enemy) (g : Game) (e' : Enemy)
    (h : e' ∈ (updateEnemies L dt es g).1) :
    ∃ e ∈ es, ∃ g', e' = (updateEnemy L dt e g').1 := by
  induction es generalizing g with
  | nil => cases h
  | cons e es ih =>
    rw [updateEnemies_cons] at h
    rcases List.mem_cons.1 h with h | h
    · exact ⟨e, List.mem_cons_self _ _, g, h⟩
    · obtain ⟨x, hx, g', hg'⟩ := ih _ h
      exact ⟨x, List.mem_cons_of_mem _ hx, g', hg'⟩

theorem spawnInto_mem (L : Lib) (w : Int) (es : List Enemy) (r : Rand) (e' : Enemy)
    (h : e' ∈ (spawnInto L w es r).1) : e' ∈ es ∨ e' = (newEnemy L w r).1 := by
  induction es with
  | nil => cases h
  | cons e es ih =>
    unfold spawnInto at h
    split_ifs at h with ha
    · rcases List.mem_cons.1 h with h | h
      · exact Or.inr h
      · exact Or.inl (List.mem_cons_of_mem _ h)
    · rcases List.mem_cons.1 h with h | h
      · exact Or.inl (h ▸ List.mem_cons_self _ _)
      · rcases ih h with h | h
        · exact Or.inl (List.mem_cons_of_mem _ h)
        · exact Or.inr h

theorem newEnemy_shape (L : Lib) (w : Int) (r : Rand) : EnemyShape (newEnemy L w r).1 := by
  unfold newEnemy EnemyShape
  dsimp only
  split_ifs <;> simp

/-- An enemy of the pool at the end of a tick is the result of the body of the
enemy loop on an enemy of the pool at the start, or a new enemy. -/
theorem UpdateGame_enemy_mem (L : Lib) (inp : Input) (g : Game) (e' : Enemy)
    (h : e' ∈ (UpdateGame L inp g).enemies) :
    (∃ e ∈ g.enemies, ∃ g', e' = (updateEnemy L inp.dt e g').1) ∨
      ∃ w r, e' = (newEnemy L w r).1 := by
  rw [UpdateGame_enemies] at h
  split_ifs at h
  · rcases spawnInto_mem L _ _ _ e' h with h | h
    · left
      have h' : e' ∈ (afterCollision L inp g).enemies := h
      rw [afterCollision_enemies] at h'
      exact updateEnemies_mem L inp.dt g.enemies _ e' h'
    · exact Or.inr ⟨_, _, h⟩
  · left
    rw [afterCollision_enemies] at h
    exact updateEnemies_mem L inp.dt g.enemies _ e' h

theorem updateEnemy_shape (L : Lib) (dt : ℚ) (e : Enemy) (g : Game)
    (h : e.active = true → EnemyShape e)
    (ha : (updateEnemy L dt e g).1.active = true) : EnemyShape (updateEnemy L dt e g).1 := by
  obtain ⟨h0, ht, hs, -, -, hle, hpos⟩ := updateEnemy_survivor L dt e g ha
  unfold EnemyShape
  rw [ht, hs]
  rcases h h0 with ⟨a, b, c⟩ | ⟨a, b, c⟩ | ⟨a, b, c, d⟩
  · left; exact ⟨a, b, by omega⟩
  · right; left; exact ⟨a, b, by omega⟩
  · right; right; exact ⟨a, b, by omega, by omega⟩

theorem UpdateGame_enemiesShaped (L : Lib) (inp : Input) (g : Game)
    (h : EnemiesShaped g.enemies) : EnemiesShaped (UpdateGame L inp g).enemies := by
  intro e' he' ha
  rcases UpdateGame_enemy_mem L inp g e' he' with ⟨e, he, g', rfl⟩ | ⟨w, r, rfl⟩
  · exact updateEnemy_shape L inp.dt e g' (h e he) ha
  · exact newEnemy_shape L w r

theorem SpawnEnemy_enemiesShaped (L : Lib) (g : Game) (h : EnemiesShaped g.enemies) :
    EnemiesShaped (SpawnEnemy L g).enemies := by
  intro e' he' ha
  rcases spawnInto_mem L _ _ _ e' he' with h' | h'
  · exact h e' h' ha
  · rw [h']; exact newEnemy_shape L _ _

theorem InitGame_enemiesShaped (g : Game) : EnemiesShaped (InitGame g).enemies := by
  intro e he ha
  rw [(InitGame_resets g).2.1 e he] at ha
  cases ha

theorem reachableSpawn_enemiesShaped {L : Lib} {g : Game} (h : ReachableSpawn L g) :
    EnemiesShaped g.enemies := by
  induction h with
  | init g _ => exact InitGame_enemiesShaped g
  | tick inp g _ _ ih => exact UpdateGame_enemiesShaped L inp g ih
  | spawn g _ ih => exact SpawnEnemy_enemiesShaped L g ih

theorem reachable_reachableSpawn {L : Lib} {g : Game} (h : Reachable L g) :
    ReachableSpawn L g := by
  induction h with
  | init g hw => exact ReachableSpawn.init g hw
  | tick inp g _ hdt ih => exact ReachableSpawn.tick inp g ih hdt

/-- C21: in every state reachable from InitGame by UpdateGame ticks and calls of
SpawnEnemy, every active enemy has health > 0 and is of type 0 with size 30 by 30
and health 1, of type 1 with size 20 by 20 and health 1, or of type 2 with size 40
by 40 and health between 1 and 3. -/
theorem enemy_shape_invariant (L : Lib) (g : Game) (h : ReachableSpawn L g) :
    ∀ e ∈ g.enemies, e.active = true →
      0 < e.health ∧
      ((e.type = 0 ∧ e.size = ⟨30, 30⟩ ∧ e.health = 1) ∨
        (e.type = 1 ∧ e.size = ⟨20, 20⟩ ∧ e.health = 1) ∨
        (e.type = 2 ∧ e.size = ⟨40, 40⟩ ∧ 1 ≤ e.health ∧ e.health ≤ 3)) := by
  intro e he ha
  have hs := reachableSpawn_enemiesShaped h e he ha
  refine ⟨?_, hs⟩
  rcases hs with ⟨-, -, c⟩ | ⟨-, -, c⟩ | ⟨-, -, c, -⟩ <;> omega

theorem enemy_shape_invariant_witness :
    ReachableSpawn raylib (SpawnEnemy raylib (UpdateGame raylib (idle 2) freshGame)) ∧
    ((SpawnEnemy raylib (UpdateGame raylib (idle 2) freshGame)).enemies.countP fun e => e.active)
      = 2 ∧
    ∀ e ∈ (SpawnEnemy raylib (UpdateGame raylib (idle 2) freshGame)).enemies, e.active = true →
      0 < e.health ∧
      ((e.type = 0 ∧ e.size = ⟨30, 30⟩ ∧ e.health = 1) ∨
        (e.type = 1 ∧ e.size = ⟨20, 20⟩ ∧ e.health = 1) ∨
        (e.type = 2 ∧ e.size = ⟨40, 40⟩ ∧ 1 ≤ e.health ∧ e.health ≤ 3)) :=
  ⟨ReachableSpawn.spawn _
      (ReachableSpawn.tick _ _ (ReachableSpawn.init _ (zeroGame_wellFormed _)) (by decide!)),
    by decide!,
    enemy_shape_invariant raylib _
      (ReachableSpawn.spawn _
        (ReachableSpawn.tick _ _ (ReachableSpawn.init _ (zeroGame_wellFormed _)) (by decide!)))⟩

/-! ## Retirement at the screen margins -/

theorem retireHits_none (L : Lib) (e : Enemy) (bs : List Bullet)
    (h : ∀ b ∈ bs, bulletHits L e b = false) : retireHits L e bs = bs := by
  unfold retireHits
  conv_rhs => rw [← List.map_id bs]
  apply List.map_congr_left
  intro b hb
  simp [h b hb]

/-- If bullets hit one enemy of the pool only, the score gained in the enemy loop
is the gain from that enemy. -/
theorem passScore_only (L : Lib) (dt : ℚ) (pre post : List Enemy) (e : Enemy)
    (bs : List Bullet) (he : e.active = true)
    (hothers : ∀ e' ∈ pre ++ post, e'.active = true →
      ∀ b ∈ bs, bulletHits L (moveEnemy L dt e') b = false) :
    passScore L dt (pre ++ e :: post) bs = scoreGain L (moveEnemy L dt e) bs := by
  induction pre with
  | nil =>
    rw [List.nil_append, passScore_cons, if_pos he]
    have : passScore L dt post (retireHits L (moveEnemy L dt e) bs) = 0 := by
      apply passScore_of_no_hit
      intro e' he' ha' b' hb'
      obtain ⟨b, hb, hbb⟩ := mem_retireHits L _ _ _ hb'
      rcases hbb with rfl | rfl
      · exact hothers e' (by simpa using he') ha' _ hb
      · exact bulletHits_retire L _ _
    rw [this, add_zero]
  | cons x pre ih =>
    have ih' := ih fun e' he' => hothers e' (by
      rcases List.mem_append.1 he' with h | h
      · exact List.mem_append_left _ (List.mem_cons_of_mem _ h)
      · exact List.mem_append_right _ h)
    rw [List.cons_append, passScore_cons]
    cases hx : x.active
    · simp only [Bool.false_eq_true, if_false]
      exact ih'
    · have hnone := hothers x (by simp) hx
      simp only [if_true]
      rw [scoreGain_of_no_hit L _ _ (hitCount_eq_zero L _ _ hnone), zero_add,
        retireHits_none L _ _ hnone]
      exact ih'

/-- C25, as stated, fails on the score: in this tick the Normal enemy of slot 0 is
active with health 1, the left bullet of the volley is the one bullet that hits it,
its box overlaps the box of the player, who is active with damage_timer 0; the
player loses one health point, but the right bullet kills the Fast enemy of slot 1
in the same tick and the score rises by 250, not by the 100 of the Normal enemy. -/
theorem kill_and_contact_counterexample :
    ramPairGame.enemies[0]? = some rammer ∧
    rammer.active = true ∧ rammer.health = 1 ∧ points rammer.type = 100 ∧
    hitCount raylib (moveEnemy raylib (1 / 60) rammer)
      (beforeCollision fireFrame ramPairGame).bullets = 1 ∧
    overlaps raylib (beforeCollision fireFrame ramPairGame).player
      (moveEnemy raylib (1 / 60) rammer) = true ∧
    ramPairGame.player.active = true ∧
    (beforeCollision fireFrame ramPairGame).player.damage_timer ≤ 0 ∧
    (UpdateGame raylib fireFrame ramPairGame).player.health
      = ramPairGame.player.health - 1 ∧
    (UpdateGame raylib fireFrame ramPairGame).player.score
      = ramPairGame.player.score + 250 :=
  ⟨by decide!, by decide!, by decide!, by decide!, by decide!, by decide!, by decide!,
    by decide!, by decide!, by decide!⟩

/-- C25, amended: take a tick in which an active enemy with health 1 is hit by
exactly one bullet and overlaps the box of the player, the player is active with
damage_timer at most 0 after the per-tick decrement, and no bullet hits any other
active enemy.  Then the bullet kills the enemy and the contact test still runs on
it: after the tick the score has risen by the value of the enemy's type, the
player's health is one less than before and damage_timer is 1. -/
theorem kill_and_contact (L : Lib) (inp : Input) (g : Game) (pre post : List Enemy)
    (e : Enemy)
    (hsplit : g.enemies = pre ++ e :: post)
    (he : e.active = true) (hh : e.health = 1)
    (hhits : hitCount L (moveEnemy L inp.dt e) (beforeCollision inp g).bullets = 1)
    (hov : overlaps L (beforeCollision inp g).player (moveEnemy L inp.dt e) = true)
    (ha : g.player.active = true)
    (ht : (beforeCollision inp g).player.damage_timer ≤ 0)
    (hothers : ∀ e' ∈ pre ++ post, e'.active = true →
      ∀ b ∈ (beforeCollision inp g).bullets, bulletHits L (moveEnemy L inp.dt e') b = false) :
    (UpdateGame L inp g).player.score = g.player.score + points e.type ∧
    (UpdateGame L inp g).player.health = g.player.health - 1 ∧
    (UpdateGame L inp g).player.damage_timer = 1 := by
  have hexp := UpdateGame_expired L inp g ha
    (by
      have h := ht
      rw [beforeCollision_damage_timer] at h
      split_ifs at h with hp
      · right; linarith
      · left; exact h)
    ⟨e, by rw [hsplit]; simp, he, hov⟩
  refine ⟨?_, hexp.1, hexp.2⟩
  rw [UpdateGame_score, hsplit, passScore_only L inp.dt pre post e _ he hothers]
  unfold scoreGain
  rw [hhits, moveEnemy_type, moveEnemy_health, hh]
  have : max (0 : Int) (((1 : Nat) : Int) - max (1 - 1) 0) = 1 := by decide
  rw [this, mul_one]

theorem kill_and_contact_witness :
    ramGame.enemies = [] ++ rammer :: List.replicate 19 ⟨⟨0, 0⟩, ⟨0, 0⟩, 0, 0, false, 0, 0⟩ ∧
    rammer.active = true ∧ rammer.health = 1 ∧
    hitCount raylib (moveEnemy raylib fireFrame.dt rammer)
      (beforeCollision fireFrame ramGame).bullets = 1 ∧
    overlaps raylib (beforeCollision fireFrame ramGame).player
      (moveEnemy raylib fireFrame.dt rammer) = true ∧
    ramGame.player.active = true ∧
    (beforeCollision fireFrame ramGame).player.damage_timer ≤ 0 ∧
    ((UpdateGame raylib fireFrame ramGame).player.score
        = ramGame.player.score + points rammer.type ∧
      (UpdateGame raylib fireFrame ramGame).player.health = ramGame.player.health - 1 ∧
      (UpdateGame raylib fireFrame ramGame).player.damage_timer = 1) :=
  ⟨rfl, by decide!, by decide!, by decide!, by decide!, by decide!, by decide!,
    kill_and_contact raylib fireFrame ramGame []
      (List.replicate 19 ⟨⟨0, 0⟩, ⟨0, 0⟩, 0, 0, false, 0, 0⟩) rammer rfl
      (by decide!) (by decide!) (by decide!) (by decide!) (by decide!) (by decide!)
      (by decide!)⟩

/-! ## An enemy that leaves the screen touches nothing -/

theorem raylib_verticalLib : VerticalLib raylib := by
  constructor
  · intro c r rec h
    have h' : rlCheckCollisionCircleRec c r rec = true := h
    unfold rlCheckCollisionCircleRec at h'
    simp only at h'
    by_cases h2 : |c.y - (rec.y + rec.height / 2)| > rec.height / 2 + r
    · split_ifs at h'
    · have h3 := not_lt.mp h2
      have h4 := (abs_le.mp h3).1
      linarith
  · intro a b h
    have h' : rlCheckCollisionRecs a b = true := h
    unfold rlCheckCollisionRecs at h'
    rw [decide_eq_true_iff] at h'
    exact h'.2.2

theorem enemyShape_size_le (e : Enemy) (h : EnemyShape e) : e.size.y ≤ 40 := by
  rcases h with ⟨-, b, -⟩ | ⟨-, b, -⟩ | ⟨-, b, -⟩ <;> rw [b] <;> norm_num

theorem updateEnemy_quiet_pair (L : Lib) (dt : ℚ) (e : Enemy) (g : Game) (ha : e.active = true)
    (hhit : hitCount L (moveEnemy L dt e) g.bullets = 0)
    (hov : overlaps L g.player (moveEnemy L dt e) = false) :
    updateEnemy L dt e g = (moveEnemy L dt e, g) := by
  rw [updateEnemy_active L dt e g ha, collideBullets_none L g.bullets _ g hhit]
  have hc : contact L g.player (moveEnemy L dt e) = false := by
    rw [contact_eq, hov]; simp
  exact playerContact_miss L (moveEnemy L dt e) g hc

/-- C26: in a tick from a state reachable from InitGame, with collision tests
that report a collision only if the vertical extents of the two shapes meet, an
active enemy whose move takes it below y = 650 is retired by its move, and the two
collision tests that still run on it find nothing: the top edge of its box is
below y = 630, every active bullet reaches down to y = 614 at most and the player's
box to y = 600 at most; no bullet is retired by it, the player is not damaged, and
the body of the enemy loop leaves the rest of the state as it was. -/
theorem offscreen_enemy_harmless (L : Lib) (hL : VerticalLib L) (g : Game)
    (hr : Reachable L g) (inp : Input) (pre post : List Enemy) (e : Enemy)
    (hsplit : g.enemies = pre ++ e :: post) (he : e.active = true)
    (hy : 650 < e.position.y + e.speed * inp.dt) :
    (moveEnemy L inp.dt e).active = false ∧
    630 < (enemyRect (moveEnemy L inp.dt e)).y ∧
    (∀ b ∈ (updateEnemies L inp.dt pre (beforeCollision inp g)).2.bullets, b.active = true →
      b.position.y + b.radius ≤ 614) ∧
    (playerRect (updateEnemies L inp.dt pre (beforeCollision inp g)).2.player).y +
      (playerRect (updateEnemies L inp.dt pre (beforeCollision inp g)).2.player).height ≤ 600 ∧
    (∀ b ∈ (updateEnemies L inp.dt pre (beforeCollision inp g)).2.bullets,
      bulletHits L (moveEnemy L inp.dt e) b = false) ∧
    overlaps L (updateEnemies L inp.dt pre (beforeCollision inp g)).2.player
      (moveEnemy L inp.dt e) = false ∧
    updateEnemy L inp.dt e (updateEnemies L inp.dt pre (beforeCollision inp g)).2 =
      (moveEnemy L inp.dt e, (updateEnemies L inp.dt pre (beforeCollision inp g)).2) := by
  have hmem : e ∈ g.enemies := by rw [hsplit]; simp
  have hshape := reachableSpawn_enemiesShaped (reachable_reachableSpawn hr) e hmem he
  have hsize := enemyShape_size_le e hshape
  have hgone : (moveEnemy L inp.dt e).active = false := by
    cases hm : (moveEnemy L inp.dt e).active
    · rfl
    · have := ((moveEnemy_active_iff L inp.dt e).1 hm).2
      simp only [SCREEN_HEIGHT] at this
      linarith
  have htop : 630 < (enemyRect (moveEnemy L inp.dt e)).y := by
    show 630 < (moveEnemy L inp.dt e).position.y - (moveEnemy L inp.dt e).size.y / 2
    rw [moveEnemy_position_y, moveEnemy_size]
    linarith
  have hbul : ∀ b ∈ (updateEnemies L inp.dt pre (beforeCollision inp g)).2.bullets,
      b.active = true → b.position.y + b.radius ≤ 614 := by
    intro b' hb' ha'
    rw [updateEnemies_bullets] at hb'
    obtain ⟨b, hb, rfl⟩ := List.mem_map.1 hb'
    split_ifs at ha' ⊢ with hh
    · cases ha'
    · obtain ⟨-, hrad⟩ := beforeCollision_bulletInv inp g (reachable_bulletInv hr) b hb ha'
      obtain ⟨-, hy2⟩ := beforeCollision_bulletsOnScreen inp g b hb ha'
      simp only [SCREEN_HEIGHT] at hy2
      rw [hrad]
      linarith
  have hframe := updateEnemies_frame L inp.dt pre (beforeCollision inp g)
  have hbox := UpdateGame_playerBox L inp g (reachable_playerBox hr)
  have hpos : (updateEnemies L inp.dt pre (beforeCollision inp g)).2.player.position =
      (UpdateGame L inp g).player.position := by
    rw [hframe.playerPosition, UpdateGame_player_position]
    simp only [beforeCollision, tickDamageTimer_position]
    unfold playerPhase
    dsimp only
    split_ifs <;> rfl
  have hsz : (updateEnemies L inp.dt pre (beforeCollision inp g)).2.player.size = ⟨40, 40⟩ := by
    rw [hframe.playerSize, beforeCollision_player_size]
    exact (reachable_playerBox hr).1
  have hbot : (playerRect (updateEnemies L inp.dt pre (beforeCollision inp g)).2.player).y +
      (playerRect (updateEnemies L inp.dt pre (beforeCollision inp g)).2.player).height
        ≤ 600 := by
    unfold playerRect
    simp only [hpos, hsz]
    linarith [hbox.2.2.2]
  have hmiss : ∀ b ∈ (updateEnemies L inp.dt pre (beforeCollision inp g)).2.bullets,
      bulletHits L (moveEnemy L inp.dt e) b = false := by
    intro b hb
    cases hres : bulletHits L (moveEnemy L inp.dt e) b
    · rfl
    · unfold bulletHits at hres
      simp only [Bool.and_eq_true] at hres
      have h1 := hL.1 _ _ _ hres.2
      have h2 := hbul b hb hres.1.1
      linarith
  have hov : overlaps L (updateEnemies L inp.dt pre (beforeCollision inp g)).2.player
      (moveEnemy L inp.dt e) = false := by
    cases hres : overlaps L (updateEnemies L inp.dt pre (beforeCollision inp g)).2.player
      (moveEnemy L inp.dt e)
    · rfl
    · have h1 := hL.2 _ _ hres
      linarith
  exact ⟨hgone, htop, hbul, hbot, hmiss, hov,
    updateEnemy_quiet_pair L inp.dt e _ he (hitCount_eq_zero L _ _ hmiss) hov⟩

theorem offscreen_enemy_harmless_witness :
    VerticalLib raylib ∧ Reachable raylib lateGame ∧
    lateGame.enemies[1]? = some sprinter ∧ sprinter.active = true ∧
    650 < sprinter.position.y + sprinter.speed * (idle (13 / 20)).dt ∧
    updateEnemy raylib (idle (13 / 20)).dt sprinter
        (updateEnemies raylib (idle (13 / 20)).dt (lateGame.enemies.take 1)
          (beforeCollision (idle (13 / 20)) lateGame)).2 =
      (moveEnemy raylib (idle (13 / 20)).dt sprinter,
        (updateEnemies raylib (idle (13 / 20)).dt (lateGame.enemies.take 1)
          (beforeCollision (idle (13 / 20)) lateGame)).2) :=
  ⟨raylib_verticalLib,
    Reachable.tick _ _ (Reachable.tick _ _ (freshGame_reachable _) (by decide!)) (by decide!),
    by decide!, by decide!, by decide!,
    (offscreen_enemy_harmless raylib raylib_verticalLib lateGame
      (Reachable.tick _ _ (Reachable.tick _ _ (freshGame_reachable _) (by decide!)) (by decide!))
      (idle (13 / 20)) (lateGame.enemies.take 1) (lateGame.enemies.drop 2) sprinter
      (by decide!) (by decide!) (by decide!)).2.2.2.2.2.2⟩

/-! ## The course list -/

theorem addCourses_spec (courses : List (Option Course)) (list : CourseList) :
    (addCourses courses list).head = courses.reduceOption.reverse ++ list.head ∧
      (addCourses courses list).count = list.count + courses.reduceOption.length := by
  induction courses generalizing list with
  | nil => simp [addCourses]
  | cons c rest ih =>
    have hstep : addCourses (c :: rest) list = addCourses rest (courselist_add list c) := rfl
    rw [hstep]
    obtain ⟨h1, h2⟩ := ih (courselist_add list c)
    cases c with
    | none =>
      rw [h1, h2]
      simp [courselist_add, List.reduceOption_cons_of_none]
    | some x =>
      rw [h1, h2]
      simp only [courselist_add, List.reduceOption_cons_of_some, List.reverse_cons,
        List.append_assoc, List.singleton_append, List.length_cons, Nat.cast_add, Nat.cast_one]
      exact ⟨trivial, by ring⟩

theorem findByCode_none (cs : List Course) (code : String) :
    findByCode cs code = none ↔ ∀ c ∈ cs, c.code ≠ code := by
  induction cs with
  | nil => simp [findByCode]
  | cons c rest ih =>
    unfold findByCode
    split_ifs with h
    · simp [h]
    · rw [ih]
      simp [h]

theorem findByCode_some (cs : List Course) (code : String) (c : Course) :
    findByCode cs code = some c ↔
      ∃ pre post, cs = pre ++ c :: post ∧ c.code = code ∧ ∀ d ∈ pre, d.code ≠ code := by
  induction cs with
  | nil => simp [findByCode]
  | cons x rest ih =>
    unfold findByCode
    split_ifs with h
    · constructor
      · intro hx
        have hx' : x = c := Option.some.inj hx
        exact ⟨[], rest, by rw [hx']; rfl, by rw [← hx']; exact h, by simp⟩
      · rintro ⟨pre, post, hsplit, hc, hpre⟩
        cases pre with
        | nil =>
          simp only [List.nil_append, List.cons.injEq] at hsplit
          rw [hsplit.1]
        | cons p pre' =>
          simp only [List.cons_append, List.cons.injEq] at hsplit
          exact absurd h (by rw [hsplit.1]; exact hpre p (List.mem_cons_self _ _))
    · rw [ih]
      constructor
      · rintro ⟨pre, post, hsplit, hc, hpre⟩
        refine ⟨x :: pre, post, by rw [hsplit]; rfl, hc, ?_⟩
        intro d hd
        rcases List.mem_cons.1 hd with rfl | hd
        · exact h
        · exact hpre d hd
      · rintro ⟨pre, post, hsplit, hc, hpre⟩
        cases pre with
        | nil =>
          simp only [List.nil_append, List.cons.injEq] at hsplit
          exact absurd (by rw [hsplit.1]; exact hc) h
        | cons p pre' =>
          simp only [List.cons_append, List.cons.injEq] at hsplit
          exact ⟨pre', post, hsplit.2, hc, fun d hd => hpre d (List.mem_cons_of_mem _ hd)⟩

/-- C29: for the list built from courselist_create by a run of courselist_add
calls (a NULL course adds nothing), with cs the courses added in call order:
count is the number of courses added, the chain holds them most recent first,
courselist_find_by_code with a query string returns the most recently added
course whose code equals the query (the one with no later course of that code),
and it returns NULL if and only if no course of the list has that code. -/
theorem courselist_find_spec (courses : List (Option Course)) :
    (addCourses courses courselist_create).count = courses.reduceOption.length ∧
    (addCourses courses courselist_create).head = courses.reduceOption.reverse ∧
    (∀ (code : String) (c : Course),
      courselist_find_by_code (addCourses courses courselist_create) (some code) = some c ↔
        ∃ before later, courses.reduceOption = before ++ c :: later ∧ c.code = code ∧
          ∀ d ∈ later, d.code ≠ code) ∧
    (∀ code : String,
      courselist_find_by_code (addCourses courses courselist_create) (some code) = none ↔
        ∀ c ∈ courses.reduceOption, c.code ≠ code) := by
  obtain ⟨h1, h2⟩ := addCourses_spec courses courselist_create
  have hhead : (addCourses courses courselist_create).head = courses.reduceOption.reverse := by
    rw [h1]; simp [courselist_create]
  refine ⟨?_, hhead, ?_, ?_⟩
  · rw [h2]; simp [courselist_create]
  · intro code c
    show findByCode (addCourses courses courselist_create).head code = some c ↔ _
    rw [hhead, findByCode_some]
    constructor
    · rintro ⟨pre, post, hsplit, hc, hpre⟩
      refine ⟨post.reverse, pre.reverse, ?_, hc, fun d hd => hpre d (List.mem_reverse.1 hd)⟩
      have := congrArg List.reverse hsplit
      simpa using this
    · rintro ⟨before, later, hsplit, hc, hlater⟩
      refine ⟨later.reverse, before.reverse, ?_, hc,
        fun d hd => hlater d (List.mem_reverse.1 hd)⟩
      rw [hsplit]; simp
  · intro code
    show findByCode (addCourses courses courselist_create).head code = none ↔ _
    rw [hhead, findByCode_none]
    simp

theorem courselist_find_spec_example :
    (addCourses (sampleCourses.map some) courselist_create).count = 5 ∧
    (courselist_find_by_code (addCourses (sampleCourses.map some) courselist_create)
      (some "PHYS101")).map (fun c => c.id) = some 3 ∧
    courselist_find_by_code (addCourses (sampleCourses.map some) courselist_create)
      (some "CS999") = none := by
  decide

/-! ## Course ids and course boxes -/

theorem course_boxes_example :
    sampleCourses.map (fun c => (c.id, c.x, c.y)) =
      [(1, 300, 100), (2, 500, 100), (3, 700, 100), (4, 100, 250), (5, 300, 250)] := by
  decide

end SpaceShooter
